import Mathlib

/-!
# GosuRaycast: a shallow embedding of `raycaster.cpp`

The camera operations and the renderer of `Gosu::RayCaster` are translated
function by function.  Arithmetic on `double` and `float` is modelled exactly,
over an arbitrary linear ordered field `α` with a floor function (so the
definitions run on `ℚ` and the theorems hold on `ℝ`); the functions of
`<math.h>` that the source calls (`cos`, `sin`, `atan2`, `sqrt`) and the
constant `M_PI` are parameters of the operations that use them.  A division
whose divisor is zero evaluates to `0` in the model, as everywhere in Mathlib;
statements that depend on a quotient say when its divisor is non-zero.  The
model does not round: where the rounding of `double` arithmetic can change a
value that a statement names, the statement gives the value with a tolerance.
A `double` that is not a number has no counterpart in an ordered field; the
operations whose result depends on it (`clamp` and the setters built on it)
take any type with a comparison and are also run on `Double`, the numbers
extended by `NaN`.
Values of type `int` and `unsigned` are integers and naturals without bound,
and the conversion of a `double` to `int` is the truncation toward zero.

The file-scope variables of `raycaster.cpp` (lines 14-32) are the fields of
`Camera`, apart from `_ceiling_floor`, which `draw` receives and returns
explicitly.  The calls that `draw` makes on Gosu images are collected in a list
of `DrawCall`, in the order in which they are issued.  Loops that the source
leaves open-ended (`while(casting)`) take a number of iterations `fuel` and
return `none` when it does not suffice.
-/

set_option linter.dupNamespace false
set_option linter.unusedSectionVars false
set_option linter.unusedVariables false

namespace Gosu

/-- Value of `Gosu::clamp<T>(value, min, max)` (Gosu/Math.hpp): `min` when
`value < min`, otherwise `max` when `value > max`, otherwise `value`.  Only the
comparison `<` of `T` is used, so that the definition also runs on a type whose
comparison is not a total order (`Double`, below). -/
def clamp {α : Type} [LT α] [DecidableRel ((· < ·) : α → α → Prop)] (value lo hi : α) : α :=
  if value < lo then lo else if value > hi then hi else value

/-- A value of type `double` where it matters that a `double` need not be a
number: `NaN`, or the number `value` of `α`.  Every comparison with `NaN` is
false and every sum with `NaN` is `NaN`, as in IEEE 754. -/
inductive Double (α : Type) where
  | NaN : Double α
  | num (value : α) : Double α

/-- The comparison `a < b` of two `double`s: false when one of them is `NaN`. -/
def Double.lt {α : Type} [LT α] : Double α → Double α → Prop
  | Double.num x, Double.num y => x < y
  | Double.num _, Double.NaN => False
  | Double.NaN, _ => False

/-- The comparison `a <= b` of two `double`s: false when one of them is `NaN`. -/
def Double.le {α : Type} [LE α] : Double α → Double α → Prop
  | Double.num x, Double.num y => x ≤ y
  | Double.num _, Double.NaN => False
  | Double.NaN, _ => False

/-- The sum `a + b` of two `double`s: `NaN` when one of them is `NaN`. -/
def Double.add {α : Type} [Add α] : Double α → Double α → Double α
  | Double.num x, Double.num y => Double.num (x + y)
  | Double.num _, Double.NaN => Double.NaN
  | Double.NaN, _ => Double.NaN

/-- The negation `-a` of a `double`. -/
def Double.neg {α : Type} [Neg α] : Double α → Double α
  | Double.num x => Double.num (-x)
  | Double.NaN => Double.NaN

instance Double.instLT {α : Type} [LT α] : LT (Double α) := ⟨Double.lt⟩

instance Double.instLE {α : Type} [LE α] : LE (Double α) := ⟨Double.le⟩

instance Double.instAdd {α : Type} [Add α] : Add (Double α) := ⟨Double.add⟩

instance Double.instNeg {α : Type} [Neg α] : Neg (Double α) := ⟨Double.neg⟩

instance Double.instOfScientific {α : Type} [OfScientific α] : OfScientific (Double α) :=
  ⟨fun m s e => Double.num (OfScientific.ofScientific m s e)⟩

instance Double.instDecidableLt {α : Type} [LT α] [DecidableRel ((· < ·) : α → α → Prop)] :
    DecidableRel ((· < ·) : Double α → Double α → Prop)
  | Double.num x, Double.num y => inferInstanceAs (Decidable (x < y))
  | Double.num _, Double.NaN => isFalse (fun h => h)
  | Double.NaN, _ => isFalse (fun h => h)

namespace RayCaster

/-- The file-scope camera variables of `raycaster.cpp`, lines 14-30. -/
structure Camera (α : Type) where
  _ready : Bool
  _fps_enabled : Bool
  _pos_x : α
  _pos_y : α
  _dir_x : α
  _dir_y : α
  _plane_x : α
  _plane_y : α
  _rotation : α
  _camera_pitch : α
  _camera_bob_current : α
  _camera_bob_range : α
  _camera_bob_direction : Int

section CameraOps

variable {α : Type} [LinearOrderedField α]

/-- The camera variables at program start: objects of static storage duration
are zero-initialised. -/
def staticInit : Camera α :=
  { _ready := false
    _fps_enabled := false
    _pos_x := 0
    _pos_y := 0
    _dir_x := 0
    _dir_y := 0
    _plane_x := 0
    _plane_y := 0
    _rotation := 0
    _camera_pitch := 0
    _camera_bob_current := 0
    _camera_bob_range := 0
    _camera_bob_direction := 0 }

/-- The constructor `RayCaster::RayCaster()`.  The camera variables have static
storage, so the constructor runs on whatever they hold (`g`) and leaves the
position untouched. -/
def RayCaster (g : Camera α) : Camera α :=
  { g with
    _ready := false
    _camera_pitch := 0
    _camera_bob_current := 0
    _camera_bob_range := 0
    _camera_bob_direction := 1
    _plane_x := 0.66
    _plane_y := 0
    _dir_x := 0
    _dir_y := -1
    _rotation := 0
    _fps_enabled := false }

/-- The method `setDisplayFPS(enable)`. -/
def setDisplayFPS (enable : Bool) (c : Camera α) : Camera α :=
  { c with _fps_enabled := enable }

/-- The method `setCameraPosition(x, y)`. -/
def setCameraPosition (x y : α) (c : Camera α) : Camera α :=
  { c with _ready := true, _pos_x := x, _pos_y := y }

/-- The method `getCameraPosition()`. -/
def getCameraPosition (c : Camera α) : α × α := (c._pos_x, c._pos_y)

/-- The method `rotateCamera(degrees)`; `cos`, `sin` and `M_PI` come from
`<math.h>`. -/
def rotateCamera (cos sin : α → α) (M_PI : α) (degrees : α) (c : Camera α) : Camera α :=
  let PI_HALF := M_PI / 180
  let amount := degrees * PI_HALF
  let old := c._dir_x
  let dir_x := c._dir_x * cos amount - c._dir_y * sin amount
  let dir_y := old * sin amount + c._dir_y * cos amount
  let plane_x := dir_y * -0.66
  let plane_y := dir_x * 0.66
  let rotation := c._rotation + degrees
  let rotation := if rotation > 360 then rotation - 360 else rotation
  let rotation := if rotation < 0 then rotation + 360 else rotation
  { c with
    _dir_x := dir_x
    _dir_y := dir_y
    _plane_x := plane_x
    _plane_y := plane_y
    _rotation := rotation }

/-- The method `getCameraRotation()`. -/
def getCameraRotation (c : Camera α) : α := c._rotation

/-- The method `getCoordinateSystem()`. -/
def getCoordinateSystem (c : Camera α) : α × α := (c._dir_x, c._dir_y)

/-- The method `setCoordinateSystem(x, y)`; `atan2` and `M_PI` come from
`<math.h>`, and `atan2` takes its arguments in the order of the C function. -/
def setCoordinateSystem (atan2 : α → α → α) (M_PI : α) (x y : α) (c : Camera α) : Camera α :=
  { c with
    _dir_x := x
    _dir_y := y
    _rotation := atan2 x y * (180 / M_PI)
    _plane_x := y * -0.66
    _plane_y := x * 0.66 }

/-- The method `transformCamera(forward, strafe, query)`. -/
def transformCamera (forward strafe : α) (query : α → α → Bool) (c : Camera α) : Camera α :=
  let old_position := getCameraPosition c
  let c := { c with _pos_x := c._pos_x + c._dir_x * forward, _pos_y := c._pos_y + c._dir_y * forward }
  let c := { c with _pos_x := c._pos_x + c._plane_x * strafe, _pos_y := c._pos_y + c._plane_y * strafe }
  if query c._pos_x c._pos_y then
    if query c._pos_x old_position.2 = false then
      { c with _pos_y := old_position.2 }
    else if query old_position.1 c._pos_y = false then
      { c with _pos_x := old_position.1 }
    else
      { c with _pos_x := old_position.1, _pos_y := old_position.2 }
  else c

/-- The method `setCameraBobRange(amount)`; it needs only the comparison, the
negation and the literals of its number type `β`. -/
def setCameraBobRange {β : Type} [LT β] [DecidableRel ((· < ·) : β → β → Prop)] [Neg β]
    [OfScientific β] (amount : β) (c : Camera β) : Camera β :=
  let c := { c with _camera_bob_range := amount }
  { c with _camera_bob_range := clamp c._camera_bob_range (-0.5) 0.5 }

/-- The method `getCameraBobRange()`. -/
def getCameraBobRange {β : Type} (c : Camera β) : β := c._camera_bob_range

/-- The method `bobCamera(amount)`. -/
def bobCamera (amount : α) (c : Camera α) : Camera α :=
  if c._camera_bob_range = 0 ∧ c._camera_bob_current = 0 then c
  else
    let c := { c with
      _camera_bob_current := c._camera_bob_current + amount * (c._camera_bob_direction : α) }
    if c._camera_bob_direction = 1 ∧ c._camera_bob_current > c._camera_bob_range then
      let c := { c with _camera_bob_direction := -1 }
      if c._camera_bob_current - c._camera_bob_range < 0.1 then
        { c with _camera_bob_current := c._camera_bob_range }
      else c
    else if c._camera_bob_direction = -1 ∧ c._camera_bob_current < -c._camera_bob_range then
      let c := { c with _camera_bob_direction := 1 }
      if c._camera_bob_range - c._camera_bob_current < 0.1 then
        { c with _camera_bob_current := -c._camera_bob_range }
      else c
    else c

/-- The method `setCameraPitch(amount)`; it needs only the comparison, the
negation and the literals of its number type `β`. -/
def setCameraPitch {β : Type} [LT β] [DecidableRel ((· < ·) : β → β → Prop)] [Neg β]
    [OfScientific β] (amount : β) (c : Camera β) : Camera β :=
  let c := { c with _camera_pitch := amount }
  { c with _camera_pitch := clamp c._camera_pitch (-0.5) 0.5 }

/-- The method `pitchCamera(amount)`. -/
def pitchCamera {β : Type} [LT β] [DecidableRel ((· < ·) : β → β → Prop)] [Neg β] [Add β]
    [OfScientific β] (amount : β) (c : Camera β) : Camera β :=
  setCameraPitch (c._camera_pitch + amount) c

/-- The method `getCameraPitch()`. -/
def getCameraPitch {β : Type} (c : Camera β) : β := c._camera_pitch

/-- The camera variables read as `double`s that are all numbers. -/
def Camera.toDouble {β : Type} (c : Camera β) : Camera (Double β) :=
  { _ready := c._ready
    _fps_enabled := c._fps_enabled
    _pos_x := Double.num c._pos_x
    _pos_y := Double.num c._pos_y
    _dir_x := Double.num c._dir_x
    _dir_y := Double.num c._dir_y
    _plane_x := Double.num c._plane_x
    _plane_y := Double.num c._plane_y
    _rotation := Double.num c._rotation
    _camera_pitch := Double.num c._camera_pitch
    _camera_bob_current := Double.num c._camera_bob_current
    _camera_bob_range := Double.num c._camera_bob_range
    _camera_bob_direction := c._camera_bob_direction }

/-- Camera states reachable from the constructor by the camera-control methods
(`draw` reads the camera and does not change it). -/
inductive Reachable (cos sin : α → α) (atan2 : α → α → α) (M_PI : α) : Camera α → Prop
  | construct (g : Camera α) : Reachable cos sin atan2 M_PI (RayCaster g)
  | displayFPS {c : Camera α} (enable : Bool) :
      Reachable cos sin atan2 M_PI c → Reachable cos sin atan2 M_PI (setDisplayFPS enable c)
  | position {c : Camera α} (x y : α) :
      Reachable cos sin atan2 M_PI c → Reachable cos sin atan2 M_PI (setCameraPosition x y c)
  | rotate {c : Camera α} (degrees : α) :
      Reachable cos sin atan2 M_PI c →
        Reachable cos sin atan2 M_PI (rotateCamera cos sin M_PI degrees c)
  | coordinateSystem {c : Camera α} (x y : α) :
      Reachable cos sin atan2 M_PI c →
        Reachable cos sin atan2 M_PI (setCoordinateSystem atan2 M_PI x y c)
  | transform {c : Camera α} (forward strafe : α) (query : α → α → Bool) :
      Reachable cos sin atan2 M_PI c →
        Reachable cos sin atan2 M_PI (transformCamera forward strafe query c)
  | bobRange {c : Camera α} (amount : α) :
      Reachable cos sin atan2 M_PI c → Reachable cos sin atan2 M_PI (setCameraBobRange amount c)
  | bob {c : Camera α} (amount : α) :
      Reachable cos sin atan2 M_PI c → Reachable cos sin atan2 M_PI (bobCamera amount c)
  | pitch {c : Camera α} (amount : α) :
      Reachable cos sin atan2 M_PI c → Reachable cos sin atan2 M_PI (pitchCamera amount c)
  | setPitch {c : Camera α} (amount : α) :
      Reachable cos sin atan2 M_PI c → Reachable cos sin atan2 M_PI (setCameraPitch amount c)

end CameraOps

/-! ## The renderer: `draw` -/

/-- A colour of `Gosu::Color`, by its four channels (each 0..255). -/
structure Color where
  alpha : Nat
  red : Nat
  green : Nat
  blue : Nat
deriving DecidableEq, Repr

/-- The constant `Gosu::Color::NONE` (0x00000000): fully transparent. -/
def Color.NONE : Color := ⟨0, 0, 0, 0⟩

/-- A `Gosu::Bitmap`: width, height and the pixels, addressed by column and row
(Gosu keeps pixel (x, y) at index `y * w + x`; every access of the renderer has
`x < w`). -/
structure Bitmap where
  w : Nat
  h : Nat
  pixels : Nat → Nat → Color

/-- The method `Gosu::Bitmap::getPixel(x, y)`. -/
def Bitmap.getPixel (b : Bitmap) (x y : Nat) : Color := b.pixels x y

/-- The method `Gosu::Bitmap::setPixel(x, y, c)`. -/
def Bitmap.setPixel (b : Bitmap) (x y : Nat) (c : Color) : Bitmap :=
  { b with pixels := fun i j => if i = x ∧ j = y then c else b.pixels i j }

/-- The method `Gosu::Bitmap::resize(width, height, c)` of the Gosu library
(Bitmap.cpp): nothing happens when the size is already the requested one;
otherwise a bitmap of the new size filled with `c` receives the old content at
(0, 0) and replaces the old one. -/
def Bitmap.resize (b : Bitmap) (width height : Nat) (c : Color) : Bitmap :=
  if width = b.w ∧ height = b.h then b
  else
    { w := width
      h := height
      pixels := fun i j => if i < b.w ∧ j < b.h then b.pixels i j else c }

/-- A `Gosu::Image` used as a texture; the renderer reads only its size. -/
structure Image where
  width : Nat
  height : Nat
deriving DecidableEq, Repr

/-- The struct `RayCaster::Sprite`; `texture` is the image the pointer refers to. -/
structure Sprite (α : Type) where
  texture : Image
  x : α
  y : α

/-- The struct `RayCaster::MapData`; a null texture pointer is `none`. -/
structure MapData (α : Type) where
  invalid : Bool
  wall : Option Image
  floor : Option Bitmap
  ceiling : Option Bitmap
  x_hidden : Bool
  y_hidden : Bool
  wall_sprite : Bool
  inset_amount : α
  texture_offset : α

/-- The enumerator `FIRST_PASS` of `enum DrawPass`. -/
abbrev FIRST_PASS : Nat := 0

/-- The enumerator `WALL_PASS` of `enum DrawPass`. -/
abbrev WALL_PASS : Nat := 0

/-- The enumerator `WALL_SPRITE_PASS` of `enum DrawPass`. -/
abbrev WALL_SPRITE_PASS : Nat := 1

/-- The enumerator `N_PASSES` of `enum DrawPass`. -/
abbrev N_PASSES : Nat := 2

/-- The local struct `PassData` of `draw`. -/
structure PassData (α : Type) where
  camera_x : α
  ray_dir_x : α
  ray_dir_y : α
  delta_x : α
  delta_y : α
  wall_distance : α

/-- One call of `draw` on a Gosu image, as the renderer issues it: a wall slice
(lines 343-349, with the pass, the column and the distance it was computed
from), a sprite stripe (lines 473-479) or the floor/ceiling image (line 492). -/
inductive DrawCall (α : Type) where
  | wallSlice (pass x : Nat) (wall_dist : α) (texture : Image) (texX : Int)
      (x1 y1 x2 y2 : Int) (color_scaled : Int) (z : α)
  | spriteStripe (sprite : Sprite α) (stripe : Nat) (srcX : Int)
      (x1 y1 x2 y2 : Int) (color_scaled : Int) (z : α)
  | ceilingFloor (image : Bitmap) (z : α)

/-- What a call of `draw` works on: the camera variables, the window size, the
map query, and from outside the repository `sqrt` of `<math.h>`, the effect of
`Gosu::drawText` with the frame rate on a bitmap, and the indeterminate content
of the uninitialised locals `pass_data[x]` and `pd` for each column `x`. -/
structure DrawArgs (α : Type) where
  cam : Camera α
  screen_w : Nat
  screen_h : Nat
  query : Int → Int → MapData α
  sqrt : α → α
  drawText : Bitmap → Bitmap
  uninit : Nat → PassData α

/-- The locals of one cast of `draw` (lines 216-240). -/
structure CastState (α : Type) where
  cur_x : Int
  cur_y : Int
  step_x : Int
  step_y : Int
  side_dist_x : α
  side_dist_y : α
  side : Int
  casting : Bool
  skip_cast : Int

/-- What the passes of `draw` build up: the array `pass_data`, the draw calls
issued so far and the bitmap `_ceiling_floor`. -/
structure FrameState (α : Type) where
  pass_data : Nat → PassData α
  calls : List (DrawCall α)
  _ceiling_floor : Bitmap

section Draw

variable {α : Type} [LinearOrderedField α] [FloorRing α]

/-- Conversion of a `double` or `float` to `int`: truncation toward zero. -/
def toInt (v : α) : Int := if 0 ≤ v then ⌊v⌋ else ⌈v⌉

/-- The C++ expression `i % u` for an `int i` and an `unsigned u`: `i` is first
converted to `unsigned` (32 bits). -/
def umod (i : Int) (u : Nat) : Nat := (i % 2 ^ 32).toNat % u

/-- The three calls `pixel.setRed(pixel.red() * darkness)`, `setGreen`,
`setBlue` of lines 393-395 and 414-416. -/
def darken (pixel : Color) (darkness : α) : Color :=
  { pixel with
    red := (toInt ((pixel.red : α) * darkness)).toNat
    green := (toInt ((pixel.green : α) * darkness)).toNat
    blue := (toInt ((pixel.blue : α) * darkness)).toNat }

/-- The local `camera_pitch` of `draw` (lines 195-196). -/
def cameraPitch (a : DrawArgs α) : Int :=
  let camera_pitch_clamped := clamp (a.cam._camera_pitch + a.cam._camera_bob_current) (-0.5) 0.5
  toInt ((a.screen_h : α) * camera_pitch_clamped)

/-- The `PassData` that the first pass stores for column `x` (lines 206-212). -/
def passData (a : DrawArgs α) (x : Nat) : PassData α :=
  let camera_x := 2 * (x : α) / (a.screen_w : α) - 1
  let ray_dir_x := a.cam._dir_x + a.cam._plane_x * camera_x
  let ray_dir_y := a.cam._dir_y + a.cam._plane_y * camera_x
  { a.uninit x with
    camera_x := camera_x
    ray_dir_x := ray_dir_x
    ray_dir_y := ray_dir_y
    delta_x := a.sqrt (1 + (ray_dir_y * ray_dir_y) / (ray_dir_x * ray_dir_x))
    delta_y := a.sqrt (1 + (ray_dir_x * ray_dir_x) / (ray_dir_y * ray_dir_y)) }

/-- The locals of a cast before its loop (lines 216-240). -/
def castInit (a : DrawArgs α) (pd : PassData α) : CastState α :=
  let cur_x := toInt a.cam._pos_x
  let cur_y := toInt a.cam._pos_y
  { cur_x := cur_x
    cur_y := cur_y
    step_x := if pd.ray_dir_x < 0 then -1 else 1
    step_y := if pd.ray_dir_y < 0 then -1 else 1
    side_dist_x :=
      if pd.ray_dir_x < 0 then (a.cam._pos_x - cur_x) * pd.delta_x
      else (cur_x + 1 - a.cam._pos_x) * pd.delta_x
    side_dist_y :=
      if pd.ray_dir_y < 0 then (a.cam._pos_y - cur_y) * pd.delta_y
      else (cur_y + 1 - a.cam._pos_y) * pd.delta_y
    side := 0
    casting := true
    skip_cast := 0 }

/-- The locals `current_dist` and `(cur_floor_x, cur_floor_y)` of row `y` of the
floor and ceiling loop (lines 373-378). -/
def floorPoint (a : DrawArgs α) (wall_dist floorXWall floorYWall : α) (y : Int) : α × α × α :=
  let current_dist : α := (a.screen_h : α) / (2 * (y : α) - (a.screen_h : α))
  let weight := current_dist / wall_dist
  let cur_floor_x := weight * floorXWall + (1 - weight) * a.cam._pos_x
  let cur_floor_y := weight * floorYWall + (1 - weight) * a.cam._pos_y
  (current_dist, cur_floor_x, cur_floor_y)

/-- The map data that row `y` of the floor and ceiling loop asks for (line 381). -/
def floorSample (a : DrawArgs α) (wall_dist floorXWall floorYWall : α) (y : Int) : MapData α :=
  let p := floorPoint a wall_dist floorXWall floorYWall y
  a.query (toInt p.2.1) (toInt p.2.2)

/-- One row `y` of the floor and ceiling loop (body of the loop of line 372). -/
def floorCeilingRow (a : DrawArgs α) (x : Nat) (wall_dist floorXWall floorYWall : α)
    (bmp : Bitmap) (y : Int) : Bitmap :=
  let camera_pitch := cameraPitch a
  let current_dist : α := (floorPoint a wall_dist floorXWall floorYWall y).1
  let cur_floor_x := (floorPoint a wall_dist floorXWall floorYWall y).2.1
  let cur_floor_y := (floorPoint a wall_dist floorXWall floorYWall y).2.2
  let response := floorSample a wall_dist floorXWall floorYWall y
  let darkness : α := max 0 (1 - current_dist / 10)
  let floor_y : Int := y + camera_pitch
  let bmp :=
    match response.floor with
    | some floor =>
      let floorTexX := umod (toInt (cur_floor_x * (floor.w : α))) floor.w
      let floorTexY := umod (toInt (cur_floor_y * (floor.h : α))) floor.h
      let pixel := darken (floor.getPixel floorTexX floorTexY) darkness
      if 0 ≤ floor_y ∧ floor_y < a.screen_h then bmp.setPixel x floor_y.toNat pixel else bmp
    | none =>
      if 0 ≤ floor_y ∧ floor_y < a.screen_h then bmp.setPixel x floor_y.toNat Color.NONE
      else bmp
  let ciel_y : Int := ((a.screen_h : Int) + camera_pitch) - y
  match response.ceiling with
  | some ceiling =>
    let cielTexX := umod (toInt (cur_floor_x * (ceiling.w : α))) ceiling.w
    let cielTexY := umod (toInt (cur_floor_y * (ceiling.h : α))) ceiling.h
    let pixel := darken (ceiling.getPixel cielTexX cielTexY) darkness
    if 0 ≤ ciel_y ∧ ciel_y < a.screen_h then bmp.setPixel x ciel_y.toNat pixel else bmp
  | none =>
    if 0 ≤ ciel_y ∧ ciel_y < a.screen_h then bmp.setPixel x ciel_y.toNat Color.NONE else bmp

/-- The rows visited by the loop of line 372.  Its condition compares the `int`
`y` with an `unsigned` bound, so a negative first row ends the loop at once. -/
def floorRows (a : DrawArgs α) (_y2 : Int) : List Int :=
  let camera_pitch := cameraPitch a
  let y0 := _y2 - camera_pitch - 2
  let bound : Int := (a.screen_h : Int) + |camera_pitch| + 2
  if y0 < 0 then [] else (List.range (bound - y0).toNat).map fun i => y0 + (i : Int)

/-- The local `wall_x` of a slice (lines 304-315): the fractional position of
the hit along the wall, shifted by the texture offset in the wall-sprite pass. -/
def wallX (a : DrawArgs α) (pass : Nat) (pd : PassData α) (cs : CastState α)
    (response : MapData α) (wall_dist : α) : α :=
  let wall_x :=
    if cs.side = 0 then a.cam._pos_y + wall_dist * pd.ray_dir_y
    else a.cam._pos_x + wall_dist * pd.ray_dir_x
  let wall_x := wall_x - (⌊wall_x⌋ : α)
  if pass = WALL_SPRITE_PASS then wall_x - response.texture_offset else wall_x

/-- The local `texX` of a slice (lines 318-327).  The differences with the
`unsigned` width and height are taken in `int`, which is what the conversion of
the `unsigned` result back to `int` gives. -/
def texX (pd : PassData α) (cs : CastState α) (wall : Image) (wall_x : α) : Int :=
  let texX : Int := toInt ((wall.width : α) * wall_x)
  let texX : Int := if cs.side = 0 ∧ pd.ray_dir_x > 0 then (wall.width : Int) - texX - 1 else texX
  let texX : Int := if cs.side = 1 ∧ pd.ray_dir_y < 0 then (wall.height : Int) - texX - 1 else texX
  if texX = 0 then texX + 1 else if texX = (wall.width : Int) - 1 then texX - 1 else texX

/-- The local `_y1` of a slice (line 331). -/
def sliceY1 (a : DrawArgs α) (line_height : α) : Int :=
  toInt ((((a.screen_h / 2 : Nat) : α) - line_height / 2) + (cameraPitch a : α))

/-- The local `_y2` of a slice (line 333). -/
def sliceY2 (a : DrawArgs α) (line_height : α) : Int :=
  toInt ((((a.screen_h / 2 : Nat) : α) + line_height / 2) + (cameraPitch a : α) + 1)

/-- The local `color_scaled` of a slice (lines 336-339). -/
def colorScaled (a : DrawArgs α) (line_height : α) : Int :=
  let color_scaled : Int := toInt (255 * (line_height / (a.screen_h : α)))
  if color_scaled > 255 then 255 else color_scaled

/-- The locals `(floorXWall, floorYWall)` of a slice (lines 354-370). -/
def floorWall (pd : PassData α) (cs : CastState α) (wall_x : α) : α × α :=
  if cs.side = 0 ∧ pd.ray_dir_x > 0 then ((cs.cur_x : α), (cs.cur_y : α) + wall_x)
  else if cs.side = 0 ∧ pd.ray_dir_x < 0 then ((cs.cur_x : α) + 1, (cs.cur_y : α) + wall_x)
  else if cs.side = 1 ∧ pd.ray_dir_y > 0 then ((cs.cur_x : α) + wall_x, (cs.cur_y : α))
  else ((cs.cur_x : α) + wall_x, (cs.cur_y : α) + 1)

/-- The slice of a hit that passed the distance test (lines 303-429): the wall
slice is drawn and, in the solid-wall pass, the floor and ceiling of the column
are written. -/
def drawSlice (a : DrawArgs α) (pass x : Nat) (cs : CastState α) (response : MapData α)
    (wall : Image) (wall_dist line_height : α) (fr : FrameState α) : FrameState α :=
  let pd := fr.pass_data x
  let z : α := -100
  let wall_x := wallX a pass pd cs response wall_dist
  let _x1 : Int := (x : Int) - 1
  let _x2 : Int := x
  let fr :=
    { fr with
      calls := fr.calls ++
        [DrawCall.wallSlice pass x wall_dist wall (texX pd cs wall wall_x)
          _x1 (sliceY1 a line_height) _x2 (sliceY2 a line_height) (colorScaled a line_height)
          (z - wall_dist * 0.05)] }
  if pass = WALL_PASS then
    { fr with
      _ceiling_floor :=
        (floorRows a (sliceY2 a line_height)).foldl
          (floorCeilingRow a x wall_dist (floorWall pd cs wall_x).1 (floorWall pd cs wall_x).2)
          fr._ceiling_floor }
  else fr

/-- The first statement of the cast loop, "Advance the ray" (lines 243-251). -/
def advanceRay (pd : PassData α) (cs : CastState α) : CastState α :=
  if cs.side_dist_x < cs.side_dist_y then
    { cs with
      side_dist_x := cs.side_dist_x + pd.delta_x
      cur_x := cs.cur_x + cs.step_x
      side := 0 }
  else
    { cs with
      side_dist_y := cs.side_dist_y + pd.delta_y
      cur_y := cs.cur_y + cs.step_y
      side := 1 }

/-- The local `wall_dist` of a hit (lines 274-293) from the inset amount of the
cell, which the solid-wall pass takes as 0. -/
def wallDist (a : DrawArgs α) (pass : Nat) (pd : PassData α) (cs : CastState α)
    (inset_amount : α) : α :=
  let y_inset : α :=
    if pass = WALL_PASS then 0
    else if pass = WALL_SPRITE_PASS then
      if cs.side = 1 then inset_amount * (if pd.ray_dir_y > 0 then 1 else -1) else 0
    else 0
  let x_inset : α :=
    if pass = WALL_PASS then 0
    else if pass = WALL_SPRITE_PASS then
      if cs.side = 1 then 0 else inset_amount * (if pd.ray_dir_x > 0 then 1 else -1)
    else 0
  if cs.side = 0 then
    (((cs.cur_x : α) + x_inset) - a.cam._pos_x + (((1 - cs.step_x).tdiv 2 : Int) : α)) /
      pd.ray_dir_x
  else
    (((cs.cur_y : α) + y_inset) - a.cam._pos_y + (((1 - cs.step_y).tdiv 2 : Int) : α)) /
      pd.ray_dir_y

/-- The local `line_height` of a hit (line 294). -/
def lineHeight (a : DrawArgs α) (wall_dist : α) : α :=
  if wall_dist = 0 then 0 else (a.screen_h : α) / wall_dist

/-- The local `correct_pass` of a hit candidate (lines 265-270). -/
def correctPass (pass : Nat) (response : MapData α) : Bool :=
  if pass = WALL_PASS ∧ response.wall_sprite then false
  else if pass = WALL_SPRITE_PASS ∧ response.wall_sprite = false then false
  else true

/-- A hit on the right pass (lines 272-431): the cast ends in the solid-wall
pass, then distance, slice height, the distance buffer and the distance test. -/
def acceptHit (a : DrawArgs α) (pass x : Nat) (cs : CastState α) (response : MapData α)
    (wall : Image) (fr : FrameState α) : CastState α × FrameState α :=
  let pd := fr.pass_data x
  let cs := if pass = WALL_PASS then { cs with casting := false } else cs
  let wall_dist : α := wallDist a pass pd cs response.inset_amount
  let line_height : α := lineHeight a wall_dist
  let fr :=
    if pass = WALL_PASS then
      { fr with
        pass_data := Function.update fr.pass_data x { pd with wall_distance := wall_dist } }
    else fr
  if wall_dist ≤ (fr.pass_data x).wall_distance ∧ line_height > 1 then
    (cs, drawSlice a pass x cs response wall wall_dist line_height fr)
  else (cs, fr)

/-- One iteration of the loop `while(casting)` (lines 241-433). -/
def castStep (a : DrawArgs α) (pass x : Nat) (cs : CastState α) (fr : FrameState α) :
    CastState α × FrameState α :=
  let pd := fr.pass_data x
  let cs := advanceRay pd cs
  if cs.skip_cast > 0 then ({ cs with skip_cast := cs.skip_cast - 1 }, fr)
  else
    let response := a.query cs.cur_x cs.cur_y
    if response.invalid then ({ cs with casting := false }, fr)
    else
      match response.wall with
      | some wall =>
        if ¬(cs.side = 0 ∧ response.x_hidden) ∧ ¬(cs.side = 1 ∧ response.y_hidden) then
          let correct_pass := correctPass pass response
          if correct_pass then acceptHit a pass x cs response wall fr else (cs, fr)
        else (cs, fr)
      | none => (cs, fr)

/-- The loop `while(casting)`: `none` when `fuel` iterations do not end it. -/
def castLoop (a : DrawArgs α) (pass x : Nat) :
    Nat → CastState α → FrameState α → Option (CastState α × FrameState α)
  | fuel, cs, fr =>
    if cs.casting then
      match fuel with
      | 0 => none
      | fuel + 1 =>
        castLoop a pass x fuel (castStep a pass x cs fr).1 (castStep a pass x cs fr).2
    else some (cs, fr)

/-- The body of the loop over `x` (lines 204-433) for one column of one pass. -/
def castColumn (a : DrawArgs α) (fuel pass x : Nat) (fr : FrameState α) :
    Option (CastState α × FrameState α) :=
  let fr :=
    if pass = FIRST_PASS then
      { fr with pass_data := Function.update fr.pass_data x (passData a x) }
    else fr
  castLoop a pass x fuel (castInit a (fr.pass_data x)) fr

/-- The loop over `x` of one pass (line 203). -/
def castPass (a : DrawArgs α) (fuel pass : Nat) (fr : FrameState α) : Option (FrameState α) :=
  (List.range a.screen_w).foldlM
    (fun fr x => (castColumn a fuel pass x fr).map Prod.snd) fr

/-- The loop over the passes (line 202). -/
def castPasses (a : DrawArgs α) (fuel : Nat) (fr : FrameState α) : Option (FrameState α) :=
  (List.range N_PASSES).foldlM (fun fr pass => castPass a fuel pass fr) fr

/-- The local `transformX` of the sprite loop (lines 440-445). -/
def transformX (cam : Camera α) (sprite : Sprite α) : α :=
  let sprite_x := (sprite.x + 0.5) - cam._pos_x
  let sprite_y := (sprite.y + 0.5) - cam._pos_y
  let invDet := 1 / (cam._plane_x * cam._dir_y - cam._dir_x * cam._plane_y)
  invDet * (cam._dir_y * sprite_x - cam._dir_x * sprite_y)

/-- The local `transformZ` of the sprite loop (lines 440-446). -/
def transformZ (cam : Camera α) (sprite : Sprite α) : α :=
  let sprite_x := (sprite.x + 0.5) - cam._pos_x
  let sprite_y := (sprite.y + 0.5) - cam._pos_y
  let invDet := 1 / (cam._plane_x * cam._dir_y - cam._dir_x * cam._plane_y)
  invDet * (-cam._plane_y * sprite_x + cam._plane_x * sprite_y)

/-- The local `spriteHeight` of the sprite loop (line 450). -/
def spriteHeight (a : DrawArgs α) (sprite : Sprite α) : α :=
  |(a.screen_w : α) / transformZ a.cam sprite| * 0.75

/-- The local `scale` of the sprite loop (line 451). -/
def spriteScale (a : DrawArgs α) (sprite : Sprite α) : α :=
  spriteHeight a sprite / (sprite.texture.height : α)

/-- The local `spriteWidth` of the sprite loop (line 452). -/
def spriteWidth (a : DrawArgs α) (sprite : Sprite α) : α :=
  (sprite.texture.width : α) * spriteScale a sprite

/-- The screen column `_x1` of a stripe (lines 449 and 468). -/
def stripeColumn (a : DrawArgs α) (sprite : Sprite α) (stripe : Nat) : Int :=
  let spriteScreenX : Int :=
    toInt (((a.screen_w / 2 : Nat) : α) *
      (1 + transformX a.cam sprite / transformZ a.cam sprite))
  toInt ((((spriteScreenX : Int) : α) - spriteWidth a sprite / 2) + (stripe : α))

/-- The body of the stripe loop (lines 467-481): the draw calls of one stripe. -/
def drawStripe (a : DrawArgs α) (pass_data : Nat → PassData α) (sprite : Sprite α)
    (stripe : Nat) : List (DrawCall α) :=
  let camera_pitch := cameraPitch a
  let transformZ := transformZ a.cam sprite
  let spriteHeight := spriteHeight a sprite
  let scale := spriteScale a sprite
  let color_scaled : Int := toInt (255 * (spriteHeight / (a.screen_h : α)))
  let color_scaled : Int := if color_scaled > 255 then 255 else color_scaled
  let _y1 : Int :=
    toInt ((((a.screen_h / 2 : Nat) : α) - spriteHeight / 2) + (camera_pitch : α))
  let _y2 : Int :=
    toInt ((((a.screen_h / 2 : Nat) : α) + spriteHeight / 2) + (camera_pitch : α))
  let _x1 : Int := stripeColumn a sprite stripe
  if _x1 > 0 ∧ _x1 < a.screen_w then
    let _x2 := _x1 + 1
    if |(pass_data _x1.toNat).wall_distance - transformZ| < 0.5 ∨
        (pass_data _x1.toNat).wall_distance > transformZ then
      [DrawCall.spriteStripe sprite stripe (toInt ((stripe : α) / scale)) _x1 _y1 _x2 _y2
        color_scaled (-transformZ)]
    else []
  else []

/-- The body of the loop over the sprites (lines 440-483).  The stripe loop
runs over the `stripe = 0, 1, ...` below `spriteWidth`. -/
def drawSprite (a : DrawArgs α) (pass_data : Nat → PassData α) (sprite : Sprite α) :
    List (DrawCall α) :=
  if transformZ a.cam sprite > 0 then
    (List.range ⌈spriteWidth a sprite⌉₊).flatMap (drawStripe a pass_data sprite)
  else []

/-- The loop over the sprites (line 439). -/
def drawSprites (a : DrawArgs α) (pass_data : Nat → PassData α) (sprites : List (Sprite α)) :
    List (DrawCall α) :=
  sprites.flatMap (drawSprite a pass_data)

/-- What `draw` starts its passes from (lines 189-199): the resized bitmap, the
uninitialised array `pass_data` and no draw call yet. -/
def drawInit (a : DrawArgs α) (_ceiling_floor : Bitmap) : FrameState α :=
  { pass_data := a.uninit
    calls := []
    _ceiling_floor := _ceiling_floor.resize a.screen_w a.screen_h Color.NONE }

/-- The method `draw(win, query, sprites)` on the bitmap `_ceiling_floor`: the
new content of `_ceiling_floor` and the draw calls in the order they are
issued; `none` when a cast does not end within `fuel` iterations. -/
def draw (a : DrawArgs α) (fuel : Nat) (sprites : List (Sprite α)) (_ceiling_floor : Bitmap) :
    Option (Bitmap × List (DrawCall α)) :=
  if a.cam._ready then
    let z : α := -100
    let fr : FrameState α := drawInit a _ceiling_floor
    match castPasses a fuel fr with
    | none => none
    | some fr =>
      let calls := fr.calls ++ drawSprites a fr.pass_data sprites
      let _ceiling_floor :=
        if a.cam._fps_enabled then a.drawText fr._ceiling_floor else fr._ceiling_floor
      some (_ceiling_floor, calls ++ [DrawCall.ceilingFloor _ceiling_floor (z - 50)])
  else some (_ceiling_floor, [])

/-- A draw call that is a wall slice of the wall-sprite pass whose distance is
at most the solid-wall distance that `pass_data` holds for its column. -/
def SliceWithin (pass_data : Nat → PassData α) (d : DrawCall α) : Prop :=
  ∃ x wall_dist texture texX x1 y1 x2 y2 color_scaled z,
    d = DrawCall.wallSlice WALL_SPRITE_PASS x wall_dist texture texX x1 y1 x2 y2 color_scaled z ∧
    wall_dist ≤ (pass_data x).wall_distance

end Draw

/-! ## Scenes used to instantiate the theorems -/

/-- The map data of a cell outside every map: `invalid`, nothing else set. -/
def outOfBounds {α : Type} [Zero α] : MapData α :=
  { invalid := true
    wall := none
    floor := none
    ceiling := none
    x_hidden := false
    y_hidden := false
    wall_sprite := false
    inset_amount := 0
    texture_offset := 0 }

/-- A 3x3 map: `invalid` outside, an empty centre cell (1, 1) and a solid wall
with the texture `wall` on the eight border cells. -/
def borderedGrid {α : Type} [Zero α] (wall : Image) (i j : Int) : MapData α :=
  if i < 0 ∨ j < 0 ∨ 3 ≤ i ∨ 3 ≤ j then outOfBounds
  else if i = 1 ∧ j = 1 then { (outOfBounds : MapData α) with invalid := false }
  else { (outOfBounds : MapData α) with invalid := false, wall := some wall }

/-- A 4x4 window on a world without cells: the fresh camera put at (0.5, 3.5),
every entry of the uninitialised distance buffer holding 10. -/
def emptyWorld {α : Type} [LinearOrderedField α] (sqrt : α → α) : DrawArgs α :=
  { cam := setCameraPosition 0.5 3.5 (RayCaster staticInit)
    screen_w := 4
    screen_h := 4
    query := fun _ _ => outOfBounds
    sqrt := sqrt
    drawText := fun b => b
    uninit := fun _ => ⟨0, 0, 0, 0, 0, 10⟩ }

/-- A sprite with a 2x1 texture in cell (0, 0), three cells in front of the
camera of `emptyWorld`. -/
def sprite00 {α : Type} [LinearOrderedField α] : Sprite α := ⟨⟨2, 1⟩, 0, 0⟩

/-- A 4x4 bitmap whose pixels are all opaque white. -/
def whiteBitmap : Bitmap := ⟨4, 4, fun _ _ => ⟨255, 255, 255, 255⟩⟩

/-- A 4x4 bitmap whose pixels are all fully transparent. -/
def clearBitmap : Bitmap := ⟨4, 4, fun _ _ => Color.NONE⟩

/-- The 3x3 scene `borderedGrid wall` seen through a window of width 1 and height
`screen_h`: the fresh camera put at (1.5, 1.5) and turned to the facing
`(fx, fy)` with `setCoordinateSystem`. -/
def gridScene {α : Type} [LinearOrderedField α] (atan2 : α → α → α) (M_PI : α)
    (sqrt : α → α) (wall : Image) (fx fy : α) (screen_h : Nat) : DrawArgs α :=
  { cam := setCoordinateSystem atan2 M_PI fx fy (setCameraPosition 1.5 1.5 (RayCaster staticInit))
    screen_w := 1
    screen_h := screen_h
    query := borderedGrid wall
    sqrt := sqrt
    drawText := fun b => b
    uninit := fun _ => ⟨0, 0, 0, 0, 0, 0⟩ }

/-- The frame before the first column is cast: no draw call yet, the floor and
ceiling bitmap fully transparent. -/
def emptyFrame {α : Type} [LinearOrderedField α] : FrameState α :=
  ⟨fun _ => ⟨0, 0, 0, 0, 0, 0⟩, [], clearBitmap⟩

/-! ## The cast loop as a sequence of iterations -/

/-- The state in which the loop `while(casting)` of column `x` is entered
(lines 204-240): in the first pass the pass data of the column is stored before
the locals of the cast are set. -/
def castStart {α : Type} [LinearOrderedField α] [FloorRing α] (a : DrawArgs α) (pass x : Nat)
    (fr : FrameState α) : CastState α × FrameState α :=
  let fr :=
    if pass = FIRST_PASS then
      { fr with pass_data := Function.update fr.pass_data x (passData a x) }
    else fr
  (castInit a (fr.pass_data x), fr)

/-- The state after `n` runs of the body of the loop `while(casting)`. -/
def castSteps {α : Type} [LinearOrderedField α] [FloorRing α] (a : DrawArgs α) (pass x : Nat) :
    Nat → CastState α → FrameState α → CastState α × FrameState α
  | 0, cs, fr => (cs, fr)
  | n + 1, cs, fr => castSteps a pass x n (castStep a pass x cs fr).1 (castStep a pass x cs fr).2

/-- The conditions of lines 258 and 265-272 on the answer of the map for the
cell the ray is in: a wall whose crossed side is not hidden, on the right pass. -/
def hitAccepted {α : Type} [LinearOrderedField α] (pass : Nat) (cs : CastState α)
    (response : MapData α) : Prop :=
  response.wall.isSome = true ∧ ¬(cs.side = 0 ∧ response.x_hidden = true) ∧
    ¬(cs.side = 1 ∧ response.y_hidden = true) ∧ correctPass pass response = true

/-- The cell the ray is in ends the cast (lines 255-257 and 276-277): it is
`invalid`, or the pass is the solid-wall pass and the cell is an accepted hit. -/
def castEnds {α : Type} [LinearOrderedField α] (a : DrawArgs α) (pass : Nat)
    (cs : CastState α) : Prop :=
  (a.query cs.cur_x cs.cur_y).invalid = true ∨
    (pass = WALL_PASS ∧ hitAccepted pass cs (a.query cs.cur_x cs.cur_y))

/-- The number of cells of the rectangle `[x0, x0 + W) x [y0, y0 + H)` that lie
ahead of the ray's cell in its two step directions, the cell itself counted on
each axis. -/
def cellsAhead {α : Type} (x0 y0 : Int) (W H : Nat) (cs : CastState α) : Int :=
  (if cs.step_x = 1 then x0 + W - cs.cur_x else cs.cur_x - x0 + 1) +
    (if cs.step_y = 1 then y0 + H - cs.cur_y else cs.cur_y - y0 + 1)

/-! ## The wall-sprite pass -/

/-- The inset-adjusted distance of a wall-sprite hit (`inset_amount` adds virtual
distance along the crossed axis): the grid distance of the cell the ray is in,
with the coordinate of the cell on the crossed axis moved by `inset_amount` in
the direction of the ray. -/
def insetDistance {α : Type} [LinearOrderedField α] (a : DrawArgs α) (pd : PassData α)
    (cs : CastState α) (inset_amount : α) : α :=
  if cs.side = 0 then
    ((cs.cur_x : α) + inset_amount * (if pd.ray_dir_x > 0 then 1 else -1) - a.cam._pos_x +
      (((1 - cs.step_x).tdiv 2 : Int) : α)) / pd.ray_dir_x
  else
    ((cs.cur_y : α) + inset_amount * (if pd.ray_dir_y > 0 then 1 else -1) - a.cam._pos_y +
      (((1 - cs.step_y).tdiv 2 : Int) : α)) / pd.ray_dir_y

/-- A 2x2 map: an empty cell (1, 1), above it the cell (1, 0) with a wall-sprite
of inset `inset`, left of that the cell (0, 0) with a solid wall; every other
cell is `invalid`. -/
def spriteMap {α : Type} [Zero α] (wall : Image) (inset : α) (i j : Int) : MapData α :=
  if i = 1 ∧ j = 1 then { (outOfBounds : MapData α) with invalid := false }
  else if i = 1 ∧ j = 0 then
    { (outOfBounds : MapData α) with
      invalid := false, wall := some wall, wall_sprite := true, inset_amount := inset }
  else if i = 0 ∧ j = 0 then { (outOfBounds : MapData α) with invalid := false, wall := some wall }
  else outOfBounds

/-- The map `spriteMap wall inset` seen through a window of width 1 and height
`screen_h` by the fresh camera put at (1.5, 1.5) and turned to the facing
(0, -1): the ray of the single column crosses the wall-sprite cell (1, 0) and
then meets the solid wall of cell (0, 0). -/
def spriteScene {α : Type} [LinearOrderedField α] (atan2 : α → α → α) (M_PI : α)
    (sqrt : α → α) (wall : Image) (inset : α) (screen_h : Nat) : DrawArgs α :=
  { cam := setCoordinateSystem atan2 M_PI 0 (-1) (setCameraPosition 1.5 1.5 (RayCaster staticInit))
    screen_w := 1
    screen_h := screen_h
    query := spriteMap wall inset
    sqrt := sqrt
    drawText := fun b => b
    uninit := fun _ => ⟨0, 0, 0, 0, 0, 0⟩ }

/-! ## The pixels the floor and ceiling loop writes -/

/-- Row `y` of the floor and ceiling loop writes row `j` of the bitmap: `j` is
the floor row `y + camera_pitch` or the ceiling row `screen_h + camera_pitch - y`
of `y`, and passes the range test of line 398, 403, 419 or 424. -/
def RowWrites {α : Type} [LinearOrderedField α] [FloorRing α] (a : DrawArgs α) (y : Int)
    (j : Nat) : Prop :=
  (0 ≤ y + cameraPitch a ∧ y + cameraPitch a < a.screen_h ∧ (j : Int) = y + cameraPitch a) ∨
  (0 ≤ (a.screen_h : Int) + cameraPitch a - y ∧
    (a.screen_h : Int) + cameraPitch a - y < a.screen_h ∧
    (j : Int) = (a.screen_h : Int) + cameraPitch a - y)

/-- Pixel `(i, j)` is written during the frame that issued `calls`: column `i`
has a slice of the solid-wall pass among them, and a row of the floor and
ceiling loop of that slice (which starts from the slice's `_y2`) writes row `j`. -/
def Sampled {α : Type} [LinearOrderedField α] [FloorRing α] (a : DrawArgs α)
    (calls : List (DrawCall α)) (i j : Nat) : Prop :=
  ∃ wall_dist texture texX x1 y1 x2 y2 color_scaled z y,
    DrawCall.wallSlice WALL_PASS i wall_dist texture texX x1 y1 x2 y2 color_scaled z ∈ calls ∧
    y ∈ floorRows a y2 ∧ RowWrites a y j

/-- Two bitmaps of the same size that agree in every pixel written during the
frame that issued `calls`, and hold the content of `B1`, respectively `B2`, in
every other pixel. -/
def PixelsRel {α : Type} [LinearOrderedField α] [FloorRing α] (a : DrawArgs α)
    (B1 B2 : Bitmap) (calls : List (DrawCall α)) (c1 c2 : Bitmap) : Prop :=
  c1.w = c2.w ∧ c1.h = c2.h ∧
  ∀ i j, (Sampled a calls i j → c1.pixels i j = c2.pixels i j) ∧
    (¬ Sampled a calls i j → c1.pixels i j = B1.pixels i j ∧ c2.pixels i j = B2.pixels i j)

/-- Two frame states with the same `pass_data` and draw calls whose bitmaps are
related by `PixelsRel`. -/
def FrameWrites {α : Type} [LinearOrderedField α] [FloorRing α] (a : DrawArgs α)
    (B1 B2 : Bitmap) (fr1 fr2 : FrameState α) : Prop :=
  fr1.pass_data = fr2.pass_data ∧ fr1.calls = fr2.calls ∧
  PixelsRel a B1 B2 fr1.calls fr1._ceiling_floor fr2._ceiling_floor

/-- A bitmap one pixel wide and 8 high whose pixels are all opaque white. -/
def whiteColumn : Bitmap := ⟨1, 8, fun _ _ => ⟨255, 255, 255, 255⟩⟩

/-- A bitmap one pixel wide and 8 high whose pixels are all fully transparent. -/
def clearColumn : Bitmap := ⟨1, 8, fun _ _ => Color.NONE⟩

/-! ## Camera theorems -/

section CameraTheorems

variable {α : Type} [LinearOrderedField α]

theorem clamp_eq_max_min (a : α) : clamp a (-0.5) 0.5 = max (-0.5) (min a 0.5) := by
  unfold clamp
  have h : (-0.5 : α) < 0.5 := by norm_num
  split_ifs with h1 h2
  · rw [min_eq_left (by linarith), max_eq_left h1.le]
  · rw [min_eq_right h2.le, max_eq_right h.le]
  · rw [min_eq_left (not_lt.mp h2), max_eq_right (not_lt.mp h1)]

theorem clamp_mem (a : α) : -0.5 ≤ clamp a (-0.5) 0.5 ∧ clamp a (-0.5) 0.5 ≤ 0.5 := by
  unfold clamp
  have h : (-0.5 : α) < 0.5 := by norm_num
  split_ifs with h1 h2
  · exact ⟨le_refl _, h.le⟩
  · exact ⟨h.le, le_refl _⟩
  · exact ⟨not_lt.mp h1, not_lt.mp h2⟩

theorem transformCamera_facing (forward strafe : α) (query : α → α → Bool) (c : Camera α) :
    (transformCamera forward strafe query c)._dir_x = c._dir_x ∧
    (transformCamera forward strafe query c)._dir_y = c._dir_y ∧
    (transformCamera forward strafe query c)._plane_x = c._plane_x ∧
    (transformCamera forward strafe query c)._plane_y = c._plane_y ∧
    (transformCamera forward strafe query c)._camera_pitch = c._camera_pitch ∧
    (transformCamera forward strafe query c)._camera_bob_range = c._camera_bob_range := by
  unfold transformCamera
  simp only []
  split_ifs <;> simp

theorem bobCamera_facing (amount : α) (c : Camera α) :
    (bobCamera amount c)._dir_x = c._dir_x ∧
    (bobCamera amount c)._dir_y = c._dir_y ∧
    (bobCamera amount c)._plane_x = c._plane_x ∧
    (bobCamera amount c)._plane_y = c._plane_y ∧
    (bobCamera amount c)._camera_pitch = c._camera_pitch ∧
    (bobCamera amount c)._camera_bob_range = c._camera_bob_range := by
  unfold bobCamera
  simp only []
  split_ifs <;> simp

/-- C3: the position after `transformCamera` is the candidate position when the
collision query rejects nothing there, otherwise new x with old y when that is
free (even if old x with new y is free too), otherwise old x with new y when
that is free, otherwise the old position; with a query that is constantly
false it is exactly position + facing*forward + plane*strafe. -/
theorem transformCamera_position (forward strafe : α) (collide : α → α → Bool) (c : Camera α) :
    getCameraPosition (transformCamera forward strafe collide c) =
      (if collide (c._pos_x + c._dir_x * forward + c._plane_x * strafe)
          (c._pos_y + c._dir_y * forward + c._plane_y * strafe) = false then
        (c._pos_x + c._dir_x * forward + c._plane_x * strafe,
          c._pos_y + c._dir_y * forward + c._plane_y * strafe)
      else if collide (c._pos_x + c._dir_x * forward + c._plane_x * strafe) c._pos_y = false then
        (c._pos_x + c._dir_x * forward + c._plane_x * strafe, c._pos_y)
      else if collide c._pos_x (c._pos_y + c._dir_y * forward + c._plane_y * strafe) = false then
        (c._pos_x, c._pos_y + c._dir_y * forward + c._plane_y * strafe)
      else (c._pos_x, c._pos_y)) ∧
    getCameraPosition (transformCamera forward strafe (fun _ _ => false) c) =
      (c._pos_x + c._dir_x * forward + c._plane_x * strafe,
        c._pos_y + c._dir_y * forward + c._plane_y * strafe) := by
  unfold transformCamera getCameraPosition
  simp only []
  constructor
  · split_ifs <;> simp_all
  · simp

/-- C4: over the reals, `rotateCamera θ` followed by `rotateCamera (-θ)` gives
back the facing vector exactly, and with it the plane vector whenever the plane
was the one derived from the facing (as it is in every reachable state). -/
theorem rotateCamera_neg_restores (θ : ℝ) (c : Camera ℝ) :
    getCoordinateSystem
        (rotateCamera Real.cos Real.sin Real.pi (-θ)
          (rotateCamera Real.cos Real.sin Real.pi θ c)) = getCoordinateSystem c ∧
    (c._plane_x = c._dir_y * -0.66 ∧ c._plane_y = c._dir_x * 0.66 →
      (rotateCamera Real.cos Real.sin Real.pi (-θ)
          (rotateCamera Real.cos Real.sin Real.pi θ c))._plane_x = c._plane_x ∧
      (rotateCamera Real.cos Real.sin Real.pi (-θ)
          (rotateCamera Real.cos Real.sin Real.pi θ c))._plane_y = c._plane_y) := by
  have hx : (c._dir_x * Real.cos (θ * (Real.pi / 180)) - c._dir_y * Real.sin (θ * (Real.pi / 180))) *
        Real.cos (-θ * (Real.pi / 180)) -
      (c._dir_x * Real.sin (θ * (Real.pi / 180)) + c._dir_y * Real.cos (θ * (Real.pi / 180))) *
        Real.sin (-θ * (Real.pi / 180)) = c._dir_x := by
    rw [neg_mul, Real.cos_neg, Real.sin_neg]
    linear_combination c._dir_x * Real.cos_sq_add_sin_sq (θ * (Real.pi / 180))
  have hy : (c._dir_x * Real.cos (θ * (Real.pi / 180)) - c._dir_y * Real.sin (θ * (Real.pi / 180))) *
        Real.sin (-θ * (Real.pi / 180)) +
      (c._dir_x * Real.sin (θ * (Real.pi / 180)) + c._dir_y * Real.cos (θ * (Real.pi / 180))) *
        Real.cos (-θ * (Real.pi / 180)) = c._dir_y := by
    rw [neg_mul, Real.cos_neg, Real.sin_neg]
    linear_combination c._dir_y * Real.cos_sq_add_sin_sq (θ * (Real.pi / 180))
  refine ⟨?_, ?_⟩
  · simp only [getCoordinateSystem, rotateCamera, hx, hy]
  · rintro ⟨hpx, hpy⟩
    simp only [rotateCamera, hx, hy, hpx, hpy, and_self]

/-- Witness for C4: the constructor state on zeroed variables, turned by 30
degrees and back. -/
theorem rotateCamera_neg_restores_witness :
    (RayCaster (staticInit : Camera ℝ))._plane_x =
        (RayCaster (staticInit : Camera ℝ))._dir_y * -0.66 ∧
    (rotateCamera Real.cos Real.sin Real.pi (-30)
      (rotateCamera Real.cos Real.sin Real.pi 30 (RayCaster (staticInit : Camera ℝ))))._plane_x =
      (RayCaster (staticInit : Camera ℝ))._plane_x :=
  ⟨by norm_num [RayCaster],
    ((rotateCamera_neg_restores 30 (RayCaster (staticInit : Camera ℝ))).2
        ⟨by norm_num [RayCaster], by norm_num [RayCaster]⟩).1⟩

theorem Reachable.plane_eq {cos sin : α → α} {atan2 : α → α → α} {M_PI : α} {c : Camera α}
    (h : Reachable cos sin atan2 M_PI c) :
    c._plane_x = -0.66 * c._dir_y ∧ c._plane_y = 0.66 * c._dir_x := by
  induction h with
  | construct g => constructor <;> norm_num [RayCaster]
  | displayFPS enable _ ih => exact ih
  | position x y _ ih => exact ih
  | rotate degrees _ _ => constructor <;> simp only [rotateCamera] <;> ring
  | coordinateSystem x y _ _ => constructor <;> simp only [setCoordinateSystem] <;> ring
  | transform forward strafe query _ ih =>
    obtain ⟨h1, h2, h3, h4, -, -⟩ := transformCamera_facing forward strafe query ‹_›
    rw [h1, h2, h3, h4]
    exact ih
  | bobRange amount _ ih => exact ih
  | bob amount _ ih =>
    obtain ⟨h1, h2, h3, h4, -, -⟩ := bobCamera_facing amount ‹_›
    rw [h1, h2, h3, h4]
    exact ih
  | pitch amount _ ih => exact ih
  | setPitch amount _ ih => exact ih

theorem Reachable.pitch_range_mem {cos sin : α → α} {atan2 : α → α → α} {M_PI : α}
    {c : Camera α} (h : Reachable cos sin atan2 M_PI c) :
    (-0.5 ≤ c._camera_pitch ∧ c._camera_pitch ≤ 0.5) ∧
    (-0.5 ≤ c._camera_bob_range ∧ c._camera_bob_range ≤ 0.5) := by
  induction h with
  | construct g => norm_num [RayCaster]
  | displayFPS enable _ ih => exact ih
  | position x y _ ih => exact ih
  | rotate degrees _ ih => exact ih
  | coordinateSystem x y _ ih => exact ih
  | transform forward strafe query _ ih =>
    obtain ⟨-, -, -, -, h5, h6⟩ := transformCamera_facing forward strafe query ‹_›
    rw [h5, h6]
    exact ih
  | bobRange amount _ ih => exact ⟨ih.1, clamp_mem _⟩
  | bob amount _ ih =>
    obtain ⟨-, -, -, -, h5, h6⟩ := bobCamera_facing amount ‹_›
    rw [h5, h6]
    exact ih
  | pitch amount _ ih => exact ⟨clamp_mem _, ih.2⟩
  | setPitch amount _ ih => exact ⟨clamp_mem _, ih.2⟩

/-- C5: in every camera state reachable from the constructor the plane vector
is (-0.66 * facing.y, 0.66 * facing.x): it is perpendicular to the facing
vector, its squared length is 0.66 squared times that of the facing vector, and
two reachable states with the same facing vector have the same plane vector. -/
theorem plane_is_derived_from_facing (cos sin : α → α) (atan2 : α → α → α) (M_PI : α)
    (c : Camera α) (h : Reachable cos sin atan2 M_PI c) :
    (c._plane_x = -0.66 * c._dir_y ∧ c._plane_y = 0.66 * c._dir_x) ∧
    c._plane_x * c._dir_x + c._plane_y * c._dir_y = 0 ∧
    c._plane_x ^ 2 + c._plane_y ^ 2 = 0.66 ^ 2 * (c._dir_x ^ 2 + c._dir_y ^ 2) ∧
    ∀ c2 : Camera α, Reachable cos sin atan2 M_PI c2 →
      getCoordinateSystem c2 = getCoordinateSystem c →
        c2._plane_x = c._plane_x ∧ c2._plane_y = c._plane_y := by
  obtain ⟨hx, hy⟩ := h.plane_eq
  refine ⟨⟨hx, hy⟩, ?_, ?_, ?_⟩
  · rw [hx, hy]; ring
  · rw [hx, hy]; ring
  · intro c2 h2 hd
    obtain ⟨hx2, hy2⟩ := h2.plane_eq
    simp only [getCoordinateSystem, Prod.mk.injEq] at hd
    rw [hx, hy, hx2, hy2, hd.1, hd.2]
    exact ⟨rfl, rfl⟩

/-- Witness for C5: the freshly constructed camera turned by 90 degrees. -/
theorem plane_is_derived_from_facing_witness :
    (rotateCamera Real.cos Real.sin Real.pi 90 (RayCaster (staticInit : Camera ℝ)))._plane_x =
      -0.66 * (rotateCamera Real.cos Real.sin Real.pi 90
        (RayCaster (staticInit : Camera ℝ)))._dir_y :=
  (plane_is_derived_from_facing Real.cos Real.sin (fun y x => Complex.arg ⟨x, y⟩) Real.pi _
    (Reachable.rotate 90 (Reachable.construct staticInit))).1.1

theorem clamp_num (v : α) :
    clamp (Double.num v) (-0.5) 0.5 = Double.num (clamp v (-0.5) 0.5) := by
  have e1 : (-0.5 : Double α) = Double.num (-0.5) := rfl
  have e2 : (0.5 : Double α) = Double.num 0.5 := rfl
  rw [e1, e2]
  unfold clamp
  by_cases h1 : v < -0.5
  · rw [if_pos h1, if_pos (show Double.num v < Double.num (-0.5) from h1)]
  · rw [if_neg h1, if_neg (show ¬ Double.num v < Double.num (-0.5) from h1)]
    by_cases h2 : v > 0.5
    · rw [if_pos h2, if_pos (show Double.num v > Double.num 0.5 from h2)]
    · rw [if_neg h2, if_neg (show ¬ Double.num v > Double.num 0.5 from h2)]

theorem clamp_nan : clamp (Double.NaN : Double α) (-0.5) 0.5 = Double.NaN := rfl

/-- C6 (counterexample): on `double`s with a not-a-number value, the freshly
constructed camera given `setCameraPitch(NaN)`, `pitchCamera(NaN)` or
`setCameraBobRange(NaN)` stores `NaN`, which does not lie in [-0.5, 0.5]. -/
theorem nan_is_stored_unclamped :
    getCameraPitch (setCameraPitch Double.NaN (RayCaster (staticInit : Camera ℚ)).toDouble) =
      Double.NaN ∧
    getCameraPitch (pitchCamera Double.NaN (RayCaster (staticInit : Camera ℚ)).toDouble) =
      Double.NaN ∧
    getCameraBobRange
      (setCameraBobRange Double.NaN (RayCaster (staticInit : Camera ℚ)).toDouble) = Double.NaN ∧
    ¬ ((-0.5 : Double ℚ) ≤
        getCameraPitch (setCameraPitch Double.NaN (RayCaster (staticInit : Camera ℚ)).toDouble) ∧
      getCameraPitch (setCameraPitch Double.NaN (RayCaster (staticInit : Camera ℚ)).toDouble) ≤
        0.5) ∧
    ¬ ((-0.5 : Double ℚ) ≤
        getCameraBobRange
          (setCameraBobRange Double.NaN (RayCaster (staticInit : Camera ℚ)).toDouble) ∧
      getCameraBobRange
          (setCameraBobRange Double.NaN (RayCaster (staticInit : Camera ℚ)).toDouble) ≤ 0.5) :=
  ⟨rfl, rfl, rfl, fun h => h.1, fun h => h.1⟩

/-- C6 (amended): on `double`s with a not-a-number value, `setCameraPitch a`
stores clamp(a, -0.5, 0.5), `pitchCamera a` stores clamp(pitch + a, -0.5, 0.5)
and `setCameraBobRange a` stores clamp(a, -0.5, 0.5), all three total; the clamp
of a number `v` is the number max(-0.5, min(v, 0.5)), in [-0.5, 0.5], and the
clamp of `NaN` is `NaN`, outside it; on numbers the three setters act as on the
exact model; and in every state reachable with number arguments the pitch and
the bob range lie in [-0.5, 0.5]. -/
theorem pitch_and_bob_range_clamped_unless_nan (cos sin : α → α) (atan2 : α → α → α) (M_PI : α)
    (a : Double α) (d : Camera (Double α)) (v : α) (c : Camera α) :
    (getCameraPitch (setCameraPitch a d) = clamp a (-0.5) 0.5 ∧
      getCameraPitch (pitchCamera a d) = clamp (getCameraPitch d + a) (-0.5) 0.5 ∧
      getCameraBobRange (setCameraBobRange a d) = clamp a (-0.5) 0.5) ∧
    (clamp (Double.num v) (-0.5) 0.5 = Double.num (max (-0.5) (min v 0.5)) ∧
      (-0.5 : Double α) ≤ clamp (Double.num v) (-0.5) 0.5 ∧
      clamp (Double.num v) (-0.5) 0.5 ≤ (0.5 : Double α)) ∧
    (clamp (Double.NaN : Double α) (-0.5) 0.5 = Double.NaN ∧
      Double.num v + Double.NaN = (Double.NaN : Double α) ∧
      Double.NaN + a = (Double.NaN : Double α) ∧
      ¬ ((-0.5 : Double α) ≤ Double.NaN ∧ (Double.NaN : Double α) ≤ 0.5)) ∧
    (setCameraPitch (Double.num v) c.toDouble = (setCameraPitch v c).toDouble ∧
      pitchCamera (Double.num v) c.toDouble = (pitchCamera v c).toDouble ∧
      setCameraBobRange (Double.num v) c.toDouble = (setCameraBobRange v c).toDouble) ∧
    (Reachable cos sin atan2 M_PI c →
      ((-0.5 ≤ getCameraPitch c ∧ getCameraPitch c ≤ 0.5) ∧
        (-0.5 ≤ getCameraBobRange c ∧ getCameraBobRange c ≤ 0.5)) ∧
      ((-0.5 : Double α) ≤ getCameraPitch c.toDouble ∧
        getCameraPitch c.toDouble ≤ (0.5 : Double α)) ∧
      ((-0.5 : Double α) ≤ getCameraBobRange c.toDouble ∧
        getCameraBobRange c.toDouble ≤ (0.5 : Double α))) := by
  have hmem : ∀ w : α, (-0.5 : Double α) ≤ Double.num (clamp w (-0.5) 0.5) ∧
      Double.num (clamp w (-0.5) 0.5) ≤ (0.5 : Double α) := fun w => clamp_mem w
  refine ⟨⟨rfl, rfl, rfl⟩, ⟨?_, ?_, ?_⟩, ⟨rfl, rfl, rfl, fun h => h.1⟩, ⟨?_, ?_, ?_⟩, fun h => ?_⟩
  · rw [clamp_num, clamp_eq_max_min]
  · rw [clamp_num]
    exact (hmem v).1
  · rw [clamp_num]
    exact (hmem v).2
  · show ({ c.toDouble with _camera_pitch := clamp (Double.num v) (-0.5) 0.5 } :
      Camera (Double α)) = _
    rw [clamp_num]
    rfl
  · show ({ c.toDouble with
      _camera_pitch := clamp (Double.num (c._camera_pitch + v)) (-0.5) 0.5 } :
      Camera (Double α)) = _
    rw [clamp_num]
    rfl
  · show ({ c.toDouble with _camera_bob_range := clamp (Double.num v) (-0.5) 0.5 } :
      Camera (Double α)) = _
    rw [clamp_num]
    rfl
  · exact ⟨h.pitch_range_mem, h.pitch_range_mem.1, h.pitch_range_mem.2⟩

/-- Witness for C6 (amended): pitching the fresh camera by 3 and asking for a bob
range of -2 leaves a reachable state whose pitch is 0.5 and whose bob range is
-0.5, both in [-0.5, 0.5]. -/
theorem pitch_and_bob_range_clamped_unless_nan_witness :
    ((-0.5 ≤ getCameraPitch
          (setCameraBobRange (-2) (pitchCamera 3 (RayCaster (staticInit : Camera ℚ)))) ∧
        getCameraPitch
          (setCameraBobRange (-2) (pitchCamera 3 (RayCaster (staticInit : Camera ℚ)))) ≤ 0.5) ∧
      (-0.5 ≤ getCameraBobRange
          (setCameraBobRange (-2) (pitchCamera 3 (RayCaster (staticInit : Camera ℚ)))) ∧
        getCameraBobRange
          (setCameraBobRange (-2) (pitchCamera 3 (RayCaster (staticInit : Camera ℚ)))) ≤ 0.5)) ∧
    ((-0.5 : Double ℚ) ≤ getCameraPitch
        (setCameraBobRange (-2) (pitchCamera 3 (RayCaster (staticInit : Camera ℚ)))).toDouble ∧
      getCameraPitch
        (setCameraBobRange (-2) (pitchCamera 3 (RayCaster (staticInit : Camera ℚ)))).toDouble ≤
        (0.5 : Double ℚ)) ∧
    ((-0.5 : Double ℚ) ≤ getCameraBobRange
        (setCameraBobRange (-2) (pitchCamera 3 (RayCaster (staticInit : Camera ℚ)))).toDouble ∧
      getCameraBobRange
        (setCameraBobRange (-2) (pitchCamera 3 (RayCaster (staticInit : Camera ℚ)))).toDouble ≤
        (0.5 : Double ℚ)) :=
  (pitch_and_bob_range_clamped_unless_nan (fun _ => 1) (fun _ => 0) (fun _ _ => 0) 3 Double.NaN
    (RayCaster (staticInit : Camera ℚ)).toDouble 0 _).2.2.2.2
    (Reachable.bobRange (-2) (Reachable.pitch 3 (Reachable.construct staticInit)))

/-- C7 (the code at the failing inputs): from the freshly constructed camera,
whose rotation 0 lies in [0, 360), `rotateCamera 360` leaves the rotation at
360 and `rotateCamera 1000` leaves it at 640, both outside [0, 360). -/
theorem rotateCamera_rotation_not_normalized :
    (0 ≤ getCameraRotation (RayCaster (staticInit : Camera ℝ)) ∧
      getCameraRotation (RayCaster (staticInit : Camera ℝ)) < 360) ∧
    getCameraRotation
      (rotateCamera Real.cos Real.sin Real.pi 360 (RayCaster (staticInit : Camera ℝ))) = 360 ∧
    getCameraRotation
      (rotateCamera Real.cos Real.sin Real.pi 1000 (RayCaster (staticInit : Camera ℝ))) = 640 ∧
    getCameraRotation
      (rotateCamera Real.cos Real.sin Real.pi (-1000) (RayCaster (staticInit : Camera ℝ))) =
        -640 := by
  norm_num [getCameraRotation, rotateCamera, RayCaster]

/-- C8 (the code at the failing inputs): the freshly constructed camera faces
(0, -1), whose `atan2(x, y)` is 180 degrees, with rotation 0; and after
`setCoordinateSystem(0, 1)` (rotation 0, equal to `atan2(0, 1)`) a following
`rotateCamera 90` gives facing (-1, 0), whose `atan2(x, y)` is -90 degrees,
with rotation 90.  Neither difference is a multiple of 360.  The C function
`atan2(y, x)` is the argument of the complex number `x + y i`. -/
theorem rotation_disagrees_with_facing :
    (getCoordinateSystem (RayCaster (staticInit : Camera ℝ)) = (0, -1) ∧
      getCameraRotation (RayCaster (staticInit : Camera ℝ)) = 0 ∧
      Complex.arg ⟨-1, 0⟩ * (180 / Real.pi) = 180 ∧
      ¬ ∃ n : ℤ, getCameraRotation (RayCaster (staticInit : Camera ℝ)) -
          Complex.arg ⟨(RayCaster (staticInit : Camera ℝ))._dir_y,
            (RayCaster (staticInit : Camera ℝ))._dir_x⟩ * (180 / Real.pi) = 360 * n) ∧
    (getCameraRotation (setCoordinateSystem (fun y x => Complex.arg ⟨x, y⟩) Real.pi 0 1
        (RayCaster (staticInit : Camera ℝ))) = 0 ∧
      getCoordinateSystem (rotateCamera Real.cos Real.sin Real.pi 90
        (setCoordinateSystem (fun y x => Complex.arg ⟨x, y⟩) Real.pi 0 1
          (RayCaster (staticInit : Camera ℝ)))) = (-1, 0) ∧
      getCameraRotation (rotateCamera Real.cos Real.sin Real.pi 90
        (setCoordinateSystem (fun y x => Complex.arg ⟨x, y⟩) Real.pi 0 1
          (RayCaster (staticInit : Camera ℝ)))) = 90 ∧
      Complex.arg ⟨0, -1⟩ * (180 / Real.pi) = -90 ∧
      ¬ ∃ n : ℤ, getCameraRotation (rotateCamera Real.cos Real.sin Real.pi 90
          (setCoordinateSystem (fun y x => Complex.arg ⟨x, y⟩) Real.pi 0 1
            (RayCaster (staticInit : Camera ℝ)))) -
          Complex.arg ⟨(rotateCamera Real.cos Real.sin Real.pi 90
              (setCoordinateSystem (fun y x => Complex.arg ⟨x, y⟩) Real.pi 0 1
                (RayCaster (staticInit : Camera ℝ))))._dir_y,
            (rotateCamera Real.cos Real.sin Real.pi 90
              (setCoordinateSystem (fun y x => Complex.arg ⟨x, y⟩) Real.pi 0 1
                (RayCaster (staticInit : Camera ℝ))))._dir_x⟩ * (180 / Real.pi) = 360 * n) := by
  have hpi : Real.pi ≠ 0 := Real.pi_ne_zero
  have e1 : (⟨1, 0⟩ : ℂ) = 1 := by apply Complex.ext <;> simp
  have e2 : (⟨-1, 0⟩ : ℂ) = -1 := by apply Complex.ext <;> simp
  have e3 : (⟨0, -1⟩ : ℂ) = -Complex.I := by apply Complex.ext <;> simp
  have a1 : Complex.arg ⟨1, 0⟩ = 0 := by rw [e1, Complex.arg_one]
  have a2 : Complex.arg ⟨-1, 0⟩ * (180 / Real.pi) = 180 := by
    rw [e2, Complex.arg_neg_one]; field_simp
  have a3 : Complex.arg ⟨0, -1⟩ * (180 / Real.pi) = -90 := by
    rw [e3, Complex.arg_neg_I]; field_simp; ring
  have q : (90 : ℝ) * (Real.pi / 180) = Real.pi / 2 := by ring
  have noInt : ∀ n : ℤ, (180 : ℝ) ≠ 360 * n ∧ (-180 : ℝ) ≠ 360 * n := by
    intro n
    constructor
    · intro h
      have h2 : ((1 : ℤ) : ℝ) = ((2 * n : ℤ) : ℝ) := by push_cast; linarith
      have h3 := Int.cast_injective h2
      omega
    · intro h
      have h2 : ((-1 : ℤ) : ℝ) = ((2 * n : ℤ) : ℝ) := by push_cast; linarith
      have h3 := Int.cast_injective h2
      omega
  refine ⟨⟨?_, ?_, a2, ?_⟩, ?_, ?_, ?_, a3, ?_⟩
  · simp [getCoordinateSystem, RayCaster]
  · simp [getCameraRotation, RayCaster]
  · rintro ⟨n, hn⟩
    simp only [getCameraRotation, RayCaster] at hn
    rw [a2] at hn
    exact (noInt n).2 (by linarith)
  · simp [getCameraRotation, setCoordinateSystem, a1]
  · simp [getCoordinateSystem, rotateCamera, setCoordinateSystem, q]
  · simp only [getCameraRotation, rotateCamera, setCoordinateSystem, a1]
    norm_num
  · rintro ⟨n, hn⟩
    simp only [getCameraRotation, rotateCamera, setCoordinateSystem, a1, q, Real.cos_pi_div_two,
      Real.sin_pi_div_two] at hn
    norm_num at hn
    rw [a3] at hn
    exact (noInt n).1 (by linarith)

end CameraTheorems

/-! ## Renderer theorems -/

section DrawTheorems

variable {α : Type} [LinearOrderedField α] [FloorRing α]

theorem mem_drawStripe {a : DrawArgs α} {pass_data : Nat → PassData α} {sprite : Sprite α}
    {stripe : Nat} {d : DrawCall α} (h : d ∈ drawStripe a pass_data sprite stripe) :
    (∃ srcX x1 y1 x2 y2 color z, d = DrawCall.spriteStripe sprite stripe srcX x1 y1 x2 y2 color z) ∧
    (0 < stripeColumn a sprite stripe ∧ stripeColumn a sprite stripe < a.screen_w) ∧
    (|(pass_data (stripeColumn a sprite stripe).toNat).wall_distance - transformZ a.cam sprite|
        < 0.5 ∨
      (pass_data (stripeColumn a sprite stripe).toNat).wall_distance > transformZ a.cam sprite) := by
  unfold drawStripe at h
  simp only [] at h
  by_cases h1 : stripeColumn a sprite stripe > 0 ∧ stripeColumn a sprite stripe < a.screen_w
  · by_cases h2 : |(pass_data (stripeColumn a sprite stripe).toNat).wall_distance -
          transformZ a.cam sprite| < 0.5 ∨
        (pass_data (stripeColumn a sprite stripe).toNat).wall_distance > transformZ a.cam sprite
    · rw [if_pos h1, if_pos h2, List.mem_singleton] at h
      exact ⟨⟨_, _, _, _, _, _, _, h⟩, h1, h2⟩
    · rw [if_pos h1, if_neg h2] at h
      exact absurd h (List.not_mem_nil _)
  · rw [if_neg h1] at h
    exact absurd h (List.not_mem_nil _)

theorem castLoop_done (a : DrawArgs α) (pass x fuel : Nat) (cs : CastState α)
    (fr : FrameState α) (h : cs.casting = false) :
    castLoop a pass x fuel cs fr = some (cs, fr) := by
  unfold castLoop
  simp [h]

theorem castLoop_zero (a : DrawArgs α) (pass x : Nat) (cs : CastState α)
    (fr : FrameState α) (h : cs.casting = true) :
    castLoop a pass x 0 cs fr = none := by
  unfold castLoop
  simp [h]

theorem castLoop_succ (a : DrawArgs α) (pass x fuel : Nat) (cs : CastState α)
    (fr : FrameState α) (h : cs.casting = true) :
    castLoop a pass x (fuel + 1) cs fr =
      castLoop a pass x fuel (castStep a pass x cs fr).1 (castStep a pass x cs fr).2 := by
  rw [castLoop]
  simp [h]

theorem drawSlice_pass_data (a : DrawArgs α) (pass x : Nat) (cs : CastState α)
    (response : MapData α) (wall : Image) (wall_dist line_height : α) (fr : FrameState α) :
    (drawSlice a pass x cs response wall wall_dist line_height fr).pass_data = fr.pass_data := by
  unfold drawSlice
  dsimp only
  split_ifs <;> rfl

theorem drawSlice_calls (a : DrawArgs α) (pass x : Nat) (cs : CastState α)
    (response : MapData α) (wall : Image) (wall_dist line_height : α) (fr : FrameState α) :
    ∃ texX x1 y1 x2 y2 color_scaled z,
      (drawSlice a pass x cs response wall wall_dist line_height fr).calls =
        fr.calls ++
          [DrawCall.wallSlice pass x wall_dist wall texX x1 y1 x2 y2 color_scaled z] := by
  unfold drawSlice
  dsimp only
  split_ifs <;> exact ⟨_, _, _, _, _, _, _, rfl⟩

theorem acceptHit_sprite_pass (a : DrawArgs α) (x : Nat) (cs : CastState α)
    (response : MapData α) (wall : Image) (fr : FrameState α) :
    (acceptHit a WALL_SPRITE_PASS x cs response wall fr).2.pass_data = fr.pass_data ∧
    ∃ new, (acceptHit a WALL_SPRITE_PASS x cs response wall fr).2.calls = fr.calls ++ new ∧
      ∀ d ∈ new, SliceWithin fr.pass_data d := by
  unfold acceptHit
  have h10 : ¬ (WALL_SPRITE_PASS = WALL_PASS) := by decide
  simp only [if_neg h10]
  split_ifs with hc
  · refine ⟨drawSlice_pass_data _ _ _ _ _ _ _ _ _, ?_⟩
    obtain ⟨texX, x1, y1, x2, y2, c, z, hcalls⟩ :=
      drawSlice_calls a WALL_SPRITE_PASS x cs response wall
        (wallDist a WALL_SPRITE_PASS (fr.pass_data x) cs response.inset_amount)
        (lineHeight a (wallDist a WALL_SPRITE_PASS (fr.pass_data x) cs response.inset_amount)) fr
    refine ⟨_, hcalls, ?_⟩
    intro d hd
    rw [List.mem_singleton] at hd
    exact ⟨_, _, _, _, _, _, _, _, _, _, hd, hc.1⟩
  · exact ⟨rfl, [], (List.append_nil _).symm, fun d hd => absurd hd (List.not_mem_nil _)⟩

theorem castStep_sprite_pass (a : DrawArgs α) (x : Nat) (cs : CastState α)
    (fr : FrameState α) :
    (castStep a WALL_SPRITE_PASS x cs fr).2.pass_data = fr.pass_data ∧
    ∃ new, (castStep a WALL_SPRITE_PASS x cs fr).2.calls = fr.calls ++ new ∧
      ∀ d ∈ new, SliceWithin fr.pass_data d := by
  have triv : ∀ c : CastState α, ((c, fr) : CastState α × FrameState α).2.pass_data =
        fr.pass_data ∧
      ∃ new, ((c, fr) : CastState α × FrameState α).2.calls = fr.calls ++ new ∧
        ∀ d ∈ new, SliceWithin fr.pass_data d :=
    fun _ => ⟨rfl, [], (List.append_nil _).symm, fun d hd => absurd hd (List.not_mem_nil _)⟩
  unfold castStep
  dsimp only
  split_ifs <;> (try split) <;>
    first
    | exact triv _
    | exact acceptHit_sprite_pass a x _ _ _ fr

theorem castLoop_sprite_pass (a : DrawArgs α) (x fuel : Nat) :
    ∀ (cs : CastState α) (fr : FrameState α) (r : CastState α × FrameState α),
      castLoop a WALL_SPRITE_PASS x fuel cs fr = some r →
        r.2.pass_data = fr.pass_data ∧
        ∃ new, r.2.calls = fr.calls ++ new ∧ ∀ d ∈ new, SliceWithin fr.pass_data d := by
  induction fuel with
  | zero =>
    intro cs fr r h
    cases hc : cs.casting with
    | false =>
      rw [castLoop_done _ _ _ _ _ _ hc] at h
      cases h
      exact ⟨rfl, [], (List.append_nil _).symm, fun d hd => absurd hd (List.not_mem_nil _)⟩
    | true =>
      rw [castLoop_zero _ _ _ _ _ hc] at h
      cases h
  | succ fuel ih =>
    intro cs fr r h
    cases hc : cs.casting with
    | false =>
      rw [castLoop_done _ _ _ _ _ _ hc] at h
      cases h
      exact ⟨rfl, [], (List.append_nil _).symm, fun d hd => absurd hd (List.not_mem_nil _)⟩
    | true =>
      rw [castLoop_succ _ _ _ _ _ _ hc] at h
      obtain ⟨hpd, new1, hc1, hn1⟩ := castStep_sprite_pass a x cs fr
      obtain ⟨hpd2, new2, hc2, hn2⟩ := ih _ _ r h
      refine ⟨hpd2.trans hpd, new1 ++ new2, ?_, ?_⟩
      · rw [hc2, hc1, List.append_assoc]
      · intro d hd
        rw [List.mem_append] at hd
        rcases hd with hd | hd
        · exact hn1 d hd
        · rw [← hpd]
          exact hn2 d hd

theorem castColumns_sprite_pass (a : DrawArgs α) (fuel : Nat) (xs : List Nat) :
    ∀ (fr fr2 : FrameState α),
      xs.foldlM (fun fr x => (castColumn a fuel WALL_SPRITE_PASS x fr).map Prod.snd) fr =
          some fr2 →
        fr2.pass_data = fr.pass_data ∧
        ∃ new, fr2.calls = fr.calls ++ new ∧ ∀ d ∈ new, SliceWithin fr.pass_data d := by
  induction xs with
  | nil =>
    intro fr fr2 h
    simp only [List.foldlM_nil, Option.pure_def, Option.some.injEq] at h
    subst h
    exact ⟨rfl, [], (List.append_nil _).symm, fun d hd => absurd hd (List.not_mem_nil _)⟩
  | cons x xs ih =>
    intro fr fr2 h
    simp only [List.foldlM_cons, Option.bind_eq_bind, Option.bind_eq_some, Option.map_eq_some']
      at h
    obtain ⟨fr1, ⟨r, hr, hr2⟩, hrest⟩ := h
    subst hr2
    have h10 : ¬ (WALL_SPRITE_PASS = FIRST_PASS) := by decide
    unfold castColumn at hr
    simp only [if_neg h10] at hr
    obtain ⟨hpd, new1, hc1, hn1⟩ := castLoop_sprite_pass a x fuel _ _ r hr
    obtain ⟨hpd2, new2, hc2, hn2⟩ := ih _ _ hrest
    refine ⟨hpd2.trans hpd, new1 ++ new2, ?_, ?_⟩
    · rw [hc2, hc1, List.append_assoc]
    · intro d hd
      rw [List.mem_append] at hd
      rcases hd with hd | hd
      · exact hn1 d hd
      · rw [← hpd]
        exact hn2 d hd

/-! ### Casting in a world whose every cell is out of bounds -/

theorem castInit_skip_cast (a : DrawArgs α) (pd : PassData α) :
    (castInit a pd).skip_cast = 0 ∧ (castInit a pd).casting = true := ⟨rfl, rfl⟩

theorem advanceRay_skip_cast (pd : PassData α) (cs : CastState α) :
    (advanceRay pd cs).skip_cast = cs.skip_cast := by
  unfold advanceRay
  split_ifs <;> rfl

theorem castStep_of_invalid (a : DrawArgs α) (pass x : Nat) (cs : CastState α)
    (fr : FrameState α) (hq : ∀ i j, (a.query i j).invalid = true) (hs : cs.skip_cast = 0) :
    (castStep a pass x cs fr).1.casting = false ∧ (castStep a pass x cs fr).2 = fr := by
  unfold castStep
  dsimp only
  have h0 : ¬ (advanceRay (fr.pass_data x) cs).skip_cast > 0 := by
    rw [advanceRay_skip_cast, hs]
    exact lt_irrefl 0
  rw [if_neg h0, if_pos (hq _ _)]
  exact ⟨rfl, rfl⟩

theorem castLoop_of_invalid (a : DrawArgs α) (pass x fuel : Nat) (cs : CastState α)
    (fr : FrameState α) (hq : ∀ i j, (a.query i j).invalid = true) (hs : cs.skip_cast = 0)
    (hc : cs.casting = true) :
    ∃ cs2, castLoop a pass x (fuel + 1) cs fr = some (cs2, fr) := by
  rw [castLoop_succ _ _ _ _ _ _ hc]
  obtain ⟨h1, h2⟩ := castStep_of_invalid a pass x cs fr hq hs
  rw [castLoop_done _ _ _ _ _ _ h1, h2]
  exact ⟨_, rfl⟩

theorem castColumns_of_invalid (a : DrawArgs α) (pass fuel : Nat)
    (hq : ∀ i j, (a.query i j).invalid = true) (xs : List Nat) :
    ∀ fr : FrameState α, ∃ fr2,
      xs.foldlM (fun fr x => (castColumn a (fuel + 1) pass x fr).map Prod.snd) fr = some fr2 ∧
      fr2.calls = fr.calls ∧ fr2._ceiling_floor = fr._ceiling_floor := by
  induction xs with
  | nil => exact fun fr => ⟨fr, rfl, rfl, rfl⟩
  | cons x xs ih =>
    intro fr
    have hcol : ∃ fr1, (castColumn a (fuel + 1) pass x fr).map Prod.snd = some fr1 ∧
        fr1.calls = fr.calls ∧ fr1._ceiling_floor = fr._ceiling_floor := by
      unfold castColumn
      dsimp only
      split_ifs
      · obtain ⟨cs2, h⟩ := castLoop_of_invalid a pass x fuel
          (castInit a (Function.update fr.pass_data x (passData a x) x))
          { fr with pass_data := Function.update fr.pass_data x (passData a x) } hq rfl rfl
        refine ⟨{ fr with pass_data := Function.update fr.pass_data x (passData a x) }, ?_,
          rfl, rfl⟩
        rw [h]
        rfl
      · obtain ⟨cs2, h⟩ := castLoop_of_invalid a pass x fuel (castInit a (fr.pass_data x)) fr
          hq rfl rfl
        refine ⟨fr, ?_, rfl, rfl⟩
        rw [h]
        rfl
    obtain ⟨fr1, h1, hc1, hb1⟩ := hcol
    obtain ⟨fr2, h2, hc2, hb2⟩ := ih fr1
    refine ⟨fr2, ?_, hc2.trans hc1, hb2.trans hb1⟩
    rw [List.foldlM_cons, h1]
    exact h2

theorem castPasses_of_invalid (a : DrawArgs α) (fuel : Nat)
    (hq : ∀ i j, (a.query i j).invalid = true) (fr : FrameState α) :
    ∃ fr2, castPasses a (fuel + 1) fr = some fr2 ∧
      fr2.calls = fr.calls ∧ fr2._ceiling_floor = fr._ceiling_floor := by
  obtain ⟨fr1, h1, hc1, hb1⟩ := castColumns_of_invalid a WALL_PASS fuel hq
    (List.range a.screen_w) fr
  obtain ⟨fr2, h2, hc2, hb2⟩ := castColumns_of_invalid a WALL_SPRITE_PASS fuel hq
    (List.range a.screen_w) fr1
  refine ⟨fr2, ?_, hc2.trans hc1, hb2.trans hb1⟩
  have hr : List.range N_PASSES = [WALL_PASS, WALL_SPRITE_PASS] := by decide
  have e1 : castPass a (fuel + 1) WALL_PASS fr = some fr1 := h1
  have e2 : castPass a (fuel + 1) WALL_SPRITE_PASS fr1 = some fr2 := h2
  unfold castPasses
  rw [hr]
  simp only [List.foldlM_cons, List.foldlM_nil, e1, e2, Option.bind_eq_bind, Option.some_bind,
    Option.pure_def]

/-! ### A solid wall met by the first step of a cast -/

theorem castStep_solid_hit (a : DrawArgs α) (x : Nat) (cs : CastState α) (fr : FrameState α)
    (wall : Image) (hs : cs.skip_cast = 0)
    (hinv : (a.query (advanceRay (fr.pass_data x) cs).cur_x
      (advanceRay (fr.pass_data x) cs).cur_y).invalid = false)
    (hwall : (a.query (advanceRay (fr.pass_data x) cs).cur_x
      (advanceRay (fr.pass_data x) cs).cur_y).wall = some wall)
    (hx : (a.query (advanceRay (fr.pass_data x) cs).cur_x
      (advanceRay (fr.pass_data x) cs).cur_y).x_hidden = false)
    (hy : (a.query (advanceRay (fr.pass_data x) cs).cur_x
      (advanceRay (fr.pass_data x) cs).cur_y).y_hidden = false)
    (hsprite : (a.query (advanceRay (fr.pass_data x) cs).cur_x
      (advanceRay (fr.pass_data x) cs).cur_y).wall_sprite = false) :
    (castStep a WALL_PASS x cs fr).1 =
      { advanceRay (fr.pass_data x) cs with casting := false } ∧
    ((castStep a WALL_PASS x cs fr).2.pass_data x).wall_distance =
      wallDist a WALL_PASS (fr.pass_data x)
        { advanceRay (fr.pass_data x) cs with casting := false } 0 := by
  have h0 : ¬ (advanceRay (fr.pass_data x) cs).skip_cast > 0 := by
    rw [advanceRay_skip_cast, hs]
    exact lt_irrefl 0
  have hd : ∀ i, wallDist a WALL_PASS (fr.pass_data x)
      { advanceRay (fr.pass_data x) cs with casting := false } i =
      wallDist a WALL_PASS (fr.pass_data x)
        { advanceRay (fr.pass_data x) cs with casting := false } 0 := by
    intro i
    unfold wallDist
    simp
  unfold castStep
  dsimp only
  rw [if_neg h0, hinv]
  simp only [Bool.false_eq_true, if_false, hwall, hx, hy, and_false, not_false_eq_true, and_self,
    if_true]
  have hcp : correctPass WALL_PASS (a.query (advanceRay (fr.pass_data x) cs).cur_x
      (advanceRay (fr.pass_data x) cs).cur_y) = true := by
    unfold correctPass
    simp [hsprite]
  rw [hcp]
  simp only [if_true]
  unfold acceptHit
  dsimp only
  simp only [if_true]
  split_ifs
  · refine ⟨rfl, ?_⟩
    dsimp only
    rw [drawSlice_pass_data]
    simp only [Function.update_same]
    exact hd _
  · refine ⟨rfl, ?_⟩
    simp only [Function.update_same]
    exact hd _

theorem castColumn_solid_first_hit (a : DrawArgs α) (x fuel : Nat) (fr : FrameState α)
    (wall : Image)
    (hinv : (a.query (advanceRay (passData a x) (castInit a (passData a x))).cur_x
      (advanceRay (passData a x) (castInit a (passData a x))).cur_y).invalid = false)
    (hwall : (a.query (advanceRay (passData a x) (castInit a (passData a x))).cur_x
      (advanceRay (passData a x) (castInit a (passData a x))).cur_y).wall = some wall)
    (hx : (a.query (advanceRay (passData a x) (castInit a (passData a x))).cur_x
      (advanceRay (passData a x) (castInit a (passData a x))).cur_y).x_hidden = false)
    (hy : (a.query (advanceRay (passData a x) (castInit a (passData a x))).cur_x
      (advanceRay (passData a x) (castInit a (passData a x))).cur_y).y_hidden = false)
    (hsprite : (a.query (advanceRay (passData a x) (castInit a (passData a x))).cur_x
      (advanceRay (passData a x) (castInit a (passData a x))).cur_y).wall_sprite = false) :
    ∃ fr1,
      castColumn a (fuel + 1) WALL_PASS x fr =
        some ({ advanceRay (passData a x) (castInit a (passData a x)) with casting := false },
          fr1) ∧
      (fr1.pass_data x).wall_distance =
        wallDist a WALL_PASS (passData a x)
          { advanceRay (passData a x) (castInit a (passData a x)) with casting := false } 0 := by
  have hu : (Function.update fr.pass_data x (passData a x)) x = passData a x :=
    Function.update_same _ _ _
  have key := castStep_solid_hit a x (castInit a (passData a x))
    { fr with pass_data := Function.update fr.pass_data x (passData a x) } wall rfl
  dsimp only at key
  rw [hu] at key
  obtain ⟨k1, k2⟩ := key hinv hwall hx hy hsprite
  refine ⟨(castStep a WALL_PASS x (castInit a (passData a x))
    { fr with pass_data := Function.update fr.pass_data x (passData a x) }).2, ?_, k2⟩
  unfold castColumn
  dsimp only
  rw [if_pos rfl]
  dsimp only
  rw [hu, castLoop_succ _ _ _ _ _ _ rfl, castLoop_done _ _ _ _ _ _ (by rw [k1]), k1]

theorem toInt_three_halves : toInt (1.5 : α) = 1 := by
  unfold toInt
  rw [if_pos (by norm_num), Int.floor_eq_iff]
  constructor <;> norm_num

theorem sqrt_delta_lt {p q : ℝ} (hp : p ≠ 0) (hq : q ≠ 0) (h : q * q < p * p) :
    Real.sqrt (1 + q * q / (p * p)) < Real.sqrt (1 + p * p / (q * q)) := by
  have hpp : 0 < p * p := mul_self_pos.mpr hp
  have hqq : 0 < q * q := mul_self_pos.mpr hq
  apply Real.sqrt_lt_sqrt
  · positivity
  · have h1 : q * q / (p * p) < 1 := (div_lt_one hpp).mpr h
    have h2 : 1 < p * p / (q * q) := (one_lt_div hqq).mpr h
    linarith

theorem first_step_from_centre (a : DrawArgs ℝ) (hpx : a.cam._pos_x = 1.5)
    (hpy : a.cam._pos_y = 1.5) (hsq : a.sqrt = Real.sqrt) (x : Nat)
    (hx0 : (passData a x).ray_dir_x ≠ 0) (hy0 : (passData a x).ray_dir_y ≠ 0) :
    ((passData a x).ray_dir_x * (passData a x).ray_dir_x <
        (passData a x).ray_dir_y * (passData a x).ray_dir_y →
      (advanceRay (passData a x) (castInit a (passData a x))).cur_x = 1 ∧
      (advanceRay (passData a x) (castInit a (passData a x))).cur_y =
        1 + (if (passData a x).ray_dir_y < 0 then -1 else 1) ∧
      wallDist a WALL_PASS (passData a x)
        { advanceRay (passData a x) (castInit a (passData a x)) with casting := false } 0 =
          (if (passData a x).ray_dir_y < 0 then -0.5 else 0.5) / (passData a x).ray_dir_y) ∧
    ((passData a x).ray_dir_y * (passData a x).ray_dir_y <
        (passData a x).ray_dir_x * (passData a x).ray_dir_x →
      (advanceRay (passData a x) (castInit a (passData a x))).cur_x =
        1 + (if (passData a x).ray_dir_x < 0 then -1 else 1) ∧
      (advanceRay (passData a x) (castInit a (passData a x))).cur_y = 1 ∧
      wallDist a WALL_PASS (passData a x)
        { advanceRay (passData a x) (castInit a (passData a x)) with casting := false } 0 =
          (if (passData a x).ray_dir_x < 0 then -0.5 else 0.5) / (passData a x).ray_dir_x) := by
  have hdx : (passData a x).delta_x = Real.sqrt (1 + (passData a x).ray_dir_y *
      (passData a x).ray_dir_y / ((passData a x).ray_dir_x * (passData a x).ray_dir_x)) := by
    rw [← hsq]; rfl
  have hdy : (passData a x).delta_y = Real.sqrt (1 + (passData a x).ray_dir_x *
      (passData a x).ray_dir_x / ((passData a x).ray_dir_y * (passData a x).ray_dir_y)) := by
    rw [← hsq]; rfl
  generalize passData a x = pd at *
  have hsx : (castInit a pd).side_dist_x = 0.5 * pd.delta_x := by
    simp only [castInit, hpx, toInt_three_halves]
    split_ifs <;> norm_num
  have hsy : (castInit a pd).side_dist_y = 0.5 * pd.delta_y := by
    simp only [castInit, hpy, toInt_three_halves]
    split_ifs <;> norm_num
  constructor
  · intro h
    have hlt : ¬ (castInit a pd).side_dist_x < (castInit a pd).side_dist_y := by
      rw [hsx, hsy, hdx, hdy]
      have := sqrt_delta_lt hy0 hx0 h
      linarith
    unfold advanceRay wallDist
    rw [if_neg hlt]
    simp only [castInit, hpx, hpy, toInt_three_halves]
    refine ⟨trivial, trivial, ?_⟩
    split_ifs <;> first | omega | norm_num
  · intro h
    have hlt : (castInit a pd).side_dist_x < (castInit a pd).side_dist_y := by
      rw [hsx, hsy, hdx, hdy]
      have := sqrt_delta_lt hx0 hy0 h
      linarith
    unfold advanceRay wallDist
    rw [if_pos hlt]
    simp only [castInit, hpx, hpy, toInt_three_halves]
    refine ⟨trivial, trivial, ?_⟩
    split_ifs <;> first | omega | norm_num

theorem cast_from_centre (a : DrawArgs ℝ) (hpx : a.cam._pos_x = 1.5)
    (hpy : a.cam._pos_y = 1.5) (hsq : a.sqrt = Real.sqrt) (hw : a.screen_w = 1)
    (fuel : Nat) (fr : FrameState ℝ)
    (hx0 : (passData a 0).ray_dir_x ≠ 0) (hy0 : (passData a 0).ray_dir_y ≠ 0)
    (tx ty : Int) (d : ℝ)
    (hcase :
      ((passData a 0).ray_dir_x * (passData a 0).ray_dir_x <
          (passData a 0).ray_dir_y * (passData a 0).ray_dir_y ∧
        tx = 1 ∧ ty = 1 + (if (passData a 0).ray_dir_y < 0 then -1 else 1) ∧
        d = (if (passData a 0).ray_dir_y < 0 then -0.5 else 0.5) / (passData a 0).ray_dir_y) ∨
      ((passData a 0).ray_dir_y * (passData a 0).ray_dir_y <
          (passData a 0).ray_dir_x * (passData a 0).ray_dir_x ∧
        tx = 1 + (if (passData a 0).ray_dir_x < 0 then -1 else 1) ∧ ty = 1 ∧
        d = (if (passData a 0).ray_dir_x < 0 then -0.5 else 0.5) / (passData a 0).ray_dir_x))
    (hq : (a.query tx ty).invalid = false ∧ (a.query tx ty).wall.isSome = true ∧
      (a.query tx ty).wall_sprite = false ∧ (a.query tx ty).x_hidden = false ∧
      (a.query tx ty).y_hidden = false) :
    ∃ cs fr1,
      castColumn a (fuel + 1) WALL_PASS 0 fr = some (cs, fr1) ∧
      castPass a (fuel + 1) WALL_PASS fr = some fr1 ∧
      cs.casting = false ∧ cs.cur_x = tx ∧ cs.cur_y = ty ∧
      (fr1.pass_data 0).wall_distance = d := by
  obtain ⟨hy, hx⟩ := first_step_from_centre a hpx hpy hsq 0 hx0 hy0
  have hcell : (advanceRay (passData a 0) (castInit a (passData a 0))).cur_x = tx ∧
      (advanceRay (passData a 0) (castInit a (passData a 0))).cur_y = ty ∧
      wallDist a WALL_PASS (passData a 0)
        { advanceRay (passData a 0) (castInit a (passData a 0)) with casting := false } 0 = d := by
    rcases hcase with ⟨h, h1, h2, h3⟩ | ⟨h, h1, h2, h3⟩
    · obtain ⟨e1, e2, e3⟩ := hy h
      exact ⟨e1.trans h1.symm, e2.trans h2.symm, e3.trans h3.symm⟩
    · obtain ⟨e1, e2, e3⟩ := hx h
      exact ⟨e1.trans h1.symm, e2.trans h2.symm, e3.trans h3.symm⟩
  obtain ⟨e1, e2, e3⟩ := hcell
  obtain ⟨q1, q2, q3, q4, q5⟩ := hq
  obtain ⟨wall, hwall⟩ := Option.isSome_iff_exists.mp q2
  obtain ⟨fr1, hcol, hdist⟩ := castColumn_solid_first_hit a 0 fuel fr wall
    (by rw [e1, e2]; exact q1) (by rw [e1, e2]; exact hwall) (by rw [e1, e2]; exact q4)
    (by rw [e1, e2]; exact q5) (by rw [e1, e2]; exact q3)
  refine ⟨_, fr1, hcol, ?_, rfl, e1, e2, hdist.trans e3⟩
  unfold castPass
  have hr : List.range a.screen_w = [0] := by rw [hw]; rfl
  rw [hr]
  simp only [List.foldlM_cons, List.foldlM_nil, hcol, Option.map_some', Option.bind_eq_bind,
    Option.some_bind, Option.pure_def]

/-- C1: in a 3x3 grid with solid walls on the eight border cells, an empty
centre and `invalid` outside, with the camera at (1.5, 1.5), screen width 1 and
facing set by `setCoordinateSystem` to (0,-k), (0,k), (k,0) or (-k,0), k > 0,
the solid-wall pass consists of the cast of column 0 alone, which ends (within
its first step) on the border cell in the facing direction and records
wall_distance = 0.5 / k. -/
theorem bordered_grid_wall_distance (k : ℝ) (hk : 0 < k) (c : Camera ℝ) (atan2 : ℝ → ℝ → ℝ)
    (screen_h fuel : Nat) (query : Int → Int → MapData ℝ) (drawText : Bitmap → Bitmap)
    (uninit : Nat → PassData ℝ) (fr : FrameState ℝ)
    (hOut : ∀ i j, ¬(0 ≤ i ∧ i < 3 ∧ 0 ≤ j ∧ j < 3) → (query i j).invalid = true)
    (hCentre : (query 1 1).invalid = false ∧ (query 1 1).wall = none)
    (hBorder : ∀ i j, 0 ≤ i → i < 3 → 0 ≤ j → j < 3 → ¬(i = 1 ∧ j = 1) →
      (query i j).invalid = false ∧ (query i j).wall.isSome = true ∧
      (query i j).wall_sprite = false ∧ (query i j).x_hidden = false ∧
      (query i j).y_hidden = false)
    (fx fy : ℝ) (tx ty : Int)
    (hf : (fx = 0 ∧ fy = -k ∧ tx = 1 ∧ ty = 0) ∨ (fx = 0 ∧ fy = k ∧ tx = 1 ∧ ty = 2) ∨
      (fx = k ∧ fy = 0 ∧ tx = 2 ∧ ty = 1) ∨ (fx = -k ∧ fy = 0 ∧ tx = 0 ∧ ty = 1)) :
    ∃ cs fr1,
      castColumn ⟨setCoordinateSystem atan2 Real.pi fx fy (setCameraPosition 1.5 1.5 c), 1,
          screen_h, query, Real.sqrt, drawText, uninit⟩ (fuel + 1) WALL_PASS 0 fr =
        some (cs, fr1) ∧
      castPass ⟨setCoordinateSystem atan2 Real.pi fx fy (setCameraPosition 1.5 1.5 c), 1,
          screen_h, query, Real.sqrt, drawText, uninit⟩ (fuel + 1) WALL_PASS fr = some fr1 ∧
      cs.casting = false ∧ cs.cur_x = tx ∧ cs.cur_y = ty ∧
      (fr1.pass_data 0).wall_distance = 0.5 / k := by
  have hk0 : k ≠ 0 := hk.ne'
  have hkk : 0 < k * k := mul_pos hk hk
  have hrx : (passData (⟨setCoordinateSystem atan2 Real.pi fx fy (setCameraPosition 1.5 1.5 c),
      1, screen_h, query, Real.sqrt, drawText, uninit⟩ : DrawArgs ℝ) 0).ray_dir_x =
      fx + 0.66 * fy := by
    simp only [passData, setCoordinateSystem]
    norm_num
    ring
  have hry : (passData (⟨setCoordinateSystem atan2 Real.pi fx fy (setCameraPosition 1.5 1.5 c),
      1, screen_h, query, Real.sqrt, drawText, uninit⟩ : DrawArgs ℝ) 0).ray_dir_y =
      fy - 0.66 * fx := by
    simp only [passData, setCoordinateSystem]
    norm_num
    ring
  apply cast_from_centre _ rfl rfl rfl rfl
  · rw [hrx]
    rcases hf with ⟨h1, h2, -, -⟩ | ⟨h1, h2, -, -⟩ | ⟨h1, h2, -, -⟩ | ⟨h1, h2, -, -⟩ <;>
      rw [h1, h2] <;> norm_num <;> exact hk0
  · rw [hry]
    rcases hf with ⟨h1, h2, -, -⟩ | ⟨h1, h2, -, -⟩ | ⟨h1, h2, -, -⟩ | ⟨h1, h2, -, -⟩ <;>
      rw [h1, h2] <;> norm_num <;> exact hk0
  · rw [hrx, hry]
    rcases hf with ⟨h1, h2, h3, h4⟩ | ⟨h1, h2, h3, h4⟩ | ⟨h1, h2, h3, h4⟩ | ⟨h1, h2, h3, h4⟩
    · left
      rw [h1, h2, h3, h4]
      refine ⟨by nlinarith, rfl, ?_, ?_⟩
      · rw [if_pos (by linarith)]; rfl
      · rw [if_pos (by linarith)]; field_simp
    · left
      rw [h1, h2, h3, h4]
      refine ⟨by nlinarith, rfl, ?_, ?_⟩
      · rw [if_neg (by linarith)]; rfl
      · rw [if_neg (by linarith)]; field_simp
    · right
      rw [h1, h2, h3, h4]
      refine ⟨by nlinarith, ?_, rfl, ?_⟩
      · rw [if_neg (by linarith)]; rfl
      · rw [if_neg (by linarith)]; field_simp
    · right
      rw [h1, h2, h3, h4]
      refine ⟨by nlinarith, ?_, rfl, ?_⟩
      · rw [if_pos (by linarith)]; rfl
      · rw [if_pos (by linarith)]; field_simp
  · rcases hf with ⟨-, -, h3, h4⟩ | ⟨-, -, h3, h4⟩ | ⟨-, -, h3, h4⟩ | ⟨-, -, h3, h4⟩ <;>
      rw [h3, h4] <;> exact hBorder _ _ (by norm_num) (by norm_num) (by norm_num) (by norm_num)
        (by norm_num)

/-- Witness for C1: the fresh camera put at (1.5, 1.5) in `borderedGrid`, facing
(0, -1), on a window of width 1 and height 4. -/
theorem bordered_grid_wall_distance_witness :
    ∃ cs fr1,
      castColumn ⟨setCoordinateSystem (fun y x => Complex.arg ⟨x, y⟩) Real.pi 0 (-1)
          (setCameraPosition 1.5 1.5 (RayCaster staticInit)), 1, 4, borderedGrid ⟨8, 8⟩,
          Real.sqrt, fun b => b, fun _ => ⟨0, 0, 0, 0, 0, 0⟩⟩ (0 + 1) WALL_PASS 0
          ⟨fun _ => ⟨0, 0, 0, 0, 0, 0⟩, [], whiteBitmap⟩ = some (cs, fr1) ∧
      castPass ⟨setCoordinateSystem (fun y x => Complex.arg ⟨x, y⟩) Real.pi 0 (-1)
          (setCameraPosition 1.5 1.5 (RayCaster staticInit)), 1, 4, borderedGrid ⟨8, 8⟩,
          Real.sqrt, fun b => b, fun _ => ⟨0, 0, 0, 0, 0, 0⟩⟩ (0 + 1) WALL_PASS
          ⟨fun _ => ⟨0, 0, 0, 0, 0, 0⟩, [], whiteBitmap⟩ = some fr1 ∧
      cs.casting = false ∧ cs.cur_x = 1 ∧ cs.cur_y = 0 ∧
      (fr1.pass_data 0).wall_distance = 0.5 / 1 :=
  bordered_grid_wall_distance 1 one_pos (RayCaster staticInit) (fun y x => Complex.arg ⟨x, y⟩)
    4 0 (borderedGrid ⟨8, 8⟩) (fun b => b) (fun _ => ⟨0, 0, 0, 0, 0, 0⟩)
    ⟨fun _ => ⟨0, 0, 0, 0, 0, 0⟩, [], whiteBitmap⟩
    (by
      intro i j h
      have h2 : i < 0 ∨ j < 0 ∨ 3 ≤ i ∨ 3 ≤ j := by omega
      simp only [borderedGrid, if_pos h2]
      rfl)
    (by
      constructor <;> simp [borderedGrid, outOfBounds])
    (by
      intro i j h1 h2 h3 h4 h5
      have h6 : ¬ (i < 0 ∨ j < 0 ∨ 3 ≤ i ∨ 3 ≤ j) := by omega
      simp [borderedGrid, if_neg h6, if_neg h5, outOfBounds])
    0 (-1) 1 0 (Or.inl ⟨rfl, rfl, rfl, rfl⟩)

/-! ### The floor/ceiling bitmap across a frame -/

theorem Bitmap.resize_size (b : Bitmap) (width height : Nat) (c : Color) :
    (b.resize width height c).w = width ∧ (b.resize width height c).h = height := by
  unfold Bitmap.resize
  split_ifs with h
  · exact ⟨h.1.symm, h.2.symm⟩
  · exact ⟨rfl, rfl⟩

theorem floorCeilingRow_transparent (a : DrawArgs α) (x : Nat)
    (wall_dist floorXWall floorYWall : α) (bmp : Bitmap) (y : Int) :
    ((floorSample a wall_dist floorXWall floorYWall y).ceiling = none →
      0 ≤ (a.screen_h : Int) + cameraPitch a - y →
      (a.screen_h : Int) + cameraPitch a - y < a.screen_h →
      (floorCeilingRow a x wall_dist floorXWall floorYWall bmp y).pixels x
        ((a.screen_h : Int) + cameraPitch a - y).toNat = Color.NONE) ∧
    ((floorSample a wall_dist floorXWall floorYWall y).floor = none →
      0 ≤ y + cameraPitch a → y + cameraPitch a < a.screen_h →
      y + cameraPitch a ≠ (a.screen_h : Int) + cameraPitch a - y →
      (floorCeilingRow a x wall_dist floorXWall floorYWall bmp y).pixels x
        (y + cameraPitch a).toNat = Color.NONE) := by
  constructor
  · intro hc h0 h1
    unfold floorCeilingRow
    dsimp only
    rw [hc]
    dsimp only
    rw [if_pos ⟨h0, h1⟩]
    simp [Bitmap.setPixel]
  · intro hf h0 h1 hne
    have hn : ¬ ((y + cameraPitch a).toNat = ((a.screen_h : Int) + cameraPitch a - y).toNat ∧
        0 ≤ (a.screen_h : Int) + cameraPitch a - y) := by omega
    unfold floorCeilingRow
    dsimp only
    rw [hf]
    dsimp only
    rw [if_pos ⟨h0, h1⟩]
    rcases (floorSample a wall_dist floorXWall floorYWall y).ceiling with _ | ceiling <;>
      dsimp only <;> split_ifs with h2 <;> simp only [Bitmap.setPixel, true_and, if_true]
    · rw [if_neg (fun e => hn ⟨e, h2.1⟩)]
    · rw [if_neg (fun e => hn ⟨e, h2.1⟩)]

theorem draw_of_invalid (a : DrawArgs α) (fuel : Nat) (sprites : List (Sprite α))
    (hq : ∀ i j, (a.query i j).invalid = true) (hready : a.cam._ready = true)
    (hfps : a.cam._fps_enabled = false) (b : Bitmap) :
    ∃ pass_data, draw a (fuel + 1) sprites b =
      some (b.resize a.screen_w a.screen_h Color.NONE,
        drawSprites a pass_data sprites ++
          [DrawCall.ceilingFloor (b.resize a.screen_w a.screen_h Color.NONE) (-100 - 50)]) := by
  obtain ⟨fr2, h, hcalls, hcf⟩ := castPasses_of_invalid a fuel hq
    ⟨a.uninit, [], b.resize a.screen_w a.screen_h Color.NONE⟩
  dsimp only at hcalls hcf
  refine ⟨fr2.pass_data, ?_⟩
  unfold draw drawInit
  rw [if_pos hready]
  dsimp only
  rw [h]
  dsimp only
  simp only [hfps, Bool.false_eq_true, if_false, hcalls, hcf, List.nil_append]

/-- C9 (counterexample): in `emptyWorld` (ready camera, FPS overlay off) every
cast leaves the map at once, so no floor or ceiling sample is written; a frame
drawn on a buffer whose pixels were opaque white leaves pixel (0, 0) opaque
white, not transparent, while the same frame drawn on a transparent buffer
leaves it transparent: the buffer after the call depends on the buffer before. -/
theorem ceiling_floor_keeps_previous_frame :
    (∃ r, draw (emptyWorld Real.sqrt) 1 [] whiteBitmap = some r ∧
      r.2 = [DrawCall.ceilingFloor r.1 (-100 - 50)] ∧
      r.1.pixels 0 0 = ⟨255, 255, 255, 255⟩ ∧ r.1.pixels 0 0 ≠ Color.NONE) ∧
    (∃ r, draw (emptyWorld Real.sqrt) 1 [] clearBitmap = some r ∧
      r.1.pixels 0 0 = Color.NONE) := by
  have hw : whiteBitmap.resize (emptyWorld Real.sqrt).screen_w (emptyWorld Real.sqrt).screen_h
      Color.NONE = whiteBitmap := by
    unfold Bitmap.resize
    rw [if_pos ⟨rfl, rfl⟩]
  have hc : clearBitmap.resize (emptyWorld Real.sqrt).screen_w (emptyWorld Real.sqrt).screen_h
      Color.NONE = clearBitmap := by
    unfold Bitmap.resize
    rw [if_pos ⟨rfl, rfl⟩]
  constructor
  · obtain ⟨pd, h⟩ := draw_of_invalid (emptyWorld Real.sqrt) 0 [] (fun _ _ => rfl) rfl rfl
      whiteBitmap
    rw [hw] at h
    have hne : (⟨255, 255, 255, 255⟩ : Color) ≠ Color.NONE := by decide
    exact ⟨_, h, rfl, rfl, hne⟩
  · obtain ⟨pd, h⟩ := draw_of_invalid (emptyWorld Real.sqrt) 0 [] (fun _ _ => rfl) rfl rfl
      clearBitmap
    rw [hc] at h
    exact ⟨_, h, rfl⟩

/-! ### The draw calls of a frame -/

section CameraTheorems2

variable {α : Type} [LinearOrderedField α]

/-- C13 (counterexample): the fresh camera at (0, 0) moved by forward 1 and
strafe 1 has the candidate position (0.66, -1); with a query that is true
exactly below y = 0 the candidate collides, yet the camera ends at (0.66, 0),
not at the position (0, 0) it had before the call. -/
theorem transformCamera_collision_slides :
    (fun (_ y : ℚ) => decide (y < 0)) 0.66 (-1) = true ∧
    getCameraPosition (setCameraPosition 0 0 (RayCaster (staticInit : Camera ℚ))) = (0, 0) ∧
    getCameraPosition (transformCamera 1 1 (fun (_ y : ℚ) => decide (y < 0))
      (setCameraPosition 0 0 (RayCaster (staticInit : Camera ℚ)))) = (0.66, 0) ∧
    getCameraPosition (transformCamera 1 1 (fun (_ y : ℚ) => decide (y < 0))
      (setCameraPosition 0 0 (RayCaster (staticInit : Camera ℚ)))) ≠
      getCameraPosition (setCameraPosition 0 0 (RayCaster (staticInit : Camera ℚ))) := by
  refine ⟨by norm_num, rfl, ?_, ?_⟩ <;>
    norm_num [getCameraPosition, transformCamera, setCameraPosition, RayCaster, staticInit]

/-- C13 (amended): when the collision query is true at the new position, the
camera ends at (newX, oldY) if the query is false there, otherwise at
(oldX, newY) if the query is false there, and otherwise at the position it had
before the call: the transform is cancelled as a whole only when both slides
are blocked too. -/
theorem transformCamera_collision (forward strafe : α) (collide : α → α → Bool) (c : Camera α)
    (h : collide (c._pos_x + c._dir_x * forward + c._plane_x * strafe)
      (c._pos_y + c._dir_y * forward + c._plane_y * strafe) = true) :
    (collide (c._pos_x + c._dir_x * forward + c._plane_x * strafe) c._pos_y = false →
      getCameraPosition (transformCamera forward strafe collide c) =
        (c._pos_x + c._dir_x * forward + c._plane_x * strafe, c._pos_y)) ∧
    (collide (c._pos_x + c._dir_x * forward + c._plane_x * strafe) c._pos_y = true →
      collide c._pos_x (c._pos_y + c._dir_y * forward + c._plane_y * strafe) = false →
      getCameraPosition (transformCamera forward strafe collide c) =
        (c._pos_x, c._pos_y + c._dir_y * forward + c._plane_y * strafe)) ∧
    (collide (c._pos_x + c._dir_x * forward + c._plane_x * strafe) c._pos_y = true →
      collide c._pos_x (c._pos_y + c._dir_y * forward + c._plane_y * strafe) = true →
      getCameraPosition (transformCamera forward strafe collide c) = getCameraPosition c) := by
  unfold transformCamera getCameraPosition
  simp only [h, if_true]
  refine ⟨?_, ?_, ?_⟩
  · intro h1
    simp [h1]
  · intro h1 h2
    simp [h1, h2]
  · intro h1 h2
    simp [h1, h2]

/-- Witness for C13 (amended): the move of the counterexample, where the slide
along x is free. -/
theorem transformCamera_collision_witness :
    getCameraPosition (transformCamera 1 1 (fun (_ y : ℚ) => decide (y < 0))
      (setCameraPosition 0 0 (RayCaster (staticInit : Camera ℚ)))) =
      ((setCameraPosition 0 0 (RayCaster (staticInit : Camera ℚ)))._pos_x +
          (setCameraPosition 0 0 (RayCaster (staticInit : Camera ℚ)))._dir_x * 1 +
          (setCameraPosition 0 0 (RayCaster (staticInit : Camera ℚ)))._plane_x * 1,
        (setCameraPosition 0 0 (RayCaster (staticInit : Camera ℚ)))._pos_y) :=
  (transformCamera_collision 1 1 (fun (_ y : ℚ) => decide (y < 0))
    (setCameraPosition 0 0 (RayCaster (staticInit : Camera ℚ)))
    (by norm_num [setCameraPosition, RayCaster, staticInit])).1
    (by norm_num [setCameraPosition, RayCaster, staticInit])

/-- C16 (the code at the failing input): from the constructor, a bob range of
0.3 and the bobs 0.31 and 0.59 leave bob-current -0.29 travelling downwards
(direction -1); a bob of 0.02 then carries it to -0.31, past the limit -0.3 by
0.01 < 0.1.  The direction is flipped to +1, but bob-current stays at -0.31
instead of the limit -0.3; the upward overshoot of the first bob (0.31, past
+0.3 by 0.01) was snapped to 0.3. -/
theorem bobCamera_lower_limit_not_snapped :
    getCameraBobRange (bobCamera 0.59 (bobCamera 0.31
        (setCameraBobRange 0.3 (RayCaster (staticInit : Camera ℚ))))) = 0.3 ∧
    (bobCamera 0.31 (setCameraBobRange 0.3
        (RayCaster (staticInit : Camera ℚ))))._camera_bob_current = 0.3 ∧
    (bobCamera 0.31 (setCameraBobRange 0.3
        (RayCaster (staticInit : Camera ℚ))))._camera_bob_direction = -1 ∧
    (bobCamera 0.59 (bobCamera 0.31 (setCameraBobRange 0.3
        (RayCaster (staticInit : Camera ℚ)))))._camera_bob_current = -0.29 ∧
    (bobCamera 0.59 (bobCamera 0.31 (setCameraBobRange 0.3
        (RayCaster (staticInit : Camera ℚ)))))._camera_bob_direction = -1 ∧
    (-0.29 + 0.02 * ((-1 : Int) : ℚ) < -0.3 ∧ -0.3 - (-0.29 + 0.02 * ((-1 : Int) : ℚ)) < 0.1) ∧
    (bobCamera 0.02 (bobCamera 0.59 (bobCamera 0.31 (setCameraBobRange 0.3
        (RayCaster (staticInit : Camera ℚ))))))._camera_bob_direction = 1 ∧
    (bobCamera 0.02 (bobCamera 0.59 (bobCamera 0.31 (setCameraBobRange 0.3
        (RayCaster (staticInit : Camera ℚ))))))._camera_bob_current = -0.31 ∧
    (bobCamera 0.02 (bobCamera 0.59 (bobCamera 0.31 (setCameraBobRange 0.3
        (RayCaster (staticInit : Camera ℚ))))))._camera_bob_current ≠ -0.3 := by
  have h1 : bobCamera 0.31 (setCameraBobRange 0.3 (RayCaster (staticInit : Camera ℚ))) =
      { RayCaster (staticInit : Camera ℚ) with
        _camera_bob_range := 0.3, _camera_bob_current := 0.3, _camera_bob_direction := -1 } := by
    norm_num [bobCamera, setCameraBobRange, RayCaster, staticInit, clamp]
  have h2 : bobCamera 0.59 (bobCamera 0.31
      (setCameraBobRange 0.3 (RayCaster (staticInit : Camera ℚ)))) =
      { RayCaster (staticInit : Camera ℚ) with
        _camera_bob_range := 0.3, _camera_bob_current := -0.29, _camera_bob_direction := -1 } := by
    rw [h1]
    norm_num [bobCamera, RayCaster, staticInit]
  have h3 : bobCamera 0.02 (bobCamera 0.59 (bobCamera 0.31
      (setCameraBobRange 0.3 (RayCaster (staticInit : Camera ℚ))))) =
      { RayCaster (staticInit : Camera ℚ) with
        _camera_bob_range := 0.3, _camera_bob_current := -0.31, _camera_bob_direction := 1 } := by
    rw [h2]
    norm_num [bobCamera, RayCaster, staticInit]
  rw [h3, h2, h1]
  refine ⟨rfl, rfl, rfl, rfl, rfl, by norm_num, rfl, rfl, by norm_num⟩

end CameraTheorems2

section SpriteTransform

variable {α : Type} [LinearOrderedField α]

/-- C17: when plane.x*facing.y - facing.x*plane.y is not zero, the sprite's
offset (sprite.x + 0.5 - pos.x, sprite.y + 0.5 - pos.y) is
transformX * plane + transformZ * facing; and when the plane is
(-0.66*facing.y, 0.66*facing.x), transformZ is (offset . facing) / |facing|^2. -/
theorem sprite_transform_is_basis_change (cam : Camera α) (sprite : Sprite α)
    (hdet : cam._plane_x * cam._dir_y - cam._dir_x * cam._plane_y ≠ 0) :
    ((sprite.x + 0.5) - cam._pos_x =
        transformX cam sprite * cam._plane_x + transformZ cam sprite * cam._dir_x ∧
      (sprite.y + 0.5) - cam._pos_y =
        transformX cam sprite * cam._plane_y + transformZ cam sprite * cam._dir_y) ∧
    (cam._plane_x = -0.66 * cam._dir_y ∧ cam._plane_y = 0.66 * cam._dir_x →
      transformZ cam sprite =
        (((sprite.x + 0.5) - cam._pos_x) * cam._dir_x +
          ((sprite.y + 0.5) - cam._pos_y) * cam._dir_y) /
          (cam._dir_x ^ 2 + cam._dir_y ^ 2)) := by
  refine ⟨⟨?_, ?_⟩, ?_⟩
  · unfold transformX transformZ
    field_simp
    ring
  · unfold transformX transformZ
    field_simp
    ring
  · rintro ⟨hx, hy⟩
    rw [hx, hy] at hdet
    have hn : cam._dir_x ^ 2 + cam._dir_y ^ 2 ≠ 0 := by
      intro h0
      apply hdet
      have : -0.66 * cam._dir_y * cam._dir_y - cam._dir_x * (0.66 * cam._dir_x) =
          -0.66 * (cam._dir_x ^ 2 + cam._dir_y ^ 2) := by ring
      rw [this, h0, mul_zero]
    have hd : -0.66 * cam._dir_y * cam._dir_y - cam._dir_x * (0.66 * cam._dir_x) =
        -0.66 * (cam._dir_x ^ 2 + cam._dir_y ^ 2) := by ring
    unfold transformZ
    rw [hx, hy, hd]
    field_simp
    ring

/-- Witness for C17: the fresh camera put at (0.5, 3.5) and the sprite in cell
(0, 0), three units in front of it. -/
theorem sprite_transform_is_basis_change_witness :
    transformZ (setCameraPosition 0.5 3.5 (RayCaster (staticInit : Camera ℚ))) sprite00 =
      (((sprite00.x + 0.5) - (0.5 : ℚ)) * 0 + ((sprite00.y + 0.5) - (3.5 : ℚ)) * (-1)) /
        (0 ^ 2 + (-1) ^ 2) :=
  (sprite_transform_is_basis_change
    (setCameraPosition 0.5 3.5 (RayCaster (staticInit : Camera ℚ))) sprite00
    (by norm_num [setCameraPosition, RayCaster, staticInit])).2
    (by norm_num [setCameraPosition, RayCaster, staticInit])

end SpriteTransform

/-! ### The depth test of the sprite stripes -/

/-- C14 (counterexample): in `emptyWorld` (screen width 4, the constructor's
facing (0, -1)) the middle column x = 2 has ray_dir_x = 0, so the divisor
ray_dir_x * ray_dir_x of its delta_x is zero, and delta_x is computed from that
division all the same. -/
theorem delta_divides_by_zero_in_middle_column :
    (passData (emptyWorld Real.sqrt) 2).ray_dir_x = 0 ∧
    (passData (emptyWorld Real.sqrt) 2).ray_dir_x *
      (passData (emptyWorld Real.sqrt) 2).ray_dir_x = 0 ∧
    (passData (emptyWorld Real.sqrt) 2).delta_x =
      Real.sqrt (1 + (passData (emptyWorld Real.sqrt) 2).ray_dir_y *
        (passData (emptyWorld Real.sqrt) 2).ray_dir_y /
        ((passData (emptyWorld Real.sqrt) 2).ray_dir_x *
          (passData (emptyWorld Real.sqrt) 2).ray_dir_x)) := by
  have h : (passData (emptyWorld Real.sqrt) 2).ray_dir_x = 0 := by
    norm_num [passData, emptyWorld, setCameraPosition, RayCaster]
  exact ⟨h, by rw [h, mul_zero], rfl⟩

/-- C14 (amended): the delta computation has no guard: for every camera state
and column, delta_x is sqrt(1 + ray_dir_y^2 / ray_dir_x^2) and delta_y is
sqrt(1 + ray_dir_x^2 / ray_dir_y^2), whose divisors are zero exactly when that
component of the ray direction is zero and positive otherwise; the divisor of
delta_x is zero in the middle column x = W/2 of an even screen width W when
facing.x = 0, as with the constructor's facing (0, -1). -/
theorem delta_divisors (a : DrawArgs α) (x : Nat) :
    (passData a x).delta_x =
      a.sqrt (1 + (passData a x).ray_dir_y * (passData a x).ray_dir_y /
        ((passData a x).ray_dir_x * (passData a x).ray_dir_x)) ∧
    (passData a x).delta_y =
      a.sqrt (1 + (passData a x).ray_dir_x * (passData a x).ray_dir_x /
        ((passData a x).ray_dir_y * (passData a x).ray_dir_y)) ∧
    ((passData a x).ray_dir_x * (passData a x).ray_dir_x = 0 ↔ (passData a x).ray_dir_x = 0) ∧
    ((passData a x).ray_dir_y * (passData a x).ray_dir_y = 0 ↔ (passData a x).ray_dir_y = 0) ∧
    ((passData a x).ray_dir_x ≠ 0 → 0 < (passData a x).ray_dir_x * (passData a x).ray_dir_x) ∧
    ((passData a x).ray_dir_y ≠ 0 → 0 < (passData a x).ray_dir_y * (passData a x).ray_dir_y) ∧
    (a.cam._dir_x = 0 → a.screen_w = 2 * x → 0 < x →
      (passData a x).ray_dir_x * (passData a x).ray_dir_x = 0) := by
  refine ⟨rfl, rfl, mul_self_eq_zero, mul_self_eq_zero, fun h => mul_self_pos.mpr h,
    fun h => mul_self_pos.mpr h, ?_⟩
  intro hd hw hx
  have hx0 : (x : α) ≠ 0 := Nat.cast_ne_zero.mpr hx.ne'
  have hr : (passData a x).ray_dir_x = 0 := by
    simp only [passData, hd, hw]
    push_cast
    field_simp
  rw [hr, mul_zero]

/-- Witness for C14 (amended): the middle column 2 of the 4 columns of
`emptyWorld`, whose camera faces (0, -1). -/
theorem delta_divisors_witness :
    (passData (emptyWorld Real.sqrt) 2).ray_dir_x *
      (passData (emptyWorld Real.sqrt) 2).ray_dir_x = 0 :=
  (delta_divisors (emptyWorld Real.sqrt) 2).2.2.2.2.2.2 rfl rfl (by decide)

/-! ### The slice of a solid wall met by the first step of a cast -/

theorem wallDist_wall_pass (a : DrawArgs α) (pd : PassData α) (cs : CastState α) (i : α) :
    wallDist a WALL_PASS pd cs i = wallDist a WALL_PASS pd cs 0 := by
  unfold wallDist
  simp

theorem acceptHit_wall_pass (a : DrawArgs α) (x : Nat) (cs : CastState α)
    (response : MapData α) (wall : Image) (fr : FrameState α) :
    acceptHit a WALL_PASS x cs response wall fr =
      if lineHeight a (wallDist a WALL_PASS (fr.pass_data x) { cs with casting := false } 0) > 1
      then
        ({ cs with casting := false },
          drawSlice a WALL_PASS x { cs with casting := false } response wall
            (wallDist a WALL_PASS (fr.pass_data x) { cs with casting := false } 0)
            (lineHeight a (wallDist a WALL_PASS (fr.pass_data x) { cs with casting := false } 0))
            { fr with
              pass_data := Function.update fr.pass_data x
                { fr.pass_data x with
                  wall_distance :=
                    wallDist a WALL_PASS (fr.pass_data x) { cs with casting := false } 0 } })
      else
        ({ cs with casting := false },
          { fr with
            pass_data := Function.update fr.pass_data x
              { fr.pass_data x with
                wall_distance :=
                  wallDist a WALL_PASS (fr.pass_data x) { cs with casting := false } 0 } }) := by
  unfold acceptHit
  dsimp only
  simp only [if_true, Function.update_same, le_refl, true_and, wallDist_wall_pass a _ _
    response.inset_amount]

theorem castStep_solid_hit_eq (a : DrawArgs α) (x : Nat) (cs : CastState α) (fr : FrameState α)
    (wall : Image) (hs : cs.skip_cast = 0)
    (hinv : (a.query (advanceRay (fr.pass_data x) cs).cur_x
      (advanceRay (fr.pass_data x) cs).cur_y).invalid = false)
    (hwall : (a.query (advanceRay (fr.pass_data x) cs).cur_x
      (advanceRay (fr.pass_data x) cs).cur_y).wall = some wall)
    (hx : (a.query (advanceRay (fr.pass_data x) cs).cur_x
      (advanceRay (fr.pass_data x) cs).cur_y).x_hidden = false)
    (hy : (a.query (advanceRay (fr.pass_data x) cs).cur_x
      (advanceRay (fr.pass_data x) cs).cur_y).y_hidden = false)
    (hsprite : (a.query (advanceRay (fr.pass_data x) cs).cur_x
      (advanceRay (fr.pass_data x) cs).cur_y).wall_sprite = false) :
    castStep a WALL_PASS x cs fr =
      acceptHit a WALL_PASS x (advanceRay (fr.pass_data x) cs)
        (a.query (advanceRay (fr.pass_data x) cs).cur_x (advanceRay (fr.pass_data x) cs).cur_y)
        wall fr := by
  have h0 : ¬ (advanceRay (fr.pass_data x) cs).skip_cast > 0 := by
    rw [advanceRay_skip_cast, hs]
    exact lt_irrefl 0
  have hcp : correctPass WALL_PASS (a.query (advanceRay (fr.pass_data x) cs).cur_x
      (advanceRay (fr.pass_data x) cs).cur_y) = true := by
    unfold correctPass
    simp [hsprite]
  unfold castStep
  dsimp only
  rw [if_neg h0, hinv]
  simp only [Bool.false_eq_true, if_false, hwall, hx, hy, and_false, not_false_eq_true, and_self,
    if_true, hcp]

theorem castColumn_solid_first_hit_eq (a : DrawArgs α) (x fuel : Nat) (fr : FrameState α)
    (wall : Image)
    (hinv : (a.query (advanceRay (passData a x) (castInit a (passData a x))).cur_x
      (advanceRay (passData a x) (castInit a (passData a x))).cur_y).invalid = false)
    (hwall : (a.query (advanceRay (passData a x) (castInit a (passData a x))).cur_x
      (advanceRay (passData a x) (castInit a (passData a x))).cur_y).wall = some wall)
    (hx : (a.query (advanceRay (passData a x) (castInit a (passData a x))).cur_x
      (advanceRay (passData a x) (castInit a (passData a x))).cur_y).x_hidden = false)
    (hy : (a.query (advanceRay (passData a x) (castInit a (passData a x))).cur_x
      (advanceRay (passData a x) (castInit a (passData a x))).cur_y).y_hidden = false)
    (hsprite : (a.query (advanceRay (passData a x) (castInit a (passData a x))).cur_x
      (advanceRay (passData a x) (castInit a (passData a x))).cur_y).wall_sprite = false) :
    castColumn a (fuel + 1) WALL_PASS x fr =
      some (acceptHit a WALL_PASS x (advanceRay (passData a x) (castInit a (passData a x)))
        (a.query (advanceRay (passData a x) (castInit a (passData a x))).cur_x
          (advanceRay (passData a x) (castInit a (passData a x))).cur_y)
        wall { fr with pass_data := Function.update fr.pass_data x (passData a x) }) := by
  have hu : (Function.update fr.pass_data x (passData a x)) x = passData a x :=
    Function.update_same _ _ _
  have key := castStep_solid_hit_eq a x (castInit a (passData a x))
    { fr with pass_data := Function.update fr.pass_data x (passData a x) } wall rfl
  dsimp only at key
  rw [hu] at key
  have k1 := key hinv hwall hx hy hsprite
  have hcast : (acceptHit a WALL_PASS x (advanceRay (passData a x) (castInit a (passData a x)))
      (a.query (advanceRay (passData a x) (castInit a (passData a x))).cur_x
        (advanceRay (passData a x) (castInit a (passData a x))).cur_y)
      wall { fr with pass_data := Function.update fr.pass_data x (passData a x) }).1.casting =
      false := by
    rw [acceptHit_wall_pass]
    split_ifs <;> rfl
  unfold castColumn
  dsimp only
  rw [if_pos rfl]
  dsimp only
  rw [hu, castLoop_succ _ _ _ _ _ _ rfl, k1, castLoop_done _ _ _ _ _ _ hcast]

theorem wallX_wall_pass (a : DrawArgs α) (pd : PassData α) (cs : CastState α)
    (response : MapData α) (wall_dist : α) :
    wallX a WALL_PASS pd cs response wall_dist =
      (if cs.side = 0 then a.cam._pos_y + wall_dist * pd.ray_dir_y
        else a.cam._pos_x + wall_dist * pd.ray_dir_x) -
      ((⌊if cs.side = 0 then a.cam._pos_y + wall_dist * pd.ray_dir_y
        else a.cam._pos_x + wall_dist * pd.ray_dir_x⌋ : Int) : α) := by
  unfold wallX
  have h : ¬ (WALL_PASS = WALL_SPRITE_PASS) := by decide
  simp only [if_neg h]

theorem acceptHit_wall_pass_slice (a : DrawArgs α) (x : Nat) (cs : CastState α)
    (response : MapData α) (wall : Image) (fr : FrameState α) (d : α)
    (hd : wallDist a WALL_PASS (fr.pass_data x) { cs with casting := false } 0 = d) :
    (acceptHit a WALL_PASS x cs response wall fr).1 = { cs with casting := false } ∧
    (acceptHit a WALL_PASS x cs response wall fr).2.pass_data x =
      { fr.pass_data x with wall_distance := d } ∧
    (lineHeight a d > 1 →
      (acceptHit a WALL_PASS x cs response wall fr).2.calls =
        fr.calls ++
          [DrawCall.wallSlice WALL_PASS x d wall
            (texX { fr.pass_data x with wall_distance := d } { cs with casting := false } wall
              (wallX a WALL_PASS { fr.pass_data x with wall_distance := d }
                { cs with casting := false } response d))
            ((x : Int) - 1) (sliceY1 a (lineHeight a d)) x (sliceY2 a (lineHeight a d))
            (colorScaled a (lineHeight a d)) (-100 - d * 0.05)] ∧
      (acceptHit a WALL_PASS x cs response wall fr).2._ceiling_floor =
        (floorRows a (sliceY2 a (lineHeight a d))).foldl
          (floorCeilingRow a x d
            (floorWall { fr.pass_data x with wall_distance := d } { cs with casting := false }
              (wallX a WALL_PASS { fr.pass_data x with wall_distance := d }
                { cs with casting := false } response d)).1
            (floorWall { fr.pass_data x with wall_distance := d } { cs with casting := false }
              (wallX a WALL_PASS { fr.pass_data x with wall_distance := d }
                { cs with casting := false } response d)).2)
          fr._ceiling_floor) := by
  rw [acceptHit_wall_pass, hd]
  by_cases hl : lineHeight a d > 1
  · rw [if_pos hl]
    refine ⟨rfl, ?_, fun _ => ?_⟩
    · dsimp only
      rw [drawSlice_pass_data]
      exact Function.update_same _ _ _
    · unfold drawSlice
      dsimp only
      rw [if_pos rfl]
      dsimp only
      rw [Function.update_same]
      exact ⟨rfl, rfl⟩
  · rw [if_neg hl]
    exact ⟨rfl, Function.update_same _ _ _, fun h => absurd h hl⟩

theorem first_step_side_from_centre (a : DrawArgs ℝ) (hpx : a.cam._pos_x = 1.5)
    (hpy : a.cam._pos_y = 1.5) (hsq : a.sqrt = Real.sqrt) (x : Nat)
    (hx0 : (passData a x).ray_dir_x ≠ 0) (hy0 : (passData a x).ray_dir_y ≠ 0) :
    ((passData a x).ray_dir_x * (passData a x).ray_dir_x <
        (passData a x).ray_dir_y * (passData a x).ray_dir_y →
      (advanceRay (passData a x) (castInit a (passData a x))).side = 1) ∧
    ((passData a x).ray_dir_y * (passData a x).ray_dir_y <
        (passData a x).ray_dir_x * (passData a x).ray_dir_x →
      (advanceRay (passData a x) (castInit a (passData a x))).side = 0) := by
  have hdx : (passData a x).delta_x = Real.sqrt (1 + (passData a x).ray_dir_y *
      (passData a x).ray_dir_y / ((passData a x).ray_dir_x * (passData a x).ray_dir_x)) := by
    rw [← hsq]; rfl
  have hdy : (passData a x).delta_y = Real.sqrt (1 + (passData a x).ray_dir_x *
      (passData a x).ray_dir_x / ((passData a x).ray_dir_y * (passData a x).ray_dir_y)) := by
    rw [← hsq]; rfl
  generalize passData a x = pd at *
  have hsx : (castInit a pd).side_dist_x = 0.5 * pd.delta_x := by
    simp only [castInit, hpx, toInt_three_halves]
    split_ifs <;> norm_num
  have hsy : (castInit a pd).side_dist_y = 0.5 * pd.delta_y := by
    simp only [castInit, hpy, toInt_three_halves]
    split_ifs <;> norm_num
  constructor
  · intro h
    have hlt : ¬ (castInit a pd).side_dist_x < (castInit a pd).side_dist_y := by
      rw [hsx, hsy, hdx, hdy]
      have := sqrt_delta_lt hy0 hx0 h
      linarith
    unfold advanceRay
    rw [if_neg hlt]
  · intro h
    have hlt : (castInit a pd).side_dist_x < (castInit a pd).side_dist_y := by
      rw [hsx, hsy, hdx, hdy]
      have := sqrt_delta_lt hx0 hy0 h
      linarith
    unfold advanceRay
    rw [if_pos hlt]

theorem slice_from_centre (a : DrawArgs ℝ) (hpx : a.cam._pos_x = 1.5)
    (hpy : a.cam._pos_y = 1.5) (hsq : a.sqrt = Real.sqrt)
    (fuel : Nat) (fr : FrameState ℝ)
    (hx0 : (passData a 0).ray_dir_x ≠ 0) (hy0 : (passData a 0).ray_dir_y ≠ 0)
    (tx ty s : Int) (d v : ℝ)
    (hcase :
      ((passData a 0).ray_dir_x * (passData a 0).ray_dir_x <
          (passData a 0).ray_dir_y * (passData a 0).ray_dir_y ∧
        tx = 1 ∧ ty = 1 + (if (passData a 0).ray_dir_y < 0 then -1 else 1) ∧ s = 1 ∧
        d = (if (passData a 0).ray_dir_y < 0 then -0.5 else 0.5) / (passData a 0).ray_dir_y ∧
        v = 1.5 + d * (passData a 0).ray_dir_x) ∨
      ((passData a 0).ray_dir_y * (passData a 0).ray_dir_y <
          (passData a 0).ray_dir_x * (passData a 0).ray_dir_x ∧
        tx = 1 + (if (passData a 0).ray_dir_x < 0 then -1 else 1) ∧ ty = 1 ∧ s = 0 ∧
        d = (if (passData a 0).ray_dir_x < 0 then -0.5 else 0.5) / (passData a 0).ray_dir_x ∧
        v = 1.5 + d * (passData a 0).ray_dir_y))
    (wall : Image)
    (hq : (a.query tx ty).invalid = false ∧ (a.query tx ty).wall = some wall ∧
      (a.query tx ty).wall_sprite = false ∧ (a.query tx ty).x_hidden = false ∧
      (a.query tx ty).y_hidden = false) :
    ∃ cs fr1,
      castColumn a (fuel + 1) WALL_PASS 0 fr = some (cs, fr1) ∧
      cs.cur_x = tx ∧ cs.cur_y = ty ∧ cs.side = s ∧
      fr1.pass_data 0 = { passData a 0 with wall_distance := d } ∧
      wallX a WALL_PASS (fr1.pass_data 0) cs (a.query cs.cur_x cs.cur_y)
        (fr1.pass_data 0).wall_distance = v - ((⌊v⌋ : Int) : ℝ) ∧
      (lineHeight a d > 1 →
        fr1.calls = fr.calls ++
          [DrawCall.wallSlice WALL_PASS 0 d wall
            (texX (fr1.pass_data 0) cs wall (v - ((⌊v⌋ : Int) : ℝ)))
            (((0 : Nat) : Int) - 1) (sliceY1 a (lineHeight a d)) ((0 : Nat) : Int)
            (sliceY2 a (lineHeight a d)) (colorScaled a (lineHeight a d)) (-100 - d * 0.05)] ∧
        fr1._ceiling_floor =
          (floorRows a (sliceY2 a (lineHeight a d))).foldl
            (floorCeilingRow a 0 d
              (floorWall (fr1.pass_data 0) cs (v - ((⌊v⌋ : Int) : ℝ))).1
              (floorWall (fr1.pass_data 0) cs (v - ((⌊v⌋ : Int) : ℝ))).2)
            fr._ceiling_floor) := by
  obtain ⟨hy, hx⟩ := first_step_from_centre a hpx hpy hsq 0 hx0 hy0
  obtain ⟨sy, sx⟩ := first_step_side_from_centre a hpx hpy hsq 0 hx0 hy0
  have hcell : (advanceRay (passData a 0) (castInit a (passData a 0))).cur_x = tx ∧
      (advanceRay (passData a 0) (castInit a (passData a 0))).cur_y = ty ∧
      (advanceRay (passData a 0) (castInit a (passData a 0))).side = s ∧
      wallDist a WALL_PASS (passData a 0)
        { advanceRay (passData a 0) (castInit a (passData a 0)) with casting := false } 0 = d ∧
      v = (if s = 0 then a.cam._pos_y + d * (passData a 0).ray_dir_y
        else a.cam._pos_x + d * (passData a 0).ray_dir_x) := by
    rcases hcase with ⟨h, h1, h2, h3, h4, h5⟩ | ⟨h, h1, h2, h3, h4, h5⟩
    · obtain ⟨e1, e2, e3⟩ := hy h
      refine ⟨e1.trans h1.symm, e2.trans h2.symm, (sy h).trans h3.symm, e3.trans h4.symm, ?_⟩
      rw [h3, hpx, h5]
      rfl
    · obtain ⟨e1, e2, e3⟩ := hx h
      refine ⟨e1.trans h1.symm, e2.trans h2.symm, (sx h).trans h3.symm, e3.trans h4.symm, ?_⟩
      rw [h3, hpy, h5]
      rfl
  obtain ⟨e1, e2, e3, e4, e5⟩ := hcell
  obtain ⟨q1, q2, q3, q4, q5⟩ := hq
  have hcol := castColumn_solid_first_hit_eq a 0 fuel fr wall
    (by rw [e1, e2]; exact q1) (by rw [e1, e2]; exact q2) (by rw [e1, e2]; exact q4)
    (by rw [e1, e2]; exact q5) (by rw [e1, e2]; exact q3)
  have hu : (Function.update fr.pass_data 0 (passData a 0)) 0 = passData a 0 :=
    Function.update_same _ _ _
  obtain ⟨f1, f2, f3⟩ := acceptHit_wall_pass_slice a 0
    (advanceRay (passData a 0) (castInit a (passData a 0)))
    (a.query (advanceRay (passData a 0) (castInit a (passData a 0))).cur_x
      (advanceRay (passData a 0) (castInit a (passData a 0))).cur_y)
    wall { fr with pass_data := Function.update fr.pass_data 0 (passData a 0) } d
    (by dsimp only; rw [hu]; exact e4)
  dsimp only at f2 f3
  rw [hu] at f2 f3
  have hwx : wallX a WALL_PASS { passData a 0 with wall_distance := d }
      { advanceRay (passData a 0) (castInit a (passData a 0)) with casting := false }
      (a.query (advanceRay (passData a 0) (castInit a (passData a 0))).cur_x
        (advanceRay (passData a 0) (castInit a (passData a 0))).cur_y) d =
      v - ((⌊v⌋ : Int) : ℝ) := by
    rw [wallX_wall_pass]
    dsimp only
    rw [e3, ← e5]
  generalize acceptHit a WALL_PASS 0 (advanceRay (passData a 0) (castInit a (passData a 0)))
    (a.query (advanceRay (passData a 0) (castInit a (passData a 0))).cur_x
      (advanceRay (passData a 0) (castInit a (passData a 0))).cur_y)
    wall { fr with pass_data := Function.update fr.pass_data 0 (passData a 0) } = r
    at hcol f1 f2 f3
  refine ⟨r.1, r.2, hcol, ?_, ?_, ?_, f2, ?_, ?_⟩
  · rw [f1]; exact e1
  · rw [f1]; exact e2
  · rw [f1]; exact e3
  · rw [f2, f1]
    exact hwx
  · intro hl
    obtain ⟨g1, g2⟩ := f3 hl
    rw [f2, f1, g1, g2, hwx]
    exact ⟨rfl, rfl⟩

/-! ### The slice of the 3x3 scene -/

theorem borderedGrid_border (wall : Image) (i j : Int) (h1 : 0 ≤ i) (h2 : i < 3) (h3 : 0 ≤ j)
    (h4 : j < 3) (h5 : ¬(i = 1 ∧ j = 1)) :
    (borderedGrid wall i j : MapData α).invalid = false ∧
    (borderedGrid wall i j : MapData α).wall = some wall ∧
    (borderedGrid wall i j : MapData α).wall_sprite = false ∧
    (borderedGrid wall i j : MapData α).x_hidden = false ∧
    (borderedGrid wall i j : MapData α).y_hidden = false := by
  have h6 : ¬ (i < 0 ∨ j < 0 ∨ 3 ≤ i ∨ 3 ≤ j) := by omega
  simp [borderedGrid, if_neg h6, if_neg h5, outOfBounds]

theorem grid_slice (a : DrawArgs ℝ) (hpx : a.cam._pos_x = 1.5) (hpy : a.cam._pos_y = 1.5)
    (hsq : a.sqrt = Real.sqrt) (k : ℝ) (hk : 0 < k) (fx fy : ℝ)
    (hrx : (passData a 0).ray_dir_x = fx + 0.66 * fy)
    (hry : (passData a 0).ray_dir_y = fy - 0.66 * fx)
    (fuel : Nat) (fr : FrameState ℝ) (tx ty s : Int) (wx : ℝ)
    (hf : (fx = 0 ∧ fy = -k ∧ tx = 1 ∧ ty = 0 ∧ s = 1 ∧ wx = 0.17) ∨
      (fx = 0 ∧ fy = k ∧ tx = 1 ∧ ty = 2 ∧ s = 1 ∧ wx = 0.83) ∨
      (fx = k ∧ fy = 0 ∧ tx = 2 ∧ ty = 1 ∧ s = 0 ∧ wx = 0.17) ∨
      (fx = -k ∧ fy = 0 ∧ tx = 0 ∧ ty = 1 ∧ s = 0 ∧ wx = 0.83))
    (wall : Image)
    (hq : (a.query tx ty).invalid = false ∧ (a.query tx ty).wall = some wall ∧
      (a.query tx ty).wall_sprite = false ∧ (a.query tx ty).x_hidden = false ∧
      (a.query tx ty).y_hidden = false) :
    ∃ cs fr1,
      castColumn a (fuel + 1) WALL_PASS 0 fr = some (cs, fr1) ∧
      cs.cur_x = tx ∧ cs.cur_y = ty ∧ cs.side = s ∧
      fr1.pass_data 0 = { passData a 0 with wall_distance := 0.5 / k } ∧
      wallX a WALL_PASS (fr1.pass_data 0) cs (a.query cs.cur_x cs.cur_y)
        (fr1.pass_data 0).wall_distance = wx ∧
      (lineHeight a (0.5 / k) > 1 →
        fr1.calls = fr.calls ++
          [DrawCall.wallSlice WALL_PASS 0 (0.5 / k) wall (texX (fr1.pass_data 0) cs wall wx)
            (((0 : Nat) : Int) - 1) (sliceY1 a (lineHeight a (0.5 / k))) ((0 : Nat) : Int)
            (sliceY2 a (lineHeight a (0.5 / k))) (colorScaled a (lineHeight a (0.5 / k)))
            (-100 - 0.5 / k * 0.05)] ∧
        fr1._ceiling_floor =
          (floorRows a (sliceY2 a (lineHeight a (0.5 / k)))).foldl
            (floorCeilingRow a 0 (0.5 / k) (floorWall (fr1.pass_data 0) cs wx).1
              (floorWall (fr1.pass_data 0) cs wx).2)
            fr._ceiling_floor) := by
  have hk0 : k ≠ 0 := hk.ne'
  have hkk : 0 < k * k := mul_pos hk hk
  have hfl : (1 + wx) - ((⌊1 + wx⌋ : Int) : ℝ) = wx := by
    have h1 : ⌊1 + wx⌋ = 1 := by
      rw [Int.floor_eq_iff]
      rcases hf with ⟨-, -, -, -, -, h⟩ | ⟨-, -, -, -, -, h⟩ | ⟨-, -, -, -, -, h⟩ |
        ⟨-, -, -, -, -, h⟩ <;> rw [h] <;> norm_num
    rw [h1]
    norm_num
  have hx0 : (passData a 0).ray_dir_x ≠ 0 := by
    rw [hrx]
    rcases hf with ⟨h1, h2, -⟩ | ⟨h1, h2, -⟩ | ⟨h1, h2, -⟩ | ⟨h1, h2, -⟩ <;>
      rw [h1, h2] <;> norm_num <;> exact hk0
  have hy0 : (passData a 0).ray_dir_y ≠ 0 := by
    rw [hry]
    rcases hf with ⟨h1, h2, -⟩ | ⟨h1, h2, -⟩ | ⟨h1, h2, -⟩ | ⟨h1, h2, -⟩ <;>
      rw [h1, h2] <;> norm_num <;> exact hk0
  have key := slice_from_centre a hpx hpy hsq fuel fr hx0 hy0 tx ty s (0.5 / k) (1 + wx)
    (by
      rw [hrx, hry]
      rcases hf with ⟨h1, h2, h3, h4, h5, h6⟩ | ⟨h1, h2, h3, h4, h5, h6⟩ |
        ⟨h1, h2, h3, h4, h5, h6⟩ | ⟨h1, h2, h3, h4, h5, h6⟩
      · left
        rw [h1, h2, h3, h4, h5, h6]
        refine ⟨by nlinarith, rfl, ?_, rfl, ?_, ?_⟩
        · rw [if_pos (by linarith)]; rfl
        · rw [if_pos (by linarith)]; field_simp
        · field_simp; ring
      · left
        rw [h1, h2, h3, h4, h5, h6]
        refine ⟨by nlinarith, rfl, ?_, rfl, ?_, ?_⟩
        · rw [if_neg (by linarith)]; rfl
        · rw [if_neg (by linarith)]; field_simp
        · field_simp; ring
      · right
        rw [h1, h2, h3, h4, h5, h6]
        refine ⟨by nlinarith, ?_, rfl, rfl, ?_, ?_⟩
        · rw [if_neg (by linarith)]; rfl
        · rw [if_neg (by linarith)]; field_simp
        · field_simp; ring
      · right
        rw [h1, h2, h3, h4, h5, h6]
        refine ⟨by nlinarith, ?_, rfl, rfl, ?_, ?_⟩
        · rw [if_pos (by linarith)]; rfl
        · rw [if_pos (by linarith)]; field_simp
        · field_simp; ring)
    wall hq
  rw [hfl] at key
  exact key

theorem gridScene_ray_dir_x (atan2 : ℝ → ℝ → ℝ) (wall : Image) (fx fy : ℝ) (screen_h : Nat) :
    (passData (gridScene atan2 Real.pi Real.sqrt wall fx fy screen_h) 0).ray_dir_x =
      fx + 0.66 * fy := by
  simp only [passData, gridScene, setCoordinateSystem]
  norm_num
  ring

theorem gridScene_ray_dir_y (atan2 : ℝ → ℝ → ℝ) (wall : Image) (fx fy : ℝ) (screen_h : Nat) :
    (passData (gridScene atan2 Real.pi Real.sqrt wall fx fy screen_h) 0).ray_dir_y =
      fy - 0.66 * fx := by
  simp only [passData, gridScene, setCoordinateSystem]
  norm_num
  ring

theorem toInt_of_mem_Ico {v : α} {n : Int} (h0 : 0 ≤ n) (h1 : (n : α) ≤ v) (h2 : v < n + 1) :
    toInt v = n := by
  have hv : (0 : α) ≤ v := le_trans (by exact_mod_cast h0) h1
  unfold toInt
  rw [if_pos hv, Int.floor_eq_iff]
  exact ⟨h1, h2⟩

theorem texX_near (pd : PassData α) (cs : CastState α) (wall : Image) (wx wx' tol : α) (n : Int)
    (h0 : 0 ≤ n) (h1 : (n : α) + (wall.width : α) * tol ≤ (wall.width : α) * wx)
    (h2 : (wall.width : α) * wx + (wall.width : α) * tol < n + 1) (h : |wx' - wx| ≤ tol) :
    texX pd cs wall wx' = texX pd cs wall wx := by
  have hw : (0 : α) ≤ (wall.width : α) := Nat.cast_nonneg _
  obtain ⟨ha, hb⟩ := abs_le.mp h
  have ht : (0 : α) ≤ tol := le_trans (abs_nonneg _) h
  have e1 : toInt ((wall.width : α) * wx) = n :=
    toInt_of_mem_Ico h0 (by nlinarith) (by nlinarith)
  have e2 : toInt ((wall.width : α) * wx') = n :=
    toInt_of_mem_Ico h0 (by nlinarith) (by nlinarith)
  unfold texX
  rw [e1, e2]

/-- C12 (amended): in the 3x3 scene of C1 the single column is the left edge of
the view and its ray is facing minus plane; the cast ends on the border cell in
the facing direction, and the fractional hit offset `wall_x` from which the
texture column is derived is, within 0.000000001, 0.17 for the facings (0,-k)
and (k,0) and 0.83 for (0,k) and (-k,0), so it is not 0.5.  When the slice is
drawn (line height above 1) and the product of the texture width with that
value is farther than width * 0.000000001 from the integers around it, the
texture column of the slice is the one that every `wall_x` within 0.000000001
of that value gives. -/
theorem bordered_grid_wall_x (k : ℝ) (hk : 0 < k) (c : Camera ℝ) (atan2 : ℝ → ℝ → ℝ)
    (screen_h fuel : Nat) (query : Int → Int → MapData ℝ) (drawText : Bitmap → Bitmap)
    (uninit : Nat → PassData ℝ) (fr : FrameState ℝ)
    (hOut : ∀ i j, ¬(0 ≤ i ∧ i < 3 ∧ 0 ≤ j ∧ j < 3) → (query i j).invalid = true)
    (hCentre : (query 1 1).invalid = false ∧ (query 1 1).wall = none)
    (hBorder : ∀ i j, 0 ≤ i → i < 3 → 0 ≤ j → j < 3 → ¬(i = 1 ∧ j = 1) →
      (query i j).invalid = false ∧ (query i j).wall.isSome = true ∧
      (query i j).wall_sprite = false ∧ (query i j).x_hidden = false ∧
      (query i j).y_hidden = false)
    (fx fy wx : ℝ) (tx ty : Int)
    (hf : (fx = 0 ∧ fy = -k ∧ tx = 1 ∧ ty = 0 ∧ wx = 0.17) ∨
      (fx = 0 ∧ fy = k ∧ tx = 1 ∧ ty = 2 ∧ wx = 0.83) ∨
      (fx = k ∧ fy = 0 ∧ tx = 2 ∧ ty = 1 ∧ wx = 0.17) ∨
      (fx = -k ∧ fy = 0 ∧ tx = 0 ∧ ty = 1 ∧ wx = 0.83)) :
    ∃ cs fr1,
      castColumn ⟨setCoordinateSystem atan2 Real.pi fx fy (setCameraPosition 1.5 1.5 c), 1,
          screen_h, query, Real.sqrt, drawText, uninit⟩ (fuel + 1) WALL_PASS 0 fr =
        some (cs, fr1) ∧
      cs.cur_x = tx ∧ cs.cur_y = ty ∧
      |wallX ⟨setCoordinateSystem atan2 Real.pi fx fy (setCameraPosition 1.5 1.5 c), 1,
          screen_h, query, Real.sqrt, drawText, uninit⟩ WALL_PASS (fr1.pass_data 0) cs
          (query cs.cur_x cs.cur_y) (fr1.pass_data 0).wall_distance - wx| ≤ 0.000000001 ∧
      wallX ⟨setCoordinateSystem atan2 Real.pi fx fy (setCameraPosition 1.5 1.5 c), 1,
          screen_h, query, Real.sqrt, drawText, uninit⟩ WALL_PASS (fr1.pass_data 0) cs
          (query cs.cur_x cs.cur_y) (fr1.pass_data 0).wall_distance ≠ 0.5 ∧
      (1 < (screen_h : ℝ) / (0.5 / k) →
        ∃ wall wall_dist t x1 y1 x2 y2 color_scaled z,
          (query cs.cur_x cs.cur_y).wall = some wall ∧
          fr1.calls = fr.calls ++
            [DrawCall.wallSlice WALL_PASS 0 wall_dist wall t x1 y1 x2 y2 color_scaled z] ∧
          ∀ n : Int, 0 ≤ n →
            (n : ℝ) + (wall.width : ℝ) * 0.000000001 ≤ (wall.width : ℝ) * wx →
            (wall.width : ℝ) * wx + (wall.width : ℝ) * 0.000000001 < n + 1 →
            ∀ wx' : ℝ, |wx' - wx| ≤ 0.000000001 → texX (fr1.pass_data 0) cs wall wx' = t) := by
  have hrx : (passData (⟨setCoordinateSystem atan2 Real.pi fx fy (setCameraPosition 1.5 1.5 c),
      1, screen_h, query, Real.sqrt, drawText, uninit⟩ : DrawArgs ℝ) 0).ray_dir_x =
      fx + 0.66 * fy := by
    simp only [passData, setCoordinateSystem]
    norm_num
    ring
  have hry : (passData (⟨setCoordinateSystem atan2 Real.pi fx fy (setCameraPosition 1.5 1.5 c),
      1, screen_h, query, Real.sqrt, drawText, uninit⟩ : DrawArgs ℝ) 0).ray_dir_y =
      fy - 0.66 * fx := by
    simp only [passData, setCoordinateSystem]
    norm_num
    ring
  have hcell : ∃ s : Int, 0 ≤ tx ∧ tx < 3 ∧ 0 ≤ ty ∧ ty < 3 ∧ ¬(tx = 1 ∧ ty = 1) ∧
      ((fx = 0 ∧ fy = -k ∧ tx = 1 ∧ ty = 0 ∧ s = 1 ∧ wx = 0.17) ∨
      (fx = 0 ∧ fy = k ∧ tx = 1 ∧ ty = 2 ∧ s = 1 ∧ wx = 0.83) ∨
      (fx = k ∧ fy = 0 ∧ tx = 2 ∧ ty = 1 ∧ s = 0 ∧ wx = 0.17) ∨
      (fx = -k ∧ fy = 0 ∧ tx = 0 ∧ ty = 1 ∧ s = 0 ∧ wx = 0.83)) := by
    rcases hf with ⟨h1, h2, h3, h4, h5⟩ | ⟨h1, h2, h3, h4, h5⟩ | ⟨h1, h2, h3, h4, h5⟩ |
      ⟨h1, h2, h3, h4, h5⟩
    · exact ⟨1, by omega, by omega, by omega, by omega, by omega,
        Or.inl ⟨h1, h2, h3, h4, rfl, h5⟩⟩
    · exact ⟨1, by omega, by omega, by omega, by omega, by omega,
        Or.inr (Or.inl ⟨h1, h2, h3, h4, rfl, h5⟩)⟩
    · exact ⟨0, by omega, by omega, by omega, by omega, by omega,
        Or.inr (Or.inr (Or.inl ⟨h1, h2, h3, h4, rfl, h5⟩))⟩
    · exact ⟨0, by omega, by omega, by omega, by omega, by omega,
        Or.inr (Or.inr (Or.inr ⟨h1, h2, h3, h4, rfl, h5⟩))⟩
  obtain ⟨s, b1, b2, b3, b4, b5, hcase⟩ := hcell
  obtain ⟨q1, q2, q3, q4, q5⟩ := hBorder tx ty b1 b2 b3 b4 b5
  obtain ⟨wall, hwall⟩ := Option.isSome_iff_exists.mp q2
  obtain ⟨cs, fr1, g1, g2, g3, g4, g5, g6, g7⟩ := grid_slice
    (⟨setCoordinateSystem atan2 Real.pi fx fy (setCameraPosition 1.5 1.5 c), 1, screen_h, query,
      Real.sqrt, drawText, uninit⟩ : DrawArgs ℝ) rfl rfl rfl k hk fx fy hrx hry fuel fr tx ty s wx
    hcase wall ⟨q1, hwall, q3, q4, q5⟩
  have hwx : wx = 0.17 ∨ wx = 0.83 := by
    rcases hf with ⟨-, -, -, -, h⟩ | ⟨-, -, -, -, h⟩ | ⟨-, -, -, -, h⟩ | ⟨-, -, -, -, h⟩
    · exact Or.inl h
    · exact Or.inr h
    · exact Or.inl h
    · exact Or.inr h
  have g6b : wallX (⟨setCoordinateSystem atan2 Real.pi fx fy (setCameraPosition 1.5 1.5 c), 1,
      screen_h, query, Real.sqrt, drawText, uninit⟩ : DrawArgs ℝ) WALL_PASS (fr1.pass_data 0) cs
      (query cs.cur_x cs.cur_y) (fr1.pass_data 0).wall_distance = wx := g6
  refine ⟨cs, fr1, g1, g2, g3, ?_, ?_, fun hl => ?_⟩
  · rw [g6b, sub_self, abs_zero]
    norm_num
  · rw [g6b]
    rcases hwx with h | h <;> rw [h] <;> norm_num
  · have hd : (0.5 / k : ℝ) ≠ 0 := div_ne_zero (by norm_num) hk.ne'
    have hl2 : lineHeight (⟨setCoordinateSystem atan2 Real.pi fx fy
        (setCameraPosition 1.5 1.5 c), 1, screen_h, query, Real.sqrt, drawText, uninit⟩ :
        DrawArgs ℝ) (0.5 / k) > 1 := by
      unfold lineHeight
      rw [if_neg hd]
      exact hl
    refine ⟨wall, _, _, _, _, _, _, _, _, ?_, (g7 hl2).1, ?_⟩
    · rw [g2, g3]
      exact hwall
    · intro n h0 h1 h2 wx' hw
      exact texX_near _ _ _ _ _ _ n h0 h1 h2 hw

/-- Witness for C12 (amended): `borderedGrid` with an 8x8 texture, facing (0, -1),
on a window of width 1 and height 4: `wall_x` is 0.17 within 0.000000001, the
slice is drawn, and as 8 * 0.17 = 1.36 its texture column is that of every
`wall_x` within 0.000000001 of 0.17. -/
theorem bordered_grid_wall_x_witness :
    ∃ cs fr1,
      castColumn ⟨setCoordinateSystem (fun y x => Complex.arg ⟨x, y⟩) Real.pi 0 (-1)
          (setCameraPosition 1.5 1.5 (RayCaster staticInit)), 1, 4, borderedGrid ⟨8, 8⟩,
          Real.sqrt, fun b => b, fun _ => ⟨0, 0, 0, 0, 0, 0⟩⟩ (0 + 1) WALL_PASS 0 emptyFrame =
        some (cs, fr1) ∧
      cs.cur_x = 1 ∧ cs.cur_y = 0 ∧
      |wallX ⟨setCoordinateSystem (fun y x => Complex.arg ⟨x, y⟩) Real.pi 0 (-1)
          (setCameraPosition 1.5 1.5 (RayCaster staticInit)), 1, 4, borderedGrid ⟨8, 8⟩,
          Real.sqrt, fun b => b, fun _ => ⟨0, 0, 0, 0, 0, 0⟩⟩ WALL_PASS (fr1.pass_data 0) cs
          (borderedGrid ⟨8, 8⟩ cs.cur_x cs.cur_y) (fr1.pass_data 0).wall_distance - 0.17| ≤
        0.000000001 ∧
      ∃ wall_dist t x1 y1 x2 y2 color_scaled z,
        fr1.calls =
          [DrawCall.wallSlice WALL_PASS 0 wall_dist ⟨8, 8⟩ t x1 y1 x2 y2 color_scaled z] ∧
        ∀ wx' : ℝ, |wx' - 0.17| ≤ 0.000000001 → texX (fr1.pass_data 0) cs ⟨8, 8⟩ wx' = t := by
  obtain ⟨cs, fr1, h1, h2, h3, h4, -, h6⟩ := bordered_grid_wall_x 1 one_pos
    (RayCaster staticInit) (fun y x => Complex.arg ⟨x, y⟩)
    4 0 (borderedGrid ⟨8, 8⟩) (fun b => b) (fun _ => ⟨0, 0, 0, 0, 0, 0⟩) emptyFrame
    (by
      intro i j h
      have h2 : i < 0 ∨ j < 0 ∨ 3 ≤ i ∨ 3 ≤ j := by omega
      simp only [borderedGrid, if_pos h2]
      rfl)
    (by
      constructor <;> simp [borderedGrid, outOfBounds])
    (by
      intro i j h1 h2 h3 h4 h5
      have h6 : ¬ (i < 0 ∨ j < 0 ∨ 3 ≤ i ∨ 3 ≤ j) := by omega
      simp [borderedGrid, if_neg h6, if_neg h5, outOfBounds])
    0 (-1) 0.17 1 0 (Or.inl ⟨rfl, rfl, rfl, rfl, rfl⟩)
  obtain ⟨wall, wall_dist, t, x1, y1, x2, y2, color_scaled, z, k1, k2, k3⟩ := h6 (by norm_num)
  have hw : wall = ⟨8, 8⟩ := by
    rw [h2, h3] at k1
    have k4 : (borderedGrid ⟨8, 8⟩ 1 0 : MapData ℝ).wall = some ⟨8, 8⟩ :=
      (borderedGrid_border (⟨8, 8⟩ : Image) 1 0 (by norm_num) (by norm_num)
        (by norm_num) (by norm_num) (by norm_num)).2.1
    rw [k4] at k1
    exact (Option.some.inj k1).symm
  subst hw
  exact ⟨cs, fr1, h1, h2, h3, h4, wall_dist, t, x1, y1, x2, y2, color_scaled, z, k2,
    k3 1 (by norm_num) (by norm_num) (by norm_num)⟩

/-- C12 (counterexample): in `gridScene` with an 8x8 texture, facing (0, -1) and a
window of height 4, the single column ends on cell (1, 0) and its fractional
hit offset `wall_x` is within 0.000000001 of 0.17, so it is not 0.5. -/
theorem bordered_grid_wall_x_not_half :
    ∃ cs fr1,
      castColumn (gridScene (fun y x => Complex.arg ⟨x, y⟩) Real.pi Real.sqrt ⟨8, 8⟩ 0 (-1) 4)
        (0 + 1) WALL_PASS 0 emptyFrame = some (cs, fr1) ∧
      cs.cur_x = 1 ∧ cs.cur_y = 0 ∧
      |wallX (gridScene (fun y x => Complex.arg ⟨x, y⟩) Real.pi Real.sqrt ⟨8, 8⟩ 0 (-1) 4)
        WALL_PASS (fr1.pass_data 0) cs (borderedGrid ⟨8, 8⟩ cs.cur_x cs.cur_y)
        (fr1.pass_data 0).wall_distance - 0.17| ≤ 0.000000001 ∧
      wallX (gridScene (fun y x => Complex.arg ⟨x, y⟩) Real.pi Real.sqrt ⟨8, 8⟩ 0 (-1) 4)
        WALL_PASS (fr1.pass_data 0) cs (borderedGrid ⟨8, 8⟩ cs.cur_x cs.cur_y)
        (fr1.pass_data 0).wall_distance ≠ 0.5 := by
  obtain ⟨cs, fr1, g1, g2, g3, g4, g5, g6, g7⟩ := grid_slice
    (gridScene (fun y x => Complex.arg ⟨x, y⟩) Real.pi Real.sqrt ⟨8, 8⟩ 0 (-1) 4) rfl rfl rfl
    1 one_pos 0 (-1) (gridScene_ray_dir_x _ _ _ _ _) (gridScene_ray_dir_y _ _ _ _ _) 0 emptyFrame
    1 0 1 0.17 (Or.inl ⟨rfl, rfl, rfl, rfl, rfl, rfl⟩) ⟨8, 8⟩
    (borderedGrid_border ⟨8, 8⟩ 1 0 (by norm_num) (by norm_num) (by norm_num) (by norm_num)
      (by norm_num))
  have h : wallX (gridScene (fun y x => Complex.arg ⟨x, y⟩) Real.pi Real.sqrt ⟨8, 8⟩ 0 (-1) 4)
      WALL_PASS (fr1.pass_data 0) cs (borderedGrid ⟨8, 8⟩ cs.cur_x cs.cur_y)
      (fr1.pass_data 0).wall_distance = 0.17 := g6
  refine ⟨cs, fr1, g1, g2, g3, ?_, ?_⟩
  · rw [h, sub_self, abs_zero]
    norm_num
  · rw [h]
    norm_num

/-- C15: in `gridScene` with a wall texture 4 wide and 16 high, facing (0, -1),
on a window of height 4, the slice of the single column is drawn with texture
column 15: line 320 mirrors with `height()`, so the column passed to the draw is
neither in [1, w - 2] = [1, 2] nor a column of the texture at all. -/
theorem wall_slice_texture_column_out_of_range :
    ∃ cs fr1,
      castColumn (gridScene (fun y x => Complex.arg ⟨x, y⟩) Real.pi Real.sqrt ⟨4, 16⟩ 0 (-1) 4)
        (0 + 1) WALL_PASS 0 emptyFrame = some (cs, fr1) ∧
      (borderedGrid ⟨4, 16⟩ cs.cur_x cs.cur_y : MapData ℝ).wall = some ⟨4, 16⟩ ∧
      texX (fr1.pass_data 0) cs ⟨4, 16⟩
        (wallX (gridScene (fun y x => Complex.arg ⟨x, y⟩) Real.pi Real.sqrt ⟨4, 16⟩ 0 (-1) 4)
          WALL_PASS (fr1.pass_data 0) cs (borderedGrid ⟨4, 16⟩ cs.cur_x cs.cur_y)
          (fr1.pass_data 0).wall_distance) = 15 ∧
      (∃ y1 y2 color_scaled z, fr1.calls =
        [DrawCall.wallSlice WALL_PASS 0 (0.5 / 1) ⟨4, 16⟩ 15 (-1) y1 0 y2 color_scaled z]) ∧
      ¬ ((1 : Int) ≤ 15 ∧ (15 : Int) ≤ ((⟨4, 16⟩ : Image).width : Int) - 2) := by
  obtain ⟨cs, fr1, g1, g2, g3, g4, g5, g6, g7⟩ := grid_slice
    (gridScene (fun y x => Complex.arg ⟨x, y⟩) Real.pi Real.sqrt ⟨4, 16⟩ 0 (-1) 4) rfl rfl rfl
    1 one_pos 0 (-1) (gridScene_ray_dir_x _ _ _ _ _) (gridScene_ray_dir_y _ _ _ _ _) 0 emptyFrame
    1 0 1 0.17 (Or.inl ⟨rfl, rfl, rfl, rfl, rfl, rfl⟩) ⟨4, 16⟩
    (borderedGrid_border ⟨4, 16⟩ 1 0 (by norm_num) (by norm_num) (by norm_num) (by norm_num)
      (by norm_num))
  have hl : lineHeight
      (gridScene (fun y x => Complex.arg ⟨x, y⟩) Real.pi Real.sqrt ⟨4, 16⟩ 0 (-1) 4)
      (0.5 / 1) > 1 := by
    norm_num [lineHeight, gridScene]
  have hry : (fr1.pass_data 0).ray_dir_y = -1 := by
    rw [g5]
    show (passData (gridScene (fun y x => Complex.arg ⟨x, y⟩) Real.pi Real.sqrt ⟨4, 16⟩ 0 (-1)
      4) 0).ray_dir_y = -1
    rw [gridScene_ray_dir_y]
    norm_num
  have ht : texX (fr1.pass_data 0) cs ⟨4, 16⟩ 0.17 = 15 := by
    have hfl : ⌊(4 : ℝ) * 0.17⌋ = 0 := by
      rw [Int.floor_eq_iff]
      norm_num
    unfold texX
    simp only [g4, hry, toInt]
    norm_num [hfl]
  obtain ⟨h1, -⟩ := g7 hl
  refine ⟨cs, fr1, g1, ?_, ?_, ?_, by norm_num⟩
  · rw [g2, g3]
    exact (borderedGrid_border ⟨4, 16⟩ 1 0 (by norm_num) (by norm_num) (by norm_num)
      (by norm_num) (by norm_num)).2.1
  · have h : wallX (gridScene (fun y x => Complex.arg ⟨x, y⟩) Real.pi Real.sqrt ⟨4, 16⟩ 0 (-1) 4)
        WALL_PASS (fr1.pass_data 0) cs (borderedGrid ⟨4, 16⟩ cs.cur_x cs.cur_y)
        (fr1.pass_data 0).wall_distance = 0.17 := g6
    rw [h]
    exact ht
  · rw [ht] at h1
    exact ⟨_, _, _, _, h1⟩

theorem gridScene_cameraPitch (atan2 : ℝ → ℝ → ℝ) (wall : Image) (fx fy : ℝ) (screen_h : Nat) :
    cameraPitch (gridScene atan2 Real.pi Real.sqrt wall fx fy screen_h) = 0 := by
  norm_num [cameraPitch, gridScene, setCoordinateSystem, setCameraPosition, RayCaster,
    staticInit, clamp, toInt]

/-- C19: in `gridScene` facing (0, -0.5) the wall is at distance 1, so the slice
is as high as the window.  On a window of height 3 the slice (line height 3 > 1)
is drawn and the floor and ceiling loop visits the rows 1, 2, 3, 4: at row 1 the
divisor 2*y - screen_h is -1, current_dist is -3 and the darkness factor is 1.3.
On a window of height 2 (line height 2 > 1) it visits the rows 1, 2, 3, and at
row 1 the divisor 2*y - screen_h is 0. -/
theorem floor_row_above_horizon :
    (∃ cs fr1,
      castColumn (gridScene (fun y x => Complex.arg ⟨x, y⟩) Real.pi Real.sqrt ⟨8, 8⟩ 0 (-0.5) 3)
        (0 + 1) WALL_PASS 0 emptyFrame = some (cs, fr1) ∧
      lineHeight (gridScene (fun y x => Complex.arg ⟨x, y⟩) Real.pi Real.sqrt ⟨8, 8⟩ 0 (-0.5) 3)
        (fr1.pass_data 0).wall_distance = 3 ∧
      (∃ t x1 y1 x2 y2 color_scaled z, fr1.calls =
        [DrawCall.wallSlice WALL_PASS 0 (0.5 / 0.5) ⟨8, 8⟩ t x1 y1 x2 y2 color_scaled z]) ∧
      floorRows (gridScene (fun y x => Complex.arg ⟨x, y⟩) Real.pi Real.sqrt ⟨8, 8⟩ 0 (-0.5) 3)
        (sliceY2 (gridScene (fun y x => Complex.arg ⟨x, y⟩) Real.pi Real.sqrt ⟨8, 8⟩ 0 (-0.5) 3)
          3) = [1, 2, 3, 4] ∧
      (∃ floorXWall floorYWall, fr1._ceiling_floor =
        ([1, 2, 3, 4] : List Int).foldl
          (floorCeilingRow
            (gridScene (fun y x => Complex.arg ⟨x, y⟩) Real.pi Real.sqrt ⟨8, 8⟩ 0 (-0.5) 3)
            0 (0.5 / 0.5) floorXWall floorYWall) clearBitmap) ∧
      (2 * (((1 : Int) : ℝ)) -
        (((gridScene (fun y x => Complex.arg ⟨x, y⟩) Real.pi Real.sqrt ⟨8, 8⟩ 0 (-0.5)
          3).screen_h : Nat) : ℝ) = -1) ∧
      (∀ floorXWall floorYWall : ℝ,
        (floorPoint
          (gridScene (fun y x => Complex.arg ⟨x, y⟩) Real.pi Real.sqrt ⟨8, 8⟩ 0 (-0.5) 3)
          (0.5 / 0.5) floorXWall floorYWall 1).1 = -3 ∧
        max 0 (1 - (floorPoint
          (gridScene (fun y x => Complex.arg ⟨x, y⟩) Real.pi Real.sqrt ⟨8, 8⟩ 0 (-0.5) 3)
          (0.5 / 0.5) floorXWall floorYWall 1).1 / 10) = (1.3 : ℝ))) ∧
    (∃ cs fr1,
      castColumn (gridScene (fun y x => Complex.arg ⟨x, y⟩) Real.pi Real.sqrt ⟨8, 8⟩ 0 (-0.5) 2)
        (0 + 1) WALL_PASS 0 emptyFrame = some (cs, fr1) ∧
      lineHeight (gridScene (fun y x => Complex.arg ⟨x, y⟩) Real.pi Real.sqrt ⟨8, 8⟩ 0 (-0.5) 2)
        (fr1.pass_data 0).wall_distance = 2 ∧
      (∃ t x1 y1 x2 y2 color_scaled z, fr1.calls =
        [DrawCall.wallSlice WALL_PASS 0 (0.5 / 0.5) ⟨8, 8⟩ t x1 y1 x2 y2 color_scaled z]) ∧
      floorRows (gridScene (fun y x => Complex.arg ⟨x, y⟩) Real.pi Real.sqrt ⟨8, 8⟩ 0 (-0.5) 2)
        (sliceY2 (gridScene (fun y x => Complex.arg ⟨x, y⟩) Real.pi Real.sqrt ⟨8, 8⟩ 0 (-0.5) 2)
          2) = [1, 2, 3] ∧
      (∃ floorXWall floorYWall, fr1._ceiling_floor =
        ([1, 2, 3] : List Int).foldl
          (floorCeilingRow
            (gridScene (fun y x => Complex.arg ⟨x, y⟩) Real.pi Real.sqrt ⟨8, 8⟩ 0 (-0.5) 2)
            0 (0.5 / 0.5) floorXWall floorYWall) clearBitmap) ∧
      (2 * (((1 : Int) : ℝ)) -
        (((gridScene (fun y x => Complex.arg ⟨x, y⟩) Real.pi Real.sqrt ⟨8, 8⟩ 0 (-0.5)
          2).screen_h : Nat) : ℝ) = 0)) := by
  have hhalf : (0 : ℝ) < 0.5 := by norm_num
  constructor
  · obtain ⟨cs, fr1, g1, g2, g3, g4, g5, g6, g7⟩ := grid_slice
      (gridScene (fun y x => Complex.arg ⟨x, y⟩) Real.pi Real.sqrt ⟨8, 8⟩ 0 (-0.5) 3) rfl rfl rfl
      0.5 hhalf 0 (-0.5) (gridScene_ray_dir_x _ _ _ _ _) (gridScene_ray_dir_y _ _ _ _ _) 0
      emptyFrame 1 0 1 0.17 (Or.inl ⟨rfl, rfl, rfl, rfl, rfl, rfl⟩) ⟨8, 8⟩
      (borderedGrid_border ⟨8, 8⟩ 1 0 (by norm_num) (by norm_num) (by norm_num) (by norm_num)
        (by norm_num))
    have hlh : lineHeight
        (gridScene (fun y x => Complex.arg ⟨x, y⟩) Real.pi Real.sqrt ⟨8, 8⟩ 0 (-0.5) 3)
        (0.5 / 0.5) = 3 := by
      norm_num [lineHeight, gridScene]
    have hy2 : sliceY2
        (gridScene (fun y x => Complex.arg ⟨x, y⟩) Real.pi Real.sqrt ⟨8, 8⟩ 0 (-0.5) 3) 3 = 3 := by
      unfold sliceY2
      rw [gridScene_cameraPitch]
      norm_num [gridScene, toInt]
    have hrows : floorRows
        (gridScene (fun y x => Complex.arg ⟨x, y⟩) Real.pi Real.sqrt ⟨8, 8⟩ 0 (-0.5) 3) 3 =
        [1, 2, 3, 4] := by
      unfold floorRows
      rw [gridScene_cameraPitch]
      rfl
    obtain ⟨h1, h2⟩ := g7 (by rw [hlh]; norm_num)
    rw [hlh, hy2, hrows] at h2
    refine ⟨cs, fr1, g1, ?_, ⟨_, _, _, _, _, _, _, h1⟩, ?_, ⟨_, _, h2⟩, ?_, ?_⟩
    · rw [g5]
      exact hlh
    · rw [hy2]
      exact hrows
    · norm_num [gridScene]
    · intro fxw fyw
      norm_num [floorPoint, gridScene]
  · obtain ⟨cs, fr1, g1, g2, g3, g4, g5, g6, g7⟩ := grid_slice
      (gridScene (fun y x => Complex.arg ⟨x, y⟩) Real.pi Real.sqrt ⟨8, 8⟩ 0 (-0.5) 2) rfl rfl rfl
      0.5 hhalf 0 (-0.5) (gridScene_ray_dir_x _ _ _ _ _) (gridScene_ray_dir_y _ _ _ _ _) 0
      emptyFrame 1 0 1 0.17 (Or.inl ⟨rfl, rfl, rfl, rfl, rfl, rfl⟩) ⟨8, 8⟩
      (borderedGrid_border ⟨8, 8⟩ 1 0 (by norm_num) (by norm_num) (by norm_num) (by norm_num)
        (by norm_num))
    have hlh : lineHeight
        (gridScene (fun y x => Complex.arg ⟨x, y⟩) Real.pi Real.sqrt ⟨8, 8⟩ 0 (-0.5) 2)
        (0.5 / 0.5) = 2 := by
      norm_num [lineHeight, gridScene]
    have hy2 : sliceY2
        (gridScene (fun y x => Complex.arg ⟨x, y⟩) Real.pi Real.sqrt ⟨8, 8⟩ 0 (-0.5) 2) 2 = 3 := by
      unfold sliceY2
      rw [gridScene_cameraPitch]
      norm_num [gridScene, toInt]
    have hrows : floorRows
        (gridScene (fun y x => Complex.arg ⟨x, y⟩) Real.pi Real.sqrt ⟨8, 8⟩ 0 (-0.5) 2) 3 =
        [1, 2, 3] := by
      unfold floorRows
      rw [gridScene_cameraPitch]
      rfl
    obtain ⟨h1, h2⟩ := g7 (by rw [hlh]; norm_num)
    rw [hlh, hy2, hrows] at h2
    refine ⟨cs, fr1, g1, ?_, ⟨_, _, _, _, _, _, _, h1⟩, ?_, ⟨_, _, h2⟩, ?_⟩
    · rw [g5]
      exact hlh
    · rw [hy2]
      exact hrows
    · norm_num [gridScene]

/-! ### Termination of the cast loop -/

theorem castColumn_eq_castLoop (a : DrawArgs α) (fuel pass x : Nat) (fr : FrameState α) :
    castColumn a fuel pass x fr =
      castLoop a pass x fuel (castStart a pass x fr).1 (castStart a pass x fr).2 := rfl

theorem castLoop_eq_castSteps (a : DrawArgs α) (pass x : Nat) :
    ∀ (n : Nat) (cs : CastState α) (fr : FrameState α),
      (∀ j, j < n → (castSteps a pass x j cs fr).1.casting = true) →
      (castSteps a pass x n cs fr).1.casting = false →
      (∀ fuel, n ≤ fuel → castLoop a pass x fuel cs fr = some (castSteps a pass x n cs fr)) ∧
      (∀ fuel, fuel < n → castLoop a pass x fuel cs fr = none) := by
  intro n
  induction n with
  | zero =>
    intro cs fr _ hn
    exact ⟨fun fuel _ => castLoop_done a pass x fuel cs fr hn, fun fuel h => absurd h (by omega)⟩
  | succ n ih =>
    intro cs fr hlt hn
    have h0 : cs.casting = true := hlt 0 (by omega)
    obtain ⟨i1, i2⟩ := ih (castStep a pass x cs fr).1 (castStep a pass x cs fr).2
      (fun j hj => hlt (j + 1) (by omega)) hn
    constructor
    · intro fuel hf
      obtain ⟨f, rfl⟩ : ∃ f, fuel = f + 1 := ⟨fuel - 1, by omega⟩
      rw [castLoop_succ a pass x f cs fr h0]
      exact i1 f (by omega)
    · intro fuel hf
      rcases fuel with _ | f
      · exact castLoop_zero a pass x cs fr h0
      · rw [castLoop_succ a pass x f cs fr h0]
        exact i2 f (by omega)

theorem advanceRay_steps (pd : PassData α) (cs : CastState α) :
    (advanceRay pd cs).step_x = cs.step_x ∧ (advanceRay pd cs).step_y = cs.step_y ∧
    (advanceRay pd cs).casting = cs.casting ∧
    (((advanceRay pd cs).cur_x = cs.cur_x + cs.step_x ∧ (advanceRay pd cs).cur_y = cs.cur_y) ∨
      ((advanceRay pd cs).cur_x = cs.cur_x ∧ (advanceRay pd cs).cur_y = cs.cur_y + cs.step_y)) := by
  unfold advanceRay
  split_ifs
  · exact ⟨rfl, rfl, rfl, Or.inl ⟨rfl, rfl⟩⟩
  · exact ⟨rfl, rfl, rfl, Or.inr ⟨rfl, rfl⟩⟩

theorem acceptHit_fst (a : DrawArgs α) (pass x : Nat) (cs : CastState α) (response : MapData α)
    (wall : Image) (fr : FrameState α) :
    (acceptHit a pass x cs response wall fr).1 =
      if pass = WALL_PASS then { cs with casting := false } else cs := by
  unfold acceptHit
  dsimp only
  split_ifs <;> rfl

theorem castStep_fst (a : DrawArgs α) (pass x : Nat) (cs : CastState α) (fr : FrameState α)
    (hs : cs.skip_cast = 0) :
    (castEnds a pass (advanceRay (fr.pass_data x) cs) →
      (castStep a pass x cs fr).1 = { advanceRay (fr.pass_data x) cs with casting := false }) ∧
    (¬ castEnds a pass (advanceRay (fr.pass_data x) cs) →
      (castStep a pass x cs fr).1 = advanceRay (fr.pass_data x) cs) := by
  have h0 : ¬ (advanceRay (fr.pass_data x) cs).skip_cast > 0 := by
    rw [advanceRay_skip_cast, hs]
    exact lt_irrefl 0
  unfold castStep castEnds hitAccepted
  dsimp only
  rw [if_neg h0]
  generalize advanceRay (fr.pass_data x) cs = c1
  by_cases hinv : (a.query c1.cur_x c1.cur_y).invalid = true
  · rw [if_pos hinv]
    exact ⟨fun _ => rfl, fun h => absurd (Or.inl hinv) h⟩
  · rw [if_neg hinv]
    rcases hw : (a.query c1.cur_x c1.cur_y).wall with _ | wall
    · dsimp only
      refine ⟨fun h => ?_, fun _ => rfl⟩
      rcases h with h | ⟨-, h, -⟩
      · exact absurd h hinv
      · simp at h
    · dsimp only
      by_cases hh : ¬(c1.side = 0 ∧ (a.query c1.cur_x c1.cur_y).x_hidden = true) ∧
          ¬(c1.side = 1 ∧ (a.query c1.cur_x c1.cur_y).y_hidden = true)
      · rw [if_pos hh]
        by_cases hc : correctPass pass (a.query c1.cur_x c1.cur_y) = true
        · rw [if_pos hc, acceptHit_fst]
          by_cases hp : pass = WALL_PASS
          · rw [if_pos hp]
            exact ⟨fun _ => rfl, fun h => absurd (Or.inr ⟨hp, rfl, hh.1, hh.2, hc⟩) h⟩
          · rw [if_neg hp]
            refine ⟨fun h => ?_, fun _ => rfl⟩
            rcases h with h | ⟨h, -⟩
            · exact absurd h hinv
            · exact absurd h hp
        · rw [if_neg hc]
          refine ⟨fun h => ?_, fun _ => rfl⟩
          rcases h with h | ⟨-, -, -, -, h⟩
          · exact absurd h hinv
          · exact absurd h hc
      · rw [if_neg hh]
        refine ⟨fun h => ?_, fun _ => rfl⟩
        rcases h with h | ⟨-, -, h1, h2, -⟩
        · exact absurd h hinv
        · exact absurd ⟨h1, h2⟩ hh

theorem cellsAhead_advanceRay (x0 y0 : Int) (W H : Nat) (pd : PassData α) (cs : CastState α)
    (hx : cs.step_x = 1 ∨ cs.step_x = -1) (hy : cs.step_y = 1 ∨ cs.step_y = -1) :
    cellsAhead x0 y0 W H (advanceRay pd cs) = cellsAhead x0 y0 W H cs - 1 := by
  obtain ⟨h1, h2, -, h3⟩ := advanceRay_steps pd cs
  unfold cellsAhead
  rw [h1, h2]
  rcases h3 with ⟨e1, e2⟩ | ⟨e1, e2⟩ <;> rw [e1, e2] <;> rcases hx with hx | hx <;>
    rcases hy with hy | hy <;> rw [hx, hy] <;> norm_num <;> omega

theorem cellsAhead_inside (a : DrawArgs α) (x0 y0 : Int) (W H : Nat)
    (hOut : ∀ i j : Int, ¬(x0 ≤ i ∧ i < x0 + W ∧ y0 ≤ j ∧ j < y0 + H) →
      (a.query i j).invalid = true)
    (cs : CastState α) (hx : cs.step_x = 1 ∨ cs.step_x = -1)
    (hy : cs.step_y = 1 ∨ cs.step_y = -1)
    (hv : ¬ (a.query cs.cur_x cs.cur_y).invalid = true) :
    2 ≤ cellsAhead x0 y0 W H cs ∧ cellsAhead x0 y0 W H cs ≤ (W : Int) + H := by
  have hin : x0 ≤ cs.cur_x ∧ cs.cur_x < x0 + W ∧ y0 ≤ cs.cur_y ∧ cs.cur_y < y0 + H := by
    by_contra h
    exact hv (hOut _ _ h)
  obtain ⟨b1, b2, b3, b4⟩ := hin
  unfold cellsAhead
  rcases hx with hx | hx <;> rcases hy with hy | hy <;> rw [hx, hy] <;> norm_num <;>
    constructor <;> omega

theorem castEnds_congr (a : DrawArgs α) (pass : Nat) (c1 c2 : CastState α)
    (hx : c1.cur_x = c2.cur_x) (hy : c1.cur_y = c2.cur_y) (hs : c1.side = c2.side) :
    castEnds a pass c1 ↔ castEnds a pass c2 := by
  unfold castEnds hitAccepted
  rw [hx, hy, hs]

theorem castStep_cases (a : DrawArgs α) (pass x : Nat) (cs : CastState α) (fr : FrameState α)
    (hc : cs.casting = true) (hs : cs.skip_cast = 0) :
    (castStep a pass x cs fr).1.cur_x = (advanceRay (fr.pass_data x) cs).cur_x ∧
    (castStep a pass x cs fr).1.cur_y = (advanceRay (fr.pass_data x) cs).cur_y ∧
    (castStep a pass x cs fr).1.step_x = cs.step_x ∧
    (castStep a pass x cs fr).1.step_y = cs.step_y ∧
    (castStep a pass x cs fr).1.skip_cast = 0 ∧
    (((castStep a pass x cs fr).1.casting = false ∧ castEnds a pass (castStep a pass x cs fr).1) ∨
      ((castStep a pass x cs fr).1.casting = true ∧
        ¬ castEnds a pass (castStep a pass x cs fr).1)) := by
  obtain ⟨s1, s2, s3, -⟩ := advanceRay_steps (fr.pass_data x) cs
  have s4 := advanceRay_skip_cast (fr.pass_data x) cs
  obtain ⟨k1, k2⟩ := castStep_fst a pass x cs fr hs
  by_cases he : castEnds a pass (advanceRay (fr.pass_data x) cs)
  · rw [k1 he]
    refine ⟨rfl, rfl, s1, s2, s4.trans hs, Or.inl ⟨rfl, ?_⟩⟩
    exact (castEnds_congr a pass _ _ rfl rfl rfl).mpr he
  · rw [k2 he]
    exact ⟨rfl, rfl, s1, s2, s4.trans hs, Or.inr ⟨s3.trans hc, he⟩⟩

theorem castSteps_bounded (a : DrawArgs α) (x0 y0 : Int) (W H : Nat)
    (hOut : ∀ i j : Int, ¬(x0 ≤ i ∧ i < x0 + W ∧ y0 ≤ j ∧ j < y0 + H) →
      (a.query i j).invalid = true)
    (pass x : Nat) :
    ∀ (m : Nat) (cs : CastState α) (fr : FrameState α), cs.casting = true → cs.skip_cast = 0 →
      (cs.step_x = 1 ∨ cs.step_x = -1) → (cs.step_y = 1 ∨ cs.step_y = -1) →
      (¬ (a.query (castStep a pass x cs fr).1.cur_x (castStep a pass x cs fr).1.cur_y).invalid
          = true → cellsAhead x0 y0 W H (castStep a pass x cs fr).1 ≤ m) →
      ∃ n, 1 ≤ n ∧ n ≤ m + 1 ∧
        (∀ j, j < n → (castSteps a pass x j cs fr).1.casting = true) ∧
        (∀ j, 1 ≤ j → j < n → ¬ castEnds a pass (castSteps a pass x j cs fr).1) ∧
        (castSteps a pass x n cs fr).1.casting = false ∧
        castEnds a pass (castSteps a pass x n cs fr).1 := by
  intro m
  induction m with
  | zero =>
    intro cs fr hc hs hx hy hpot
    obtain ⟨c1, c2, c3, c4, c5, c6⟩ := castStep_cases a pass x cs fr hc hs
    rcases c6 with ⟨e1, e2⟩ | ⟨e1, e2⟩
    · refine ⟨1, le_refl 1, by omega, fun j hj => ?_, fun j h1 h2 => absurd h1 (by omega), e1, e2⟩
      obtain rfl : j = 0 := by omega
      exact hc
    · exfalso
      have hv : ¬ (a.query (castStep a pass x cs fr).1.cur_x
          (castStep a pass x cs fr).1.cur_y).invalid = true := fun h => e2 (Or.inl h)
      have h2 := (cellsAhead_inside a x0 y0 W H hOut _ (c3 ▸ hx) (c4 ▸ hy) hv).1
      have h3 := hpot hv
      omega
  | succ m ih =>
    intro cs fr hc hs hx hy hpot
    obtain ⟨c1, c2, c3, c4, c5, c6⟩ := castStep_cases a pass x cs fr hc hs
    rcases c6 with ⟨e1, e2⟩ | ⟨e1, e2⟩
    · refine ⟨1, le_refl 1, by omega, fun j hj => ?_, fun j h1 h2 => absurd h1 (by omega), e1, e2⟩
      obtain rfl : j = 0 := by omega
      exact hc
    · have hv : ¬ (a.query (castStep a pass x cs fr).1.cur_x
          (castStep a pass x cs fr).1.cur_y).invalid = true := fun h => e2 (Or.inl h)
      have hx1 : (castStep a pass x cs fr).1.step_x = 1 ∨ (castStep a pass x cs fr).1.step_x = -1 :=
        c3 ▸ hx
      have hy1 : (castStep a pass x cs fr).1.step_y = 1 ∨ (castStep a pass x cs fr).1.step_y = -1 :=
        c4 ▸ hy
      have h3 := hpot hv
      obtain ⟨d1, d2, -⟩ := castStep_cases a pass x (castStep a pass x cs fr).1
        (castStep a pass x cs fr).2 e1 c5
      obtain ⟨n, n1, n2, n3, n4, n5, n6⟩ := ih (castStep a pass x cs fr).1
        (castStep a pass x cs fr).2 e1 c5 hx1 hy1 (fun _ => by
          have h4 := cellsAhead_advanceRay x0 y0 W H
            ((castStep a pass x cs fr).2.pass_data x) (castStep a pass x cs fr).1 hx1 hy1
          have h5 : cellsAhead x0 y0 W H (castStep a pass x (castStep a pass x cs fr).1
              (castStep a pass x cs fr).2).1 =
              cellsAhead x0 y0 W H (advanceRay ((castStep a pass x cs fr).2.pass_data x)
                (castStep a pass x cs fr).1) := by
            obtain ⟨t1, t2, -, -⟩ := advanceRay_steps ((castStep a pass x cs fr).2.pass_data x)
              (castStep a pass x cs fr).1
            obtain ⟨-, -, u3, u4, -⟩ := castStep_cases a pass x (castStep a pass x cs fr).1
              (castStep a pass x cs fr).2 e1 c5
            unfold cellsAhead
            rw [d1, d2, u3, u4, t1, t2]
          rw [h5, h4]
          omega)
      refine ⟨n + 1, by omega, by omega, fun j hj => ?_, fun j h1 h2 => ?_, n5, n6⟩
      · rcases j with _ | j
        · exact hc
        · exact n3 j (by omega)
      · obtain ⟨j, rfl⟩ : ∃ i, j = i + 1 := ⟨j - 1, by omega⟩
        rcases j with _ | j
        · exact e2
        · exact n4 (j + 1) (by omega) (by omega)

theorem foldlM_some {σ ι : Type} (f : σ → ι → Option σ) (h : ∀ s i, ∃ r, f s i = some r) :
    ∀ (l : List ι) (s : σ), ∃ r, l.foldlM f s = some r := by
  intro l
  induction l with
  | nil => exact fun s => ⟨s, rfl⟩
  | cons i l ih =>
    intro s
    obtain ⟨r, hr⟩ := h s i
    obtain ⟨r2, hr2⟩ := ih r
    exact ⟨r2, by rw [List.foldlM_cons, hr]; exact hr2⟩

theorem castInit_steps (a : DrawArgs α) (pd : PassData α) :
    ((castInit a pd).step_x = 1 ∨ (castInit a pd).step_x = -1) ∧
    ((castInit a pd).step_y = 1 ∨ (castInit a pd).step_y = -1) := by
  unfold castInit
  dsimp only
  constructor <;> split_ifs <;> first | exact Or.inr rfl | exact Or.inl rfl

/-- C18: when the map query answers `invalid` for every cell outside the
rectangle `[x0, x0 + W) x [y0, y0 + H)`, then for every camera, every pass, every
column `x` and every frame state the loop `while(casting)` ends after a number
`n` of iterations with `1 ≤ n ≤ W + H + 1`: with `n` or more iterations allowed
the cast returns the state after `n` iterations, with fewer it has not ended;
no cell reached before ends the cast (none is `invalid` nor, in the solid-wall
pass, an accepted hit) and the cell reached last does: it is `invalid` or, in
the solid-wall pass only, an accepted hit.  So the two passes over all columns
return once `W + H + 1` iterations are allowed per column. -/
theorem cast_loop_terminates (a : DrawArgs α) (x0 y0 : Int) (W H : Nat)
    (hOut : ∀ i j : Int, ¬(x0 ≤ i ∧ i < x0 + W ∧ y0 ≤ j ∧ j < y0 + H) →
      (a.query i j).invalid = true) :
    (∀ (pass x : Nat) (fr : FrameState α),
      ∃ n, 1 ≤ n ∧ n ≤ W + H + 1 ∧
        (∀ fuel, n ≤ fuel → castColumn a fuel pass x fr =
          some (castSteps a pass x n (castStart a pass x fr).1 (castStart a pass x fr).2)) ∧
        (∀ fuel, fuel < n → castColumn a fuel pass x fr = none) ∧
        (∀ j, 1 ≤ j → j < n → ¬ castEnds a pass
          (castSteps a pass x j (castStart a pass x fr).1 (castStart a pass x fr).2).1) ∧
        castEnds a pass
          (castSteps a pass x n (castStart a pass x fr).1 (castStart a pass x fr).2).1 ∧
        (pass = WALL_SPRITE_PASS →
          (a.query
            (castSteps a pass x n (castStart a pass x fr).1 (castStart a pass x fr).2).1.cur_x
            (castSteps a pass x n (castStart a pass x fr).1 (castStart a pass x fr).2).1.cur_y
            ).invalid = true)) ∧
    (∀ fuel, W + H + 1 ≤ fuel → ∀ fr : FrameState α, ∃ fr1, castPasses a fuel fr = some fr1) := by
  have hcol : ∀ (pass x : Nat) (fr : FrameState α),
      ∃ n, 1 ≤ n ∧ n ≤ W + H + 1 ∧
        (∀ fuel, n ≤ fuel → castColumn a fuel pass x fr =
          some (castSteps a pass x n (castStart a pass x fr).1 (castStart a pass x fr).2)) ∧
        (∀ fuel, fuel < n → castColumn a fuel pass x fr = none) ∧
        (∀ j, 1 ≤ j → j < n → ¬ castEnds a pass
          (castSteps a pass x j (castStart a pass x fr).1 (castStart a pass x fr).2).1) ∧
        castEnds a pass
          (castSteps a pass x n (castStart a pass x fr).1 (castStart a pass x fr).2).1 := by
    intro pass x fr
    have hx : (castStart a pass x fr).1.step_x = 1 ∨ (castStart a pass x fr).1.step_x = -1 :=
      (castInit_steps a _).1
    have hy : (castStart a pass x fr).1.step_y = 1 ∨ (castStart a pass x fr).1.step_y = -1 :=
      (castInit_steps a _).2
    obtain ⟨c1, c2, c3, c4, c5, c6⟩ := castStep_cases a pass x (castStart a pass x fr).1
      (castStart a pass x fr).2 rfl rfl
    obtain ⟨n, n1, n2, n3, n4, n5, n6⟩ := castSteps_bounded a x0 y0 W H hOut pass x (W + H)
      (castStart a pass x fr).1 (castStart a pass x fr).2 rfl rfl hx hy (fun hv => by
        have h := (cellsAhead_inside a x0 y0 W H hOut _ (c3 ▸ hx) (c4 ▸ hy) hv).2
        exact_mod_cast h)
    obtain ⟨l1, l2⟩ := castLoop_eq_castSteps a pass x n (castStart a pass x fr).1
      (castStart a pass x fr).2 n3 n5
    exact ⟨n, n1, n2, fun fuel hf => (castColumn_eq_castLoop a fuel pass x fr).trans (l1 fuel hf),
      fun fuel hf => (castColumn_eq_castLoop a fuel pass x fr).trans (l2 fuel hf), n4, n6⟩
  constructor
  · intro pass x fr
    obtain ⟨n, n1, n2, n3, n4, n5, n6⟩ := hcol pass x fr
    refine ⟨n, n1, n2, n3, n4, n5, n6, fun hp => ?_⟩
    rcases n6 with h | ⟨h, -⟩
    · exact h
    · rw [hp] at h
      exact absurd h (by decide)
  · intro fuel hf fr
    unfold castPasses
    apply foldlM_some
    intro fr pass
    unfold castPass
    apply foldlM_some
    intro fr x
    obtain ⟨n, -, n2, n3, -⟩ := hcol pass x fr
    exact ⟨_, by rw [n3 fuel (by omega)]; rfl⟩

/-- Witness for C18: the 3x3 map `borderedGrid` is `invalid` outside the rectangle
`[0, 3) x [0, 3)`, so each cast of `gridScene` ends within 3 + 3 + 1 iterations. -/
theorem cast_loop_terminates_witness :
    (∀ (pass x : Nat) (fr : FrameState ℝ),
      ∃ n, 1 ≤ n ∧ n ≤ 3 + 3 + 1 ∧
        (∀ fuel, n ≤ fuel →
          castColumn (gridScene (fun y x => Complex.arg ⟨x, y⟩) Real.pi Real.sqrt ⟨8, 8⟩ 0 (-1) 4)
            fuel pass x fr =
          some (castSteps
            (gridScene (fun y x => Complex.arg ⟨x, y⟩) Real.pi Real.sqrt ⟨8, 8⟩ 0 (-1) 4) pass x n
            (castStart (gridScene (fun y x => Complex.arg ⟨x, y⟩) Real.pi Real.sqrt ⟨8, 8⟩ 0 (-1)
              4) pass x fr).1
            (castStart (gridScene (fun y x => Complex.arg ⟨x, y⟩) Real.pi Real.sqrt ⟨8, 8⟩ 0 (-1)
              4) pass x fr).2)) ∧
        (∀ fuel, fuel < n →
          castColumn (gridScene (fun y x => Complex.arg ⟨x, y⟩) Real.pi Real.sqrt ⟨8, 8⟩ 0 (-1) 4)
            fuel pass x fr = none) ∧
        (∀ j, 1 ≤ j → j < n → ¬ castEnds
          (gridScene (fun y x => Complex.arg ⟨x, y⟩) Real.pi Real.sqrt ⟨8, 8⟩ 0 (-1) 4) pass
          (castSteps
            (gridScene (fun y x => Complex.arg ⟨x, y⟩) Real.pi Real.sqrt ⟨8, 8⟩ 0 (-1) 4) pass x j
            (castStart (gridScene (fun y x => Complex.arg ⟨x, y⟩) Real.pi Real.sqrt ⟨8, 8⟩ 0 (-1)
              4) pass x fr).1
            (castStart (gridScene (fun y x => Complex.arg ⟨x, y⟩) Real.pi Real.sqrt ⟨8, 8⟩ 0 (-1)
              4) pass x fr).2).1) ∧
        castEnds (gridScene (fun y x => Complex.arg ⟨x, y⟩) Real.pi Real.sqrt ⟨8, 8⟩ 0 (-1) 4) pass
          (castSteps
            (gridScene (fun y x => Complex.arg ⟨x, y⟩) Real.pi Real.sqrt ⟨8, 8⟩ 0 (-1) 4) pass x n
            (castStart (gridScene (fun y x => Complex.arg ⟨x, y⟩) Real.pi Real.sqrt ⟨8, 8⟩ 0 (-1)
              4) pass x fr).1
            (castStart (gridScene (fun y x => Complex.arg ⟨x, y⟩) Real.pi Real.sqrt ⟨8, 8⟩ 0 (-1)
              4) pass x fr).2).1 ∧
        (pass = WALL_SPRITE_PASS →
          ((gridScene (fun y x => Complex.arg ⟨x, y⟩) Real.pi Real.sqrt ⟨8, 8⟩ 0 (-1) 4).query
            (castSteps
              (gridScene (fun y x => Complex.arg ⟨x, y⟩) Real.pi Real.sqrt ⟨8, 8⟩ 0 (-1) 4) pass x
              n
              (castStart (gridScene (fun y x => Complex.arg ⟨x, y⟩) Real.pi Real.sqrt ⟨8, 8⟩ 0
                (-1) 4) pass x fr).1
              (castStart (gridScene (fun y x => Complex.arg ⟨x, y⟩) Real.pi Real.sqrt ⟨8, 8⟩ 0
                (-1) 4) pass x fr).2).1.cur_x
            (castSteps
              (gridScene (fun y x => Complex.arg ⟨x, y⟩) Real.pi Real.sqrt ⟨8, 8⟩ 0 (-1) 4) pass x
              n
              (castStart (gridScene (fun y x => Complex.arg ⟨x, y⟩) Real.pi Real.sqrt ⟨8, 8⟩ 0
                (-1) 4) pass x fr).1
              (castStart (gridScene (fun y x => Complex.arg ⟨x, y⟩) Real.pi Real.sqrt ⟨8, 8⟩ 0
                (-1) 4) pass x fr).2).1.cur_y).invalid = true)) ∧
    (∀ fuel, 3 + 3 + 1 ≤ fuel → ∀ fr : FrameState ℝ, ∃ fr1,
      castPasses (gridScene (fun y x => Complex.arg ⟨x, y⟩) Real.pi Real.sqrt ⟨8, 8⟩ 0 (-1) 4)
        fuel fr = some fr1) :=
  cast_loop_terminates
    (gridScene (fun y x => Complex.arg ⟨x, y⟩) Real.pi Real.sqrt ⟨8, 8⟩ 0 (-1) 4) 0 0 3 3
    (by
      intro i j h
      have h2 : i < 0 ∨ j < 0 ∨ 3 ≤ i ∨ 3 ≤ j := by
        by_contra h3
        apply h
        norm_num
        omega
      show (borderedGrid ⟨8, 8⟩ i j : MapData ℝ).invalid = true
      simp only [borderedGrid, if_pos h2]
      rfl)

/-! ### The wall-sprite pass, iteration by iteration -/

theorem castSteps_succ (a : DrawArgs α) (pass x : Nat) :
    ∀ (j : Nat) (cs : CastState α) (fr : FrameState α),
      castSteps a pass x (j + 1) cs fr =
        castStep a pass x (castSteps a pass x j cs fr).1 (castSteps a pass x j cs fr).2 := by
  intro j
  induction j with
  | zero => exact fun cs fr => rfl
  | succ j ih =>
    intro cs fr
    exact ih (castStep a pass x cs fr).1 (castStep a pass x cs fr).2

theorem castStep_skip_cast (a : DrawArgs α) (pass x : Nat) (cs : CastState α)
    (fr : FrameState α) (hs : cs.skip_cast = 0) :
    (castStep a pass x cs fr).1.skip_cast = 0 ∧
    ((castStep a pass x cs fr).1.side = 0 ∨ (castStep a pass x cs fr).1.side = 1) := by
  have s4 := advanceRay_skip_cast (fr.pass_data x) cs
  have hside : (advanceRay (fr.pass_data x) cs).side = 0 ∨
      (advanceRay (fr.pass_data x) cs).side = 1 := by
    unfold advanceRay
    split_ifs
    · exact Or.inl rfl
    · exact Or.inr rfl
  obtain ⟨k1, k2⟩ := castStep_fst a pass x cs fr hs
  by_cases he : castEnds a pass (advanceRay (fr.pass_data x) cs)
  · rw [k1 he]
    exact ⟨s4.trans hs, hside⟩
  · rw [k2 he]
    exact ⟨s4.trans hs, hside⟩

theorem castSteps_sprite_pass (a : DrawArgs α) (x : Nat) (fr : FrameState α) :
    ∀ j : Nat,
      (castSteps a WALL_SPRITE_PASS x j (castInit a (fr.pass_data x)) fr).1.skip_cast = 0 ∧
      (castSteps a WALL_SPRITE_PASS x j (castInit a (fr.pass_data x)) fr).2.pass_data =
        fr.pass_data := by
  intro j
  induction j with
  | zero => exact ⟨rfl, rfl⟩
  | succ j ih =>
    rw [castSteps_succ]
    exact ⟨(castStep_skip_cast a _ x _ _ ih.1).1, (castStep_sprite_pass a x _ _).1.trans ih.2⟩

theorem wallDist_eq_insetDistance (a : DrawArgs α) (pd : PassData α) (cs : CastState α)
    (inset_amount : α) (hside : cs.side = 0 ∨ cs.side = 1) :
    wallDist a WALL_SPRITE_PASS pd cs inset_amount = insetDistance a pd cs inset_amount := by
  have h10 : ¬ (WALL_SPRITE_PASS = WALL_PASS) := by decide
  unfold wallDist insetDistance
  simp only [if_neg h10, if_true]
  have e01 : ¬ ((0 : Int) = 1) := by decide
  have e10 : ¬ ((1 : Int) = 0) := by decide
  rcases hside with h | h
  · simp only [h, if_true, if_neg e01]
  · simp only [h, if_true, if_neg e10]

theorem castStep_sprite_pass_calls (a : DrawArgs α) (x : Nat) (cs : CastState α)
    (fr : FrameState α) (hs : cs.skip_cast = 0) :
    ((a.query (castStep a WALL_SPRITE_PASS x cs fr).1.cur_x
          (castStep a WALL_SPRITE_PASS x cs fr).1.cur_y).invalid = false ∧
        hitAccepted WALL_SPRITE_PASS (castStep a WALL_SPRITE_PASS x cs fr).1
          (a.query (castStep a WALL_SPRITE_PASS x cs fr).1.cur_x
            (castStep a WALL_SPRITE_PASS x cs fr).1.cur_y) ∧
        insetDistance a (fr.pass_data x) (castStep a WALL_SPRITE_PASS x cs fr).1
          (a.query (castStep a WALL_SPRITE_PASS x cs fr).1.cur_x
            (castStep a WALL_SPRITE_PASS x cs fr).1.cur_y).inset_amount ≤
          (fr.pass_data x).wall_distance ∧
        lineHeight a (insetDistance a (fr.pass_data x) (castStep a WALL_SPRITE_PASS x cs fr).1
          (a.query (castStep a WALL_SPRITE_PASS x cs fr).1.cur_x
            (castStep a WALL_SPRITE_PASS x cs fr).1.cur_y).inset_amount) > 1 →
      ∃ wall t x1 y1 x2 y2 color_scaled,
        (a.query (castStep a WALL_SPRITE_PASS x cs fr).1.cur_x
          (castStep a WALL_SPRITE_PASS x cs fr).1.cur_y).wall = some wall ∧
        (castStep a WALL_SPRITE_PASS x cs fr).2.calls = fr.calls ++
          [DrawCall.wallSlice WALL_SPRITE_PASS x
            (insetDistance a (fr.pass_data x) (castStep a WALL_SPRITE_PASS x cs fr).1
              (a.query (castStep a WALL_SPRITE_PASS x cs fr).1.cur_x
                (castStep a WALL_SPRITE_PASS x cs fr).1.cur_y).inset_amount)
            wall t x1 y1 x2 y2 color_scaled
            (-100 - insetDistance a (fr.pass_data x) (castStep a WALL_SPRITE_PASS x cs fr).1
              (a.query (castStep a WALL_SPRITE_PASS x cs fr).1.cur_x
                (castStep a WALL_SPRITE_PASS x cs fr).1.cur_y).inset_amount * 0.05)]) ∧
    (¬ ((a.query (castStep a WALL_SPRITE_PASS x cs fr).1.cur_x
          (castStep a WALL_SPRITE_PASS x cs fr).1.cur_y).invalid = false ∧
        hitAccepted WALL_SPRITE_PASS (castStep a WALL_SPRITE_PASS x cs fr).1
          (a.query (castStep a WALL_SPRITE_PASS x cs fr).1.cur_x
            (castStep a WALL_SPRITE_PASS x cs fr).1.cur_y) ∧
        insetDistance a (fr.pass_data x) (castStep a WALL_SPRITE_PASS x cs fr).1
          (a.query (castStep a WALL_SPRITE_PASS x cs fr).1.cur_x
            (castStep a WALL_SPRITE_PASS x cs fr).1.cur_y).inset_amount ≤
          (fr.pass_data x).wall_distance ∧
        lineHeight a (insetDistance a (fr.pass_data x) (castStep a WALL_SPRITE_PASS x cs fr).1
          (a.query (castStep a WALL_SPRITE_PASS x cs fr).1.cur_x
            (castStep a WALL_SPRITE_PASS x cs fr).1.cur_y).inset_amount) > 1) →
      (castStep a WALL_SPRITE_PASS x cs fr).2.calls = fr.calls) := by
  have h0 : ¬ (advanceRay (fr.pass_data x) cs).skip_cast > 0 := by
    rw [advanceRay_skip_cast, hs]
    exact lt_irrefl 0
  have h10 : ¬ (WALL_SPRITE_PASS = WALL_PASS) := by decide
  have hside : (advanceRay (fr.pass_data x) cs).side = 0 ∨
      (advanceRay (fr.pass_data x) cs).side = 1 := by
    unfold advanceRay
    split_ifs
    · exact Or.inl rfl
    · exact Or.inr rfl
  unfold castStep hitAccepted
  dsimp only
  rw [if_neg h0]
  generalize advanceRay (fr.pass_data x) cs = c1 at hside
  by_cases hinv : (a.query c1.cur_x c1.cur_y).invalid = true
  · rw [if_pos hinv]
    dsimp only
    refine ⟨fun h => ?_, fun _ => rfl⟩
    rw [hinv] at h
    exact absurd h.1 (by decide)
  · rw [if_neg hinv]
    rcases hw : (a.query c1.cur_x c1.cur_y).wall with _ | wall
    · dsimp only
      refine ⟨fun h => ?_, fun _ => rfl⟩
      rw [hw] at h
      exact absurd h.2.1.1 (by decide)
    · dsimp only
      by_cases hh : ¬(c1.side = 0 ∧ (a.query c1.cur_x c1.cur_y).x_hidden = true) ∧
          ¬(c1.side = 1 ∧ (a.query c1.cur_x c1.cur_y).y_hidden = true)
      · rw [if_pos hh]
        by_cases hc : correctPass WALL_SPRITE_PASS (a.query c1.cur_x c1.cur_y) = true
        · rw [if_pos hc]
          have hfst := acceptHit_fst a WALL_SPRITE_PASS x c1 (a.query c1.cur_x c1.cur_y) wall fr
          rw [if_neg h10] at hfst
          rw [hfst]
          have hd := wallDist_eq_insetDistance a (fr.pass_data x) c1
            (a.query c1.cur_x c1.cur_y).inset_amount hside
          unfold acceptHit
          simp only [if_neg h10]
          rw [hd]
          by_cases ht : insetDistance a (fr.pass_data x) c1
              (a.query c1.cur_x c1.cur_y).inset_amount ≤ (fr.pass_data x).wall_distance ∧
              lineHeight a (insetDistance a (fr.pass_data x) c1
                (a.query c1.cur_x c1.cur_y).inset_amount) > 1
          · rw [if_pos ht]
            constructor
            · intro _
              refine ⟨wall, ?t, ?x1, ?y1, ?x2, ?y2, ?c, hw, ?eq⟩
              case eq =>
                unfold drawSlice
                dsimp only
                rw [if_neg h10]
                exact rfl
            · intro h
              exact absurd ⟨by simpa using hinv, ⟨by rw [hw]; rfl, hh.1, hh.2, hc⟩, ht.1, ht.2⟩ h
          · rw [if_neg ht]
            exact ⟨fun h => absurd ⟨h.2.2.1, h.2.2.2⟩ ht, fun _ => rfl⟩
        · rw [if_neg hc]
          exact ⟨fun h => absurd h.2.1.2.2.2 hc, fun _ => rfl⟩
      · rw [if_neg hh]
        exact ⟨fun h => absurd ⟨h.2.1.2.1, h.2.1.2.2.1⟩ hh, fun _ => rfl⟩

theorem castColumn_of_bounded (a : DrawArgs α) (x0 y0 : Int) (W H : Nat)
    (hOut : ∀ i j : Int, ¬(x0 ≤ i ∧ i < x0 + W ∧ y0 ≤ j ∧ j < y0 + H) →
      (a.query i j).invalid = true)
    (fuel : Nat) (hf : W + H + 1 ≤ fuel) (pass x : Nat) (fr : FrameState α) :
    ∃ r, castColumn a fuel pass x fr = some r := by
  have hx : (castStart a pass x fr).1.step_x = 1 ∨ (castStart a pass x fr).1.step_x = -1 :=
    (castInit_steps a _).1
  have hy : (castStart a pass x fr).1.step_y = 1 ∨ (castStart a pass x fr).1.step_y = -1 :=
    (castInit_steps a _).2
  obtain ⟨c1, c2, c3, c4, c5, c6⟩ := castStep_cases a pass x (castStart a pass x fr).1
    (castStart a pass x fr).2 rfl rfl
  obtain ⟨n, n1, n2, n3, n4, n5, n6⟩ := castSteps_bounded a x0 y0 W H hOut pass x (W + H)
    (castStart a pass x fr).1 (castStart a pass x fr).2 rfl rfl hx hy (fun hv => by
      have h := (cellsAhead_inside a x0 y0 W H hOut _ (c3 ▸ hx) (c4 ▸ hy) hv).2
      exact_mod_cast h)
  obtain ⟨l1, -⟩ := castLoop_eq_castSteps a pass x n (castStart a pass x fr).1
    (castStart a pass x fr).2 n3 n5
  exact ⟨_, (castColumn_eq_castLoop a fuel pass x fr).trans (l1 fuel (by omega))⟩

theorem castPass_of_bounded (a : DrawArgs α) (x0 y0 : Int) (W H : Nat)
    (hOut : ∀ i j : Int, ¬(x0 ≤ i ∧ i < x0 + W ∧ y0 ≤ j ∧ j < y0 + H) →
      (a.query i j).invalid = true)
    (fuel : Nat) (hf : W + H + 1 ≤ fuel) (pass : Nat) (fr : FrameState α) :
    ∃ fr1, castPass a fuel pass fr = some fr1 := by
  unfold castPass
  apply foldlM_some
  intro fr x
  obtain ⟨r, hr⟩ := castColumn_of_bounded a x0 y0 W H hOut fuel hf pass x fr
  exact ⟨_, by rw [hr]; rfl⟩

theorem castPasses_of_bounded (a : DrawArgs α) (x0 y0 : Int) (W H : Nat)
    (hOut : ∀ i j : Int, ¬(x0 ≤ i ∧ i < x0 + W ∧ y0 ≤ j ∧ j < y0 + H) →
      (a.query i j).invalid = true)
    (fuel : Nat) (hf : W + H + 1 ≤ fuel) (fr : FrameState α) :
    ∃ fr1, castPasses a fuel fr = some fr1 := by
  unfold castPasses
  apply foldlM_some
  intro fr pass
  exact castPass_of_bounded a x0 y0 W H hOut fuel hf pass fr

theorem castPasses_eq_some (a : DrawArgs α) (fuel : Nat) (fr0 fr2 : FrameState α) :
    castPasses a fuel fr0 = some fr2 ↔
      ∃ fr1, castPass a fuel WALL_PASS fr0 = some fr1 ∧
        castPass a fuel WALL_SPRITE_PASS fr1 = some fr2 := by
  have hr : List.range N_PASSES = [WALL_PASS, WALL_SPRITE_PASS] := by decide
  unfold castPasses
  rw [hr]
  simp only [List.foldlM_cons, List.foldlM_nil, Option.bind_eq_bind, Option.bind_eq_some,
    Option.pure_def, Option.some.injEq]
  constructor
  · rintro ⟨fr1, h1, fr2b, h2, h3⟩
    subst h3
    exact ⟨fr1, h1, h2⟩
  · rintro ⟨fr1, h1, h2⟩
    exact ⟨fr1, h1, fr2, h2, rfl⟩

theorem castStep_wrong_pass (a : DrawArgs α) (pass x : Nat) (cs : CastState α)
    (fr : FrameState α) (hs : cs.skip_cast = 0)
    (hinv : (a.query (advanceRay (fr.pass_data x) cs).cur_x
      (advanceRay (fr.pass_data x) cs).cur_y).invalid = false)
    (hcp : correctPass pass (a.query (advanceRay (fr.pass_data x) cs).cur_x
      (advanceRay (fr.pass_data x) cs).cur_y) = false) :
    castStep a pass x cs fr = (advanceRay (fr.pass_data x) cs, fr) := by
  have h0 : ¬ (advanceRay (fr.pass_data x) cs).skip_cast > 0 := by
    rw [advanceRay_skip_cast, hs]
    exact lt_irrefl 0
  unfold castStep
  dsimp only
  rw [if_neg h0, hinv]
  simp only [Bool.false_eq_true, if_false, hcp]
  split
  · split_ifs <;> rfl
  · rfl

/-! ### The scene with a wall-sprite in front of a solid wall -/

theorem spriteScene_passData (atan2 : ℝ → ℝ → ℝ) (wall : Image) (inset : ℝ) (screen_h : Nat) :
    (passData (spriteScene atan2 Real.pi Real.sqrt wall inset screen_h) 0).ray_dir_x = -0.66 ∧
    (passData (spriteScene atan2 Real.pi Real.sqrt wall inset screen_h) 0).ray_dir_y = -1 ∧
    (1.81 < (passData (spriteScene atan2 Real.pi Real.sqrt wall inset screen_h) 0).delta_x ∧
      (passData (spriteScene atan2 Real.pi Real.sqrt wall inset screen_h) 0).delta_x < 1.82) ∧
    (1.19 < (passData (spriteScene atan2 Real.pi Real.sqrt wall inset screen_h) 0).delta_y ∧
      (passData (spriteScene atan2 Real.pi Real.sqrt wall inset screen_h) 0).delta_y < 1.2) := by
  have hrx : (passData (spriteScene atan2 Real.pi Real.sqrt wall inset screen_h) 0).ray_dir_x =
      -0.66 := by
    simp only [passData, spriteScene, setCoordinateSystem]
    norm_num
  have hry : (passData (spriteScene atan2 Real.pi Real.sqrt wall inset screen_h) 0).ray_dir_y =
      -1 := by
    simp only [passData, spriteScene, setCoordinateSystem]
    norm_num
  have hdx : (passData (spriteScene atan2 Real.pi Real.sqrt wall inset screen_h) 0).delta_x =
      Real.sqrt (1 + (passData (spriteScene atan2 Real.pi Real.sqrt wall inset screen_h)
        0).ray_dir_y * (passData (spriteScene atan2 Real.pi Real.sqrt wall inset screen_h)
        0).ray_dir_y / ((passData (spriteScene atan2 Real.pi Real.sqrt wall inset screen_h)
        0).ray_dir_x * (passData (spriteScene atan2 Real.pi Real.sqrt wall inset screen_h)
        0).ray_dir_x)) := rfl
  have hdy : (passData (spriteScene atan2 Real.pi Real.sqrt wall inset screen_h) 0).delta_y =
      Real.sqrt (1 + (passData (spriteScene atan2 Real.pi Real.sqrt wall inset screen_h)
        0).ray_dir_x * (passData (spriteScene atan2 Real.pi Real.sqrt wall inset screen_h)
        0).ray_dir_x / ((passData (spriteScene atan2 Real.pi Real.sqrt wall inset screen_h)
        0).ray_dir_y * (passData (spriteScene atan2 Real.pi Real.sqrt wall inset screen_h)
        0).ray_dir_y)) := rfl
  rw [hrx, hry] at hdx hdy
  refine ⟨hrx, hry, ⟨?_, ?_⟩, ⟨?_, ?_⟩⟩
  · rw [hdx, Real.lt_sqrt (by norm_num)]
    norm_num
  · rw [hdx, Real.sqrt_lt' (by norm_num)]
    norm_num
  · rw [hdy, Real.lt_sqrt (by norm_num)]
    norm_num
  · rw [hdy, Real.sqrt_lt' (by norm_num)]
    norm_num

theorem castPass_width_one (a : DrawArgs α) (hw : a.screen_w = 1) (fuel pass : Nat)
    (fr : FrameState α) :
    castPass a fuel pass fr = (castColumn a fuel pass 0 fr).map Prod.snd := by
  have hr : List.range 1 = [0] := by decide
  unfold castPass
  rw [hw, hr]
  simp only [List.foldlM_cons, List.foldlM_nil, Option.bind_eq_bind]
  cases castColumn a fuel pass 0 fr <;> rfl

theorem two_step_solid_hit (a : DrawArgs α) (x fuel : Nat) (fr : FrameState α)
    (c1 c2 : CastState α) (wall : Image) (d : α)
    (h1 : advanceRay (passData a x) (castInit a (passData a x)) = c1)
    (h2 : advanceRay (passData a x) c1 = c2)
    (hc1 : c1.casting = true) (hs1 : c1.skip_cast = 0)
    (q1 : (a.query c1.cur_x c1.cur_y).invalid = false)
    (q2 : correctPass WALL_PASS (a.query c1.cur_x c1.cur_y) = false)
    (q3 : (a.query c2.cur_x c2.cur_y).invalid = false ∧
      (a.query c2.cur_x c2.cur_y).wall = some wall ∧
      (a.query c2.cur_x c2.cur_y).wall_sprite = false ∧
      (a.query c2.cur_x c2.cur_y).x_hidden = false ∧
      (a.query c2.cur_x c2.cur_y).y_hidden = false)
    (hd : wallDist a WALL_PASS (passData a x) { c2 with casting := false } 0 = d) :
    ∃ fr1, castColumn a (fuel + 2) WALL_PASS x fr = some ({ c2 with casting := false }, fr1) ∧
      fr1.pass_data x = { passData a x with wall_distance := d } := by
  have hu : (Function.update fr.pass_data x (passData a x)) x = passData a x :=
    Function.update_same _ _ _
  obtain ⟨q31, q32, q33, q34, q35⟩ := q3
  have hstep1 : castStep a WALL_PASS x (castInit a (passData a x))
      { fr with pass_data := Function.update fr.pass_data x (passData a x) } =
      (c1, { fr with pass_data := Function.update fr.pass_data x (passData a x) }) := by
    have key := castStep_wrong_pass a WALL_PASS x (castInit a (passData a x))
      { fr with pass_data := Function.update fr.pass_data x (passData a x) } rfl
    dsimp only at key
    rw [hu, h1] at key
    exact key q1 q2
  have hstep2 : castStep a WALL_PASS x c1
      { fr with pass_data := Function.update fr.pass_data x (passData a x) } =
      acceptHit a WALL_PASS x c2 (a.query c2.cur_x c2.cur_y) wall
        { fr with pass_data := Function.update fr.pass_data x (passData a x) } := by
    have key := castStep_solid_hit_eq a x c1
      { fr with pass_data := Function.update fr.pass_data x (passData a x) } wall hs1
    dsimp only at key
    rw [hu, h2] at key
    exact key q31 q32 q34 q35 q33
  obtain ⟨f1, f2, -⟩ := acceptHit_wall_pass_slice a x c2 (a.query c2.cur_x c2.cur_y) wall
    { fr with pass_data := Function.update fr.pass_data x (passData a x) } d
    (by dsimp only; rw [hu]; exact hd)
  dsimp only at f2
  rw [hu] at f2
  refine ⟨(acceptHit a WALL_PASS x c2 (a.query c2.cur_x c2.cur_y) wall
    { fr with pass_data := Function.update fr.pass_data x (passData a x) }).2, ?_, f2⟩
  unfold castColumn
  dsimp only
  rw [if_pos rfl]
  dsimp only
  rw [hu, castLoop_succ a WALL_PASS x (fuel + 1) _ _ rfl, hstep1]
  dsimp only
  rw [castLoop_succ a WALL_PASS x fuel _ _ hc1, hstep2, castLoop_done a WALL_PASS x fuel _ _
    (by rw [f1]), f1]

theorem steps_from_centre (a : DrawArgs ℝ) (hpx : a.cam._pos_x = 1.5)
    (hpy : a.cam._pos_y = 1.5) (pd : PassData ℝ) (hx : pd.ray_dir_x < 0) (hy : pd.ray_dir_y < 0)
    (hxy : pd.delta_y < pd.delta_x) (hyx : 0.5 * pd.delta_x < 1.5 * pd.delta_y) :
    advanceRay pd (castInit a pd) =
      { cur_x := 1, cur_y := 0, step_x := -1, step_y := -1, side_dist_x := 0.5 * pd.delta_x,
        side_dist_y := 0.5 * pd.delta_y + pd.delta_y, side := 1, casting := true,
        skip_cast := 0 } ∧
    advanceRay pd
      { cur_x := 1, cur_y := 0, step_x := -1, step_y := -1, side_dist_x := 0.5 * pd.delta_x,
        side_dist_y := 0.5 * pd.delta_y + pd.delta_y, side := 1, casting := true,
        skip_cast := 0 } =
      { cur_x := 0, cur_y := 0, step_x := -1, step_y := -1,
        side_dist_x := 0.5 * pd.delta_x + pd.delta_x,
        side_dist_y := 0.5 * pd.delta_y + pd.delta_y, side := 0, casting := true,
        skip_cast := 0 } := by
  have h0 : castInit a pd =
      { cur_x := 1, cur_y := 1, step_x := -1, step_y := -1, side_dist_x := 0.5 * pd.delta_x,
        side_dist_y := 0.5 * pd.delta_y, side := 0, casting := true, skip_cast := 0 } := by
    unfold castInit
    simp only [hpx, hpy, toInt_three_halves, if_pos hx, if_pos hy]
    norm_num
  constructor
  · rw [h0]
    unfold advanceRay
    dsimp only
    rw [if_neg (by linarith)]
    rfl
  · unfold advanceRay
    dsimp only
    rw [if_pos (by linarith)]
    rfl

theorem castStep_cell (a : DrawArgs α) (pass x : Nat) (cs : CastState α) (fr : FrameState α)
    (hs : cs.skip_cast = 0) :
    (castStep a pass x cs fr).1.cur_x = (advanceRay (fr.pass_data x) cs).cur_x ∧
    (castStep a pass x cs fr).1.cur_y = (advanceRay (fr.pass_data x) cs).cur_y ∧
    (castStep a pass x cs fr).1.side = (advanceRay (fr.pass_data x) cs).side ∧
    (castStep a pass x cs fr).1.step_x = (advanceRay (fr.pass_data x) cs).step_x ∧
    (castStep a pass x cs fr).1.step_y = (advanceRay (fr.pass_data x) cs).step_y := by
  obtain ⟨k1, k2⟩ := castStep_fst a pass x cs fr hs
  by_cases he : castEnds a pass (advanceRay (fr.pass_data x) cs)
  · rw [k1 he]
    exact ⟨rfl, rfl, rfl, rfl, rfl⟩
  · rw [k2 he]
    exact ⟨rfl, rfl, rfl, rfl, rfl⟩

theorem spriteMap_outside (wall : Image) (inset : α) (i j : Int)
    (h : ¬(0 ≤ i ∧ i < 0 + ((2 : Nat) : Int) ∧ 0 ≤ j ∧ j < 0 + ((2 : Nat) : Int))) :
    (spriteMap wall inset i j).invalid = true := by
  have h1 : ¬(i = 1 ∧ j = 1) := by omega
  have h2 : ¬(i = 1 ∧ j = 0) := by omega
  have h3 : ¬(i = 0 ∧ j = 0) := by omega
  simp only [spriteMap, if_neg h1, if_neg h2, if_neg h3]
  rfl

theorem spriteScene_solid_pass (atan2 : ℝ → ℝ → ℝ) (wall : Image) (inset : ℝ)
    (screen_h fuel : Nat) (fr fr1 : FrameState ℝ)
    (h : castPass (spriteScene atan2 Real.pi Real.sqrt wall inset screen_h) (fuel + 2) WALL_PASS
      fr = some fr1) :
    fr1.pass_data 0 =
      { passData (spriteScene atan2 Real.pi Real.sqrt wall inset screen_h) 0 with
        wall_distance := 0.5 / 0.66 } := by
  obtain ⟨hrx, hry, ⟨dx1, dx2⟩, ⟨dy1, dy2⟩⟩ := spriteScene_passData atan2 wall inset screen_h
  obtain ⟨e1, e2⟩ := steps_from_centre (spriteScene atan2 Real.pi Real.sqrt wall inset screen_h)
    rfl rfl (passData (spriteScene atan2 Real.pi Real.sqrt wall inset screen_h) 0)
    (by rw [hrx]; norm_num) (by rw [hry]; norm_num) (by linarith) (by linarith)
  have htd : ((1 - (-1) : Int).tdiv 2) = 1 := by decide
  obtain ⟨fr1b, k1, k2⟩ := two_step_solid_hit
    (spriteScene atan2 Real.pi Real.sqrt wall inset screen_h) 0 fuel fr _ _ wall (0.5 / 0.66)
    e1 e2 rfl rfl
    (by simp [spriteScene, spriteMap, outOfBounds])
    (by simp [spriteScene, spriteMap, outOfBounds, correctPass])
    (by simp [spriteScene, spriteMap, outOfBounds])
    (by
      unfold wallDist
      simp only [if_true, htd, hrx]
      norm_num [spriteScene, setCoordinateSystem, setCameraPosition])
  rw [castPass_width_one _ rfl, k1] at h
  simp only [Option.map_some', Option.some.injEq] at h
  rw [← h]
  exact k2

theorem spriteScene_first_sprite_iteration (atan2 : ℝ → ℝ → ℝ) (wall : Image) (inset : ℝ)
    (screen_h : Nat) (fr1 : FrameState ℝ)
    (h : fr1.pass_data 0 =
      { passData (spriteScene atan2 Real.pi Real.sqrt wall inset screen_h) 0 with
        wall_distance := 0.5 / 0.66 }) :
    (castSteps (spriteScene atan2 Real.pi Real.sqrt wall inset screen_h) WALL_SPRITE_PASS 0 1
      (castInit (spriteScene atan2 Real.pi Real.sqrt wall inset screen_h) (fr1.pass_data 0))
      fr1).1.cur_x = 1 ∧
    (castSteps (spriteScene atan2 Real.pi Real.sqrt wall inset screen_h) WALL_SPRITE_PASS 0 1
      (castInit (spriteScene atan2 Real.pi Real.sqrt wall inset screen_h) (fr1.pass_data 0))
      fr1).1.cur_y = 0 ∧
    hitAccepted WALL_SPRITE_PASS
      (castSteps (spriteScene atan2 Real.pi Real.sqrt wall inset screen_h) WALL_SPRITE_PASS 0 1
        (castInit (spriteScene atan2 Real.pi Real.sqrt wall inset screen_h) (fr1.pass_data 0))
        fr1).1 (spriteMap wall inset 1 0) ∧
    insetDistance (spriteScene atan2 Real.pi Real.sqrt wall inset screen_h) (fr1.pass_data 0)
      (castSteps (spriteScene atan2 Real.pi Real.sqrt wall inset screen_h) WALL_SPRITE_PASS 0 1
        (castInit (spriteScene atan2 Real.pi Real.sqrt wall inset screen_h) (fr1.pass_data 0))
        fr1).1 inset = 0.5 + inset ∧
    (fr1.pass_data 0).wall_distance = 0.5 / 0.66 := by
  obtain ⟨hrx, hry, ⟨dx1, dx2⟩, ⟨dy1, dy2⟩⟩ := spriteScene_passData atan2 wall inset screen_h
  have hx' : (fr1.pass_data 0).ray_dir_x = -0.66 := by rw [h]; exact hrx
  have hy' : (fr1.pass_data 0).ray_dir_y = -1 := by rw [h]; exact hry
  have hdx : (fr1.pass_data 0).delta_x =
      (passData (spriteScene atan2 Real.pi Real.sqrt wall inset screen_h) 0).delta_x := by
    rw [h]
  have hdy : (fr1.pass_data 0).delta_y =
      (passData (spriteScene atan2 Real.pi Real.sqrt wall inset screen_h) 0).delta_y := by
    rw [h]
  obtain ⟨e1, -⟩ := steps_from_centre (spriteScene atan2 Real.pi Real.sqrt wall inset screen_h)
    rfl rfl (fr1.pass_data 0) (by rw [hx']; norm_num) (by rw [hy']; norm_num)
    (by rw [hdx, hdy]; linarith) (by rw [hdx, hdy]; linarith)
  obtain ⟨c1, c2, c3, c4, c5⟩ := castStep_cell
    (spriteScene atan2 Real.pi Real.sqrt wall inset screen_h) WALL_SPRITE_PASS 0
    (castInit (spriteScene atan2 Real.pi Real.sqrt wall inset screen_h) (fr1.pass_data 0)) fr1 rfl
  rw [e1] at c1 c2 c3 c4 c5
  have hs : castSteps (spriteScene atan2 Real.pi Real.sqrt wall inset screen_h) WALL_SPRITE_PASS
      0 1 (castInit (spriteScene atan2 Real.pi Real.sqrt wall inset screen_h) (fr1.pass_data 0))
      fr1 = castStep (spriteScene atan2 Real.pi Real.sqrt wall inset screen_h) WALL_SPRITE_PASS 0
      (castInit (spriteScene atan2 Real.pi Real.sqrt wall inset screen_h) (fr1.pass_data 0))
      fr1 := rfl
  rw [hs]
  have htd : ((1 - (-1) : Int).tdiv 2) = 1 := by decide
  refine ⟨c1, c2, ?_, ?_, by rw [h]⟩
  · unfold hitAccepted
    rw [c3]
    simp [spriteMap, outOfBounds, correctPass]
  · unfold insetDistance
    rw [c3, c2, c5, hy']
    simp only [htd]
    norm_num [spriteScene, setCoordinateSystem, setCameraPosition]
    ring

/-- C10: when the two passes end, the wall-sprite pass has left the distance
buffer exactly as the solid-wall pass recorded it, every slice it drew is a
wall-sprite slice whose distance is at most the solid-wall distance recorded
for its column, and each iteration of each of its casts (from a frame holding
the recorded distances) draws exactly this: when the cell it reaches is valid
and an accepted wall-sprite hit whose inset-adjusted distance `dist` is at most
the recorded distance of the column (and the slice is higher than 1), one slice
of that cell's wall at distance `dist` and depth -100 - dist * 0.05; otherwise
nothing. -/
theorem wall_sprite_pass_occluded (a : DrawArgs α) (fuel : Nat) (fr0 fr2 : FrameState α)
    (h : castPasses a fuel fr0 = some fr2) :
    ∃ fr1, castPass a fuel WALL_PASS fr0 = some fr1 ∧
      castPass a fuel WALL_SPRITE_PASS fr1 = some fr2 ∧
      fr2.pass_data = fr1.pass_data ∧
      (∃ new, fr2.calls = fr1.calls ++ new ∧
        ∀ d ∈ new, ∃ x wall_dist texture texX x1 y1 x2 y2 color_scaled z,
          d = DrawCall.wallSlice WALL_SPRITE_PASS x wall_dist texture texX x1 y1 x2 y2
            color_scaled z ∧
          wall_dist ≤ (fr1.pass_data x).wall_distance) ∧
      ∀ (x j : Nat) (fr : FrameState α) (s s' : CastState α × FrameState α)
        (response : MapData α) (dist : α),
        fr.pass_data = fr1.pass_data →
        s = castSteps a WALL_SPRITE_PASS x j (castInit a (fr.pass_data x)) fr →
        s' = castSteps a WALL_SPRITE_PASS x (j + 1) (castInit a (fr.pass_data x)) fr →
        response = a.query s'.1.cur_x s'.1.cur_y →
        dist = insetDistance a (fr1.pass_data x) s'.1 response.inset_amount →
        s'.2.pass_data = fr1.pass_data ∧
        (response.invalid = false ∧ hitAccepted WALL_SPRITE_PASS s'.1 response ∧
            dist ≤ (fr1.pass_data x).wall_distance ∧ lineHeight a dist > 1 →
          ∃ wall t x1 y1 x2 y2 color_scaled,
            response.wall = some wall ∧
            s'.2.calls = s.2.calls ++
              [DrawCall.wallSlice WALL_SPRITE_PASS x dist wall t x1 y1 x2 y2 color_scaled
                (-100 - dist * 0.05)]) ∧
        (¬ (response.invalid = false ∧ hitAccepted WALL_SPRITE_PASS s'.1 response ∧
            dist ≤ (fr1.pass_data x).wall_distance ∧ lineHeight a dist > 1) →
          s'.2.calls = s.2.calls) := by
  obtain ⟨fr1, h1, h2⟩ := (castPasses_eq_some a fuel fr0 fr2).mp h
  have h3 := h2
  unfold castPass at h3
  obtain ⟨k1, k2⟩ := castColumns_sprite_pass a fuel _ fr1 _ h3
  refine ⟨fr1, h1, h2, k1, k2, ?_⟩
  intro x j fr s s' response dist hpd hs hs' hresp hdist
  obtain ⟨i1, i2⟩ := castSteps_sprite_pass a x fr j
  obtain ⟨i3, i4⟩ := castSteps_sprite_pass a x fr (j + 1)
  have key := castStep_sprite_pass_calls a x
    (castSteps a WALL_SPRITE_PASS x j (castInit a (fr.pass_data x)) fr).1
    (castSteps a WALL_SPRITE_PASS x j (castInit a (fr.pass_data x)) fr).2 i1
  rw [← castSteps_succ, i2, ← hs, ← hs', hpd, ← hresp, ← hdist] at key
  refine ⟨?_, key.1, key.2⟩
  rw [hs', i4, hpd]

/-- Witness for C10: in `spriteScene` (window 1 x 4, texture 8 x 8) the
solid-wall pass records the distance 0.5 / 0.66 of the wall in cell (0, 0) for
column 0, and the first iteration of the wall-sprite pass reaches the
wall-sprite of cell (1, 0).  With inset 0.25 its inset-adjusted distance 0.75
is below the recorded distance and its slice is drawn at distance 0.75; with
inset 0.5 the distance 1 is beyond the recorded distance and nothing is drawn. -/
theorem wall_sprite_pass_occluded_witness :
    (∃ fr1 fr2 : FrameState ℝ,
      castPasses (spriteScene (fun y x => Complex.arg ⟨x, y⟩) Real.pi Real.sqrt ⟨8, 8⟩ 0.25 4) 5
        emptyFrame = some fr2 ∧
      castPass (spriteScene (fun y x => Complex.arg ⟨x, y⟩) Real.pi Real.sqrt ⟨8, 8⟩ 0.25 4) 5
        WALL_PASS emptyFrame = some fr1 ∧
      (fr1.pass_data 0).wall_distance = 0.5 / 0.66 ∧
      fr2.pass_data = fr1.pass_data ∧
      ∃ t x1 y1 x2 y2 color_scaled,
        (castSteps (spriteScene (fun y x => Complex.arg ⟨x, y⟩) Real.pi Real.sqrt ⟨8, 8⟩ 0.25 4)
          WALL_SPRITE_PASS 0 1
          (castInit (spriteScene (fun y x => Complex.arg ⟨x, y⟩) Real.pi Real.sqrt ⟨8, 8⟩ 0.25 4)
            (fr1.pass_data 0)) fr1).2.calls =
        fr1.calls ++
          [DrawCall.wallSlice WALL_SPRITE_PASS 0 (0.5 + 0.25) ⟨8, 8⟩ t x1 y1 x2 y2
            color_scaled (-100 - (0.5 + 0.25) * 0.05)]) ∧
    (∃ fr1 fr2 : FrameState ℝ,
      castPasses (spriteScene (fun y x => Complex.arg ⟨x, y⟩) Real.pi Real.sqrt ⟨8, 8⟩ 0.5 4) 5
        emptyFrame = some fr2 ∧
      castPass (spriteScene (fun y x => Complex.arg ⟨x, y⟩) Real.pi Real.sqrt ⟨8, 8⟩ 0.5 4) 5
        WALL_PASS emptyFrame = some fr1 ∧
      (fr1.pass_data 0).wall_distance = 0.5 / 0.66 ∧
      fr2.pass_data = fr1.pass_data ∧
      (castSteps (spriteScene (fun y x => Complex.arg ⟨x, y⟩) Real.pi Real.sqrt ⟨8, 8⟩ 0.5 4)
        WALL_SPRITE_PASS 0 1
        (castInit (spriteScene (fun y x => Complex.arg ⟨x, y⟩) Real.pi Real.sqrt ⟨8, 8⟩ 0.5 4)
          (fr1.pass_data 0)) fr1).2.calls = fr1.calls) := by
  constructor
  · obtain ⟨fr2, h⟩ := castPasses_of_bounded
      (spriteScene (fun y x => Complex.arg ⟨x, y⟩) Real.pi Real.sqrt ⟨8, 8⟩ 0.25 4) 0 0 2 2
      (fun i j hij => spriteMap_outside _ _ i j hij) 5 (by norm_num) emptyFrame
    obtain ⟨fr1, h1, h2, h3, -, h5⟩ := wall_sprite_pass_occluded _ _ _ _ h
    have hpd := spriteScene_solid_pass _ _ _ _ 3 _ _ h1
    obtain ⟨e1, e2, e3, e4, e5⟩ := spriteScene_first_sprite_iteration _ _ _ _ fr1 hpd
    obtain ⟨-, k2, -⟩ := h5 0 0 fr1 _ _ _ _ rfl rfl rfl rfl rfl
    rw [e1, e2] at k2
    have hq : (spriteScene (fun y x => Complex.arg ⟨x, y⟩) Real.pi Real.sqrt ⟨8, 8⟩ 0.25
        4).query 1 0 = spriteMap ⟨8, 8⟩ 0.25 1 0 := rfl
    have hi : (spriteMap (⟨8, 8⟩ : Image) (0.25 : ℝ) 1 0).inset_amount = 0.25 := by
      simp [spriteMap, outOfBounds]
    rw [hq, hi, e4, e5] at k2
    obtain ⟨wall, t, x1, y1, x2, y2, c, w1, w2⟩ := k2
      ⟨by simp [spriteMap, outOfBounds], e3, by norm_num,
        by norm_num [lineHeight, spriteScene]⟩
    have hw : wall = ⟨8, 8⟩ := by
      have w3 : (spriteMap (⟨8, 8⟩ : Image) (0.25 : ℝ) 1 0).wall = some ⟨8, 8⟩ := by
        simp [spriteMap, outOfBounds]
      rw [w3] at w1
      exact (Option.some.inj w1).symm
    subst hw
    exact ⟨fr1, fr2, h, h1, e5, h3, t, x1, y1, x2, y2, c, w2⟩
  · obtain ⟨fr2, h⟩ := castPasses_of_bounded
      (spriteScene (fun y x => Complex.arg ⟨x, y⟩) Real.pi Real.sqrt ⟨8, 8⟩ 0.5 4) 0 0 2 2
      (fun i j hij => spriteMap_outside _ _ i j hij) 5 (by norm_num) emptyFrame
    obtain ⟨fr1, h1, h2, h3, -, h5⟩ := wall_sprite_pass_occluded _ _ _ _ h
    have hpd := spriteScene_solid_pass _ _ _ _ 3 _ _ h1
    obtain ⟨e1, e2, e3, e4, e5⟩ := spriteScene_first_sprite_iteration _ _ _ _ fr1 hpd
    obtain ⟨-, -, k3⟩ := h5 0 0 fr1 _ _ _ _ rfl rfl rfl rfl rfl
    rw [e1, e2] at k3
    have hq : (spriteScene (fun y x => Complex.arg ⟨x, y⟩) Real.pi Real.sqrt ⟨8, 8⟩ 0.5
        4).query 1 0 = spriteMap ⟨8, 8⟩ 0.5 1 0 := rfl
    have hi : (spriteMap (⟨8, 8⟩ : Image) (0.5 : ℝ) 1 0).inset_amount = 0.5 := by
      simp [spriteMap, outOfBounds]
    rw [hq, hi, e4, e5] at k3
    exact ⟨fr1, fr2, h, h1, e5, h3, k3 (fun hc => by
      have := hc.2.2.1
      norm_num at this)⟩

/-! ### The pixels written during a frame -/

theorem floorCeilingRow_eq (a : DrawArgs α) (x : Nat) (wall_dist floorXWall floorYWall : α)
    (y : Int) :
    ∃ pf pc : Color, ∀ bmp : Bitmap,
      floorCeilingRow a x wall_dist floorXWall floorYWall bmp y =
        if 0 ≤ (a.screen_h : Int) + cameraPitch a - y ∧
            (a.screen_h : Int) + cameraPitch a - y < a.screen_h then
          (if 0 ≤ y + cameraPitch a ∧ y + cameraPitch a < a.screen_h then
              bmp.setPixel x (y + cameraPitch a).toNat pf
            else bmp).setPixel x ((a.screen_h : Int) + cameraPitch a - y).toNat pc
        else
          if 0 ≤ y + cameraPitch a ∧ y + cameraPitch a < a.screen_h then
            bmp.setPixel x (y + cameraPitch a).toNat pf
          else bmp := by
  unfold floorCeilingRow
  dsimp only
  generalize floorSample a wall_dist floorXWall floorYWall y = response
  rcases response.floor with _ | floor <;> rcases response.ceiling with _ | ceiling <;>
    exact ⟨_, _, fun bmp => rfl⟩

theorem floorCeilingRow_pixels (a : DrawArgs α) (x : Nat) (wall_dist floorXWall floorYWall : α)
    (y : Int) :
    (∀ bmp : Bitmap,
      (floorCeilingRow a x wall_dist floorXWall floorYWall bmp y).w = bmp.w ∧
      (floorCeilingRow a x wall_dist floorXWall floorYWall bmp y).h = bmp.h) ∧
    (∀ (bmp : Bitmap) (i j : Nat), ¬(i = x ∧ RowWrites a y j) →
      (floorCeilingRow a x wall_dist floorXWall floorYWall bmp y).pixels i j = bmp.pixels i j) ∧
    (∀ (c1 c2 : Bitmap) (i j : Nat), i = x ∧ RowWrites a y j →
      (floorCeilingRow a x wall_dist floorXWall floorYWall c1 y).pixels i j =
        (floorCeilingRow a x wall_dist floorXWall floorYWall c2 y).pixels i j) := by
  obtain ⟨pf, pc, h⟩ := floorCeilingRow_eq a x wall_dist floorXWall floorYWall y
  unfold RowWrites
  generalize cameraPitch a = p at h ⊢
  refine ⟨fun bmp => ?_, fun bmp i j hn => ?_, fun c1 c2 i j hw => ?_⟩
  · rw [h]
    split_ifs <;> exact ⟨rfl, rfl⟩
  · rw [h]
    split_ifs <;> (try simp only [Bitmap.setPixel]) <;> (try split_ifs) <;>
      first
      | rfl
      | (exfalso; apply hn; omega)
  · rw [h, h]
    split_ifs <;> (try simp only [Bitmap.setPixel]) <;> (try split_ifs) <;>
      first
      | rfl
      | (exfalso; omega)

theorem floorRows_foldl_pixels (a : DrawArgs α) (x : Nat) (wall_dist floorXWall floorYWall : α)
    (rows : List Int) :
    (∀ bmp : Bitmap,
      (rows.foldl (floorCeilingRow a x wall_dist floorXWall floorYWall) bmp).w = bmp.w ∧
      (rows.foldl (floorCeilingRow a x wall_dist floorXWall floorYWall) bmp).h = bmp.h) ∧
    (∀ (bmp : Bitmap) (i j : Nat), (∀ y ∈ rows, ¬(i = x ∧ RowWrites a y j)) →
      (rows.foldl (floorCeilingRow a x wall_dist floorXWall floorYWall) bmp).pixels i j =
        bmp.pixels i j) ∧
    (∀ (c1 c2 : Bitmap) (i j : Nat), c1.pixels i j = c2.pixels i j →
      (rows.foldl (floorCeilingRow a x wall_dist floorXWall floorYWall) c1).pixels i j =
        (rows.foldl (floorCeilingRow a x wall_dist floorXWall floorYWall) c2).pixels i j) ∧
    (∀ (c1 c2 : Bitmap) (i j : Nat), (∃ y ∈ rows, i = x ∧ RowWrites a y j) →
      (rows.foldl (floorCeilingRow a x wall_dist floorXWall floorYWall) c1).pixels i j =
        (rows.foldl (floorCeilingRow a x wall_dist floorXWall floorYWall) c2).pixels i j) := by
  induction rows with
  | nil =>
    refine ⟨fun bmp => ⟨rfl, rfl⟩, fun bmp i j _ => rfl, fun c1 c2 i j h => h, ?_⟩
    rintro c1 c2 i j ⟨y, hy, -⟩
    exact absurd hy (List.not_mem_nil _)
  | cons y rows ih =>
    obtain ⟨i1, i2, i3, i4⟩ := ih
    obtain ⟨r1, r2, r3⟩ := floorCeilingRow_pixels a x wall_dist floorXWall floorYWall y
    have hequal : ∀ (c1 c2 : Bitmap) (i j : Nat), c1.pixels i j = c2.pixels i j →
        (floorCeilingRow a x wall_dist floorXWall floorYWall c1 y).pixels i j =
          (floorCeilingRow a x wall_dist floorXWall floorYWall c2 y).pixels i j := by
      intro c1 c2 i j h
      by_cases hw : i = x ∧ RowWrites a y j
      · exact r3 c1 c2 i j hw
      · rw [r2 c1 i j hw, r2 c2 i j hw, h]
    refine ⟨fun bmp => ?_, fun bmp i j h => ?_, fun c1 c2 i j h => ?_, ?_⟩
    · rw [List.foldl_cons]
      exact ⟨(i1 _).1.trans (r1 bmp).1, (i1 _).2.trans (r1 bmp).2⟩
    · rw [List.foldl_cons, i2 _ i j (fun y' hy' => h y' (List.mem_cons_of_mem _ hy')),
        r2 bmp i j (h y (List.mem_cons_self _ _))]
    · rw [List.foldl_cons, List.foldl_cons]
      exact i3 _ _ i j (hequal c1 c2 i j h)
    · rintro c1 c2 i j ⟨y', hy', hw⟩
      rw [List.foldl_cons, List.foldl_cons]
      rcases List.mem_cons.mp hy' with e | hmem
      · subst e
        exact i3 _ _ i j (r3 c1 c2 i j hw)
      · exact i4 _ _ i j ⟨y', hmem, hw⟩

theorem Sampled_append_slice (a : DrawArgs α) (calls : List (DrawCall α)) (pass x : Nat)
    (wall_dist : α) (texture : Image) (texX x1 y1 x2 y2 color_scaled : Int) (z : α)
    (i j : Nat) :
    Sampled a (calls ++
        [DrawCall.wallSlice pass x wall_dist texture texX x1 y1 x2 y2 color_scaled z]) i j ↔
      Sampled a calls i j ∨
        (pass = WALL_PASS ∧ i = x ∧ ∃ y ∈ floorRows a y2, RowWrites a y j) := by
  unfold Sampled
  constructor
  · rintro ⟨wd, tex, tX, a1, b1, a2, b2, col, z', y, hmem, hy, hw⟩
    rw [List.mem_append, List.mem_singleton] at hmem
    rcases hmem with hmem | he
    · exact Or.inl ⟨wd, tex, tX, a1, b1, a2, b2, col, z', y, hmem, hy, hw⟩
    · injection he with e1 e2 e3 e4 e5 e6 e7 e8 e9 e10 e11
      subst e9
      exact Or.inr ⟨e1.symm, e2, y, hy, hw⟩
  · rintro (⟨wd, tex, tX, a1, b1, a2, b2, col, z', y, hmem, hy, hw⟩ | ⟨hp, hi, y, hy, hw⟩)
    · exact ⟨wd, tex, tX, a1, b1, a2, b2, col, z', y, List.mem_append_left _ hmem, hy, hw⟩
    · subst hp
      subst hi
      exact ⟨_, _, _, _, _, _, _, _, _, y,
        List.mem_append_right _ (List.mem_singleton_self _), hy, hw⟩

theorem FrameWrites.cases {a : DrawArgs α} {B1 B2 : Bitmap} {fr1 fr2 : FrameState α}
    (h : FrameWrites a B1 B2 fr1 fr2) :
    ∃ pd calls c1 c2, fr1 = ⟨pd, calls, c1⟩ ∧ fr2 = ⟨pd, calls, c2⟩ ∧
      PixelsRel a B1 B2 calls c1 c2 := by
  obtain ⟨pd1, calls1, c1⟩ := fr1
  obtain ⟨pd2, calls2, c2⟩ := fr2
  obtain ⟨hpd, hcalls, hcf⟩ := h
  dsimp only at hpd hcalls hcf
  subst hpd
  subst hcalls
  exact ⟨_, _, _, _, rfl, rfl, hcf⟩

theorem drawSlice_writes (a : DrawArgs α) (pass x : Nat) (cs : CastState α)
    (response : MapData α) (wall : Image) (wall_dist line_height : α) {B1 B2 : Bitmap}
    {fr1 fr2 : FrameState α} (h : FrameWrites a B1 B2 fr1 fr2) :
    FrameWrites a B1 B2 (drawSlice a pass x cs response wall wall_dist line_height fr1)
      (drawSlice a pass x cs response wall wall_dist line_height fr2) := by
  obtain ⟨pd, calls, c1, c2, rfl, rfl, hw, hh, hpx⟩ := h.cases
  unfold drawSlice
  dsimp only
  by_cases hp : pass = WALL_PASS
  · rw [if_pos hp, if_pos hp]
    obtain ⟨f1, f2, f3, f4⟩ := floorRows_foldl_pixels a x wall_dist
      (floorWall (pd x) cs (wallX a pass (pd x) cs response wall_dist)).1
      (floorWall (pd x) cs (wallX a pass (pd x) cs response wall_dist)).2
      (floorRows a (sliceY2 a line_height))
    refine ⟨rfl, rfl, ?_, ?_, fun i j => ⟨fun hs => ?_, fun hs => ?_⟩⟩
    · exact ((f1 c1).1.trans hw).trans (f1 c2).1.symm
    · exact ((f1 c1).2.trans hh).trans (f1 c2).2.symm
    · rcases (Sampled_append_slice a calls pass x _ _ _ _ _ _ _ _ _ i j).mp hs with
        h1 | ⟨-, hi, y, hy, hr⟩
      · exact f3 c1 c2 i j ((hpx i j).1 h1)
      · exact f4 c1 c2 i j ⟨y, hy, hi, hr⟩
    · have hn : ¬ Sampled a calls i j :=
        fun h1 => hs ((Sampled_append_slice a calls pass x _ _ _ _ _ _ _ _ _ i j).mpr (Or.inl h1))
      have hrows : ∀ y ∈ floorRows a (sliceY2 a line_height), ¬(i = x ∧ RowWrites a y j) :=
        fun y hy hr => hs ((Sampled_append_slice a calls pass x _ _ _ _ _ _ _ _ _ i j).mpr
          (Or.inr ⟨hp, hr.1, y, hy, hr.2⟩))
      exact ⟨(f2 c1 i j hrows).trans ((hpx i j).2 hn).1,
        (f2 c2 i j hrows).trans ((hpx i j).2 hn).2⟩
  · rw [if_neg hp, if_neg hp]
    refine ⟨rfl, rfl, hw, hh, fun i j => ⟨fun hs => ?_, fun hs => ?_⟩⟩
    · rcases (Sampled_append_slice a calls pass x _ _ _ _ _ _ _ _ _ i j).mp hs with
        h1 | ⟨h1, -⟩
      · exact (hpx i j).1 h1
      · exact absurd h1 hp
    · exact (hpx i j).2
        (fun h1 => hs ((Sampled_append_slice a calls pass x _ _ _ _ _ _ _ _ _ i j).mpr
          (Or.inl h1)))

theorem acceptHit_writes (a : DrawArgs α) (pass x : Nat) (cs : CastState α)
    (response : MapData α) (wall : Image) {B1 B2 : Bitmap}
    {fr1 fr2 : FrameState α} (h : FrameWrites a B1 B2 fr1 fr2) :
    (acceptHit a pass x cs response wall fr1).1 = (acceptHit a pass x cs response wall fr2).1 ∧
    FrameWrites a B1 B2 (acceptHit a pass x cs response wall fr1).2
      (acceptHit a pass x cs response wall fr2).2 := by
  obtain ⟨pd, calls, c1, c2, rfl, rfl, hcf⟩ := h.cases
  unfold acceptHit
  dsimp only
  by_cases hp : pass = WALL_PASS
  · simp only [if_pos hp]
    split_ifs
    · exact ⟨rfl, drawSlice_writes a pass x _ response wall _ _ ⟨rfl, rfl, hcf⟩⟩
    · exact ⟨rfl, rfl, rfl, hcf⟩
  · simp only [if_neg hp]
    split_ifs
    · exact ⟨rfl, drawSlice_writes a pass x _ response wall _ _ ⟨rfl, rfl, hcf⟩⟩
    · exact ⟨rfl, rfl, rfl, hcf⟩

theorem castStep_writes (a : DrawArgs α) (pass x : Nat) (cs : CastState α) {B1 B2 : Bitmap}
    {fr1 fr2 : FrameState α} (h : FrameWrites a B1 B2 fr1 fr2) :
    (castStep a pass x cs fr1).1 = (castStep a pass x cs fr2).1 ∧
    FrameWrites a B1 B2 (castStep a pass x cs fr1).2 (castStep a pass x cs fr2).2 := by
  obtain ⟨pd, calls, c1, c2, rfl, rfl, hcf⟩ := h.cases
  unfold castStep
  dsimp only
  split_ifs <;> (try split) <;>
    first
    | exact ⟨rfl, rfl, rfl, hcf⟩
    | exact acceptHit_writes a pass x _ _ _ ⟨rfl, rfl, hcf⟩

theorem castLoop_writes (a : DrawArgs α) (pass x fuel : Nat) {B1 B2 : Bitmap} :
    ∀ (cs : CastState α) {fr1 fr2 : FrameState α}, FrameWrites a B1 B2 fr1 fr2 →
      ∀ r1, castLoop a pass x fuel cs fr1 = some r1 →
        ∃ r2, castLoop a pass x fuel cs fr2 = some r2 ∧ FrameWrites a B1 B2 r1.2 r2.2 := by
  induction fuel with
  | zero =>
    intro cs fr1 fr2 h r1 h1
    cases hc : cs.casting with
    | false =>
      rw [castLoop_done _ _ _ _ _ _ hc] at h1 ⊢
      cases h1
      exact ⟨_, rfl, h⟩
    | true =>
      rw [castLoop_zero _ _ _ _ _ hc] at h1
      cases h1
  | succ fuel ih =>
    intro cs fr1 fr2 h r1 h1
    cases hc : cs.casting with
    | false =>
      rw [castLoop_done _ _ _ _ _ _ hc] at h1 ⊢
      cases h1
      exact ⟨_, rfl, h⟩
    | true =>
      rw [castLoop_succ _ _ _ _ _ _ hc] at h1 ⊢
      obtain ⟨e, hrel⟩ := castStep_writes a pass x cs h
      rw [← e]
      exact ih _ hrel r1 h1

theorem castColumns_writes (a : DrawArgs α) (pass fuel : Nat) {B1 B2 : Bitmap} (xs : List Nat) :
    ∀ {fr1 fr2 : FrameState α}, FrameWrites a B1 B2 fr1 fr2 →
      ∀ r1, xs.foldlM (fun fr x => (castColumn a fuel pass x fr).map Prod.snd) fr1 = some r1 →
        ∃ r2, xs.foldlM (fun fr x => (castColumn a fuel pass x fr).map Prod.snd) fr2 = some r2 ∧
          FrameWrites a B1 B2 r1 r2 := by
  induction xs with
  | nil =>
    intro fr1 fr2 h r1 h1
    simp only [List.foldlM_nil, Option.pure_def, Option.some.injEq] at h1
    subst h1
    exact ⟨fr2, rfl, h⟩
  | cons x xs ih =>
    intro fr1 fr2 h r1 h1
    simp only [List.foldlM_cons, Option.bind_eq_bind, Option.bind_eq_some, Option.map_eq_some']
      at h1
    obtain ⟨m1, ⟨r, hr, hr2⟩, hrest⟩ := h1
    subst hr2
    have hcol : ∃ m2, (castColumn a fuel pass x fr2).map Prod.snd = some m2 ∧
        FrameWrites a B1 B2 r.2 m2 := by
      obtain ⟨pd, calls, c1, c2, rfl, rfl, hcf⟩ := h.cases
      unfold castColumn at hr ⊢
      dsimp only at hr ⊢
      split_ifs at hr ⊢
      · obtain ⟨r2, h2, hrel⟩ := castLoop_writes a pass x fuel _
          (⟨rfl, rfl, hcf⟩ : FrameWrites a B1 B2
          ⟨Function.update pd x (passData a x), calls, c1⟩
          ⟨Function.update pd x (passData a x), calls, c2⟩) r hr
        exact ⟨r2.2, by rw [h2]; rfl, hrel⟩
      · obtain ⟨r2, h2, hrel⟩ := castLoop_writes a pass x fuel _
          (⟨rfl, rfl, hcf⟩ : FrameWrites a B1 B2 ⟨pd, calls, c1⟩ ⟨pd, calls, c2⟩) r hr
        exact ⟨r2.2, by rw [h2]; rfl, hrel⟩
    obtain ⟨m2, hm2, hrel⟩ := hcol
    obtain ⟨r2, h2, hrel2⟩ := ih hrel r1 hrest
    refine ⟨r2, ?_, hrel2⟩
    rw [List.foldlM_cons, hm2]
    exact h2

theorem castPasses_writes (a : DrawArgs α) (fuel : Nat) {B1 B2 : Bitmap}
    {fr1 fr2 : FrameState α} (h : FrameWrites a B1 B2 fr1 fr2) (r1 : FrameState α)
    (h1 : castPasses a fuel fr1 = some r1) :
    ∃ r2, castPasses a fuel fr2 = some r2 ∧ FrameWrites a B1 B2 r1 r2 := by
  obtain ⟨m1, hm1, hm1b⟩ := (castPasses_eq_some a fuel fr1 r1).mp h1
  obtain ⟨m2, hm2, hrel⟩ := castColumns_writes a WALL_PASS fuel _ h m1 hm1
  obtain ⟨r2, hr2, hrel2⟩ := castColumns_writes a WALL_SPRITE_PASS fuel _ hrel r1 hm1b
  exact ⟨r2, (castPasses_eq_some a fuel fr2 r2).mpr ⟨m2, hm2, hr2⟩, hrel2⟩

theorem mem_drawSprites (a : DrawArgs α) (pass_data : Nat → PassData α)
    (sprites : List (Sprite α)) (d : DrawCall α) (h : d ∈ drawSprites a pass_data sprites) :
    ∃ sprite stripe srcX x1 y1 x2 y2 color z,
      d = DrawCall.spriteStripe sprite stripe srcX x1 y1 x2 y2 color z := by
  unfold drawSprites at h
  rw [List.mem_flatMap] at h
  obtain ⟨sp, -, hsp⟩ := h
  unfold drawSprite at hsp
  split_ifs at hsp
  · rw [List.mem_flatMap] at hsp
    obtain ⟨st, -, hst⟩ := hsp
    obtain ⟨⟨srcX, x1, y1, x2, y2, color, z, he⟩, -, -⟩ := mem_drawStripe hst
    exact ⟨sp, st, srcX, x1, y1, x2, y2, color, z, he⟩
  · exact absurd hsp (List.not_mem_nil _)

theorem Sampled_congr (a : DrawArgs α) (l1 l2 : List (DrawCall α))
    (h : ∀ x wall_dist texture texX x1 y1 x2 y2 color_scaled z,
      DrawCall.wallSlice WALL_PASS x wall_dist texture texX x1 y1 x2 y2 color_scaled z ∈ l1 ↔
        DrawCall.wallSlice WALL_PASS x wall_dist texture texX x1 y1 x2 y2 color_scaled z ∈ l2)
    (i j : Nat) : Sampled a l1 i j ↔ Sampled a l2 i j := by
  unfold Sampled
  constructor
  · rintro ⟨wd, tex, tX, a1, b1, a2, b2, col, z, y, hmem, hy, hw⟩
    exact ⟨wd, tex, tX, a1, b1, a2, b2, col, z, y, (h _ _ _ _ _ _ _ _ _ _).mp hmem, hy, hw⟩
  · rintro ⟨wd, tex, tX, a1, b1, a2, b2, col, z, y, hmem, hy, hw⟩
    exact ⟨wd, tex, tX, a1, b1, a2, b2, col, z, y, (h _ _ _ _ _ _ _ _ _ _).mpr hmem, hy, hw⟩

theorem draw_eq_of_castPasses (a : DrawArgs α) (fuel : Nat) (sprites : List (Sprite α))
    (b : Bitmap) (hready : a.cam._ready = true) (hfps : a.cam._fps_enabled = false)
    (fr : FrameState α) (hcp : castPasses a fuel (drawInit a b) = some fr) :
    draw a fuel sprites b =
      some (fr._ceiling_floor,
        fr.calls ++ drawSprites a fr.pass_data sprites ++
          [DrawCall.ceilingFloor fr._ceiling_floor (-100 - 50)]) := by
  unfold draw
  rw [if_pos hready]
  dsimp only
  rw [hcp]
  dsimp only
  simp only [hfps, Bool.false_eq_true, if_false]

theorem castPasses_of_draw (a : DrawArgs α) (fuel : Nat) (sprites : List (Sprite α))
    (b : Bitmap) (hready : a.cam._ready = true) (r : Bitmap × List (DrawCall α))
    (h : draw a fuel sprites b = some r) :
    ∃ fr, castPasses a fuel (drawInit a b) = some fr := by
  unfold draw at h
  rw [if_pos hready] at h
  dsimp only at h
  cases hcp : castPasses a fuel (drawInit a b) with
  | none =>
    rw [hcp] at h
    cases h
  | some fr => exact ⟨fr, rfl⟩

theorem wall_pass_slice_mem_frame (a : DrawArgs α) (fr : FrameState α)
    (sprites : List (Sprite α)) (image : Bitmap) (zc : α) (x : Nat) (wall_dist : α)
    (texture : Image) (texX x1 y1 x2 y2 color_scaled : Int) (z : α) :
    DrawCall.wallSlice WALL_PASS x wall_dist texture texX x1 y1 x2 y2 color_scaled z ∈
        fr.calls ++ drawSprites a fr.pass_data sprites ++ [DrawCall.ceilingFloor image zc] ↔
      DrawCall.wallSlice WALL_PASS x wall_dist texture texX x1 y1 x2 y2 color_scaled z ∈
        fr.calls := by
  rw [List.mem_append, List.mem_append, List.mem_singleton]
  constructor
  · rintro ((h | h) | h)
    · exact h
    · obtain ⟨_, _, _, _, _, _, _, _, _, he⟩ := mem_drawSprites a _ _ _ h
      cases he
    · cases h
  · exact fun h => Or.inl (Or.inl h)

theorem draw_writes (a : DrawArgs α) (fuel : Nat) (sprites : List (Sprite α))
    (hready : a.cam._ready = true) (hfps : a.cam._fps_enabled = false) (b1 b2 : Bitmap)
    (r1 : Bitmap × List (DrawCall α)) (h1 : draw a fuel sprites b1 = some r1) :
    ∃ r2, draw a fuel sprites b2 = some r2 ∧
      PixelsRel a (b1.resize a.screen_w a.screen_h Color.NONE)
        (b2.resize a.screen_w a.screen_h Color.NONE) r1.2 r1.1 r2.1 := by
  have h0 : FrameWrites a (b1.resize a.screen_w a.screen_h Color.NONE)
      (b2.resize a.screen_w a.screen_h Color.NONE) (drawInit a b1) (drawInit a b2) := by
    refine ⟨rfl, rfl, ?_, ?_, fun i j => ⟨fun hs => ?_, fun _ => ⟨rfl, rfl⟩⟩⟩
    · exact (Bitmap.resize_size b1 _ _ _).1.trans (Bitmap.resize_size b2 _ _ _).1.symm
    · exact (Bitmap.resize_size b1 _ _ _).2.trans (Bitmap.resize_size b2 _ _ _).2.symm
    · obtain ⟨_, _, _, _, _, _, _, _, _, _, hmem, -, -⟩ := hs
      exact absurd hmem (List.not_mem_nil _)
  obtain ⟨fr1, hcp⟩ := castPasses_of_draw a fuel sprites b1 hready r1 h1
  obtain ⟨fr2, hcp2, hrel⟩ := castPasses_writes a fuel h0 fr1 hcp
  rw [draw_eq_of_castPasses a fuel sprites b1 hready hfps fr1 hcp] at h1
  simp only [Option.some.injEq] at h1
  subst h1
  refine ⟨_, draw_eq_of_castPasses a fuel sprites b2 hready hfps fr2 hcp2, ?_⟩
  obtain ⟨-, -, hw, hh, hpx⟩ := hrel
  have hs : ∀ i j, Sampled a (fr1.calls ++ drawSprites a fr1.pass_data sprites ++
      [DrawCall.ceilingFloor fr1._ceiling_floor (-100 - 50)]) i j ↔ Sampled a fr1.calls i j :=
    fun i j => Sampled_congr a _ _
      (fun x wd tex tX x1 y1 x2 y2 col z =>
        wall_pass_slice_mem_frame a fr1 sprites _ _ x wd tex tX x1 y1 x2 y2 col z) i j
  refine ⟨hw, hh, fun i j => ⟨fun h => (hpx i j).1 ((hs i j).mp h), fun h => ?_⟩⟩
  exact (hpx i j).2 (fun h2 => h ((hs i j).mpr h2))

/-- C9 (amended): for a ready camera with the FPS overlay off, a frame that
ends from one previous buffer content ends from any other, and for each pixel
of the buffer: if a sample is written to it during the frame (a row of the
floor and ceiling loop of a slice of the solid-wall pass writes it), its
content after the call is the same in both runs, so it does not depend on the
buffer before the call; if no sample is written to it, it still holds, in each
run, what the buffer held before the call (as `resize` left it).  A row of the
loop whose sample has no ceiling texture leaves its ceiling pixel fully
transparent, and one whose sample has no floor texture leaves its floor pixel
fully transparent (when the ceiling pixel of that row is another one). -/
theorem ceiling_floor_written_or_kept (a : DrawArgs α) (fuel : Nat)
    (sprites : List (Sprite α)) (hready : a.cam._ready = true)
    (hfps : a.cam._fps_enabled = false) (b1 b2 : Bitmap)
    (r1 : Bitmap × List (DrawCall α)) (h1 : draw a fuel sprites b1 = some r1) :
    (∃ r2, draw a fuel sprites b2 = some r2 ∧
      ∀ i j,
        (Sampled a r1.2 i j → r1.1.pixels i j = r2.1.pixels i j) ∧
        (¬ Sampled a r1.2 i j →
          r1.1.pixels i j = (b1.resize a.screen_w a.screen_h Color.NONE).pixels i j ∧
          r2.1.pixels i j = (b2.resize a.screen_w a.screen_h Color.NONE).pixels i j)) ∧
    (∀ (x : Nat) (wall_dist floorXWall floorYWall : α) (bmp : Bitmap) (y : Int),
      ((floorSample a wall_dist floorXWall floorYWall y).ceiling = none →
        0 ≤ (a.screen_h : Int) + cameraPitch a - y →
        (a.screen_h : Int) + cameraPitch a - y < a.screen_h →
        (floorCeilingRow a x wall_dist floorXWall floorYWall bmp y).pixels x
          ((a.screen_h : Int) + cameraPitch a - y).toNat = Color.NONE) ∧
      ((floorSample a wall_dist floorXWall floorYWall y).floor = none →
        0 ≤ y + cameraPitch a → y + cameraPitch a < a.screen_h →
        y + cameraPitch a ≠ (a.screen_h : Int) + cameraPitch a - y →
        (floorCeilingRow a x wall_dist floorXWall floorYWall bmp y).pixels x
          (y + cameraPitch a).toNat = Color.NONE)) := by
  obtain ⟨r2, h2, hrel⟩ := draw_writes a fuel sprites hready hfps b1 b2 r1 h1
  exact ⟨⟨r2, h2, hrel.2.2⟩, fun x wall_dist floorXWall floorYWall bmp y =>
    floorCeilingRow_transparent a x wall_dist floorXWall floorYWall bmp y⟩

theorem borderedGrid_outside (wall : Image) (i j : Int)
    (h : ¬(0 ≤ i ∧ i < 0 + ((3 : Nat) : Int) ∧ 0 ≤ j ∧ j < 0 + ((3 : Nat) : Int))) :
    (borderedGrid wall i j : MapData α).invalid = true := by
  have h2 : i < 0 ∨ j < 0 ∨ 3 ≤ i ∨ 3 ≤ j := by omega
  simp only [borderedGrid, if_pos h2]
  rfl

theorem gridScene_far_wall_slices (b : Bitmap) (fr : FrameState ℝ)
    (h : castPasses
      (gridScene (fun y x => Complex.arg ⟨x, y⟩) Real.pi Real.sqrt ⟨8, 8⟩ 0 (-0.25) 8) 7
      (drawInit
        (gridScene (fun y x => Complex.arg ⟨x, y⟩) Real.pi Real.sqrt ⟨8, 8⟩ 0 (-0.25) 8) b) =
      some fr) :
    (∃ wall_dist texture texX x1 y1 x2 color_scaled z,
      DrawCall.wallSlice WALL_PASS 0 wall_dist texture texX x1 y1 x2 7 color_scaled z ∈
        fr.calls) ∧
    (∀ x wall_dist texture texX x1 y1 x2 y2 color_scaled z,
      DrawCall.wallSlice WALL_PASS x wall_dist texture texX x1 y1 x2 y2 color_scaled z ∈
        fr.calls → y2 = 7) := by
  obtain ⟨fr1, h1, h2⟩ := (castPasses_eq_some _ _ _ _).mp h
  have hk : (0 : ℝ) < 0.25 := by norm_num
  obtain ⟨cs, fr1b, g1, g2, g3, g4, g5, g6, g7⟩ := grid_slice
    (gridScene (fun y x => Complex.arg ⟨x, y⟩) Real.pi Real.sqrt ⟨8, 8⟩ 0 (-0.25) 8) rfl rfl rfl
    0.25 hk 0 (-0.25) (gridScene_ray_dir_x _ _ _ _ _) (gridScene_ray_dir_y _ _ _ _ _) 6
    (drawInit
      (gridScene (fun y x => Complex.arg ⟨x, y⟩) Real.pi Real.sqrt ⟨8, 8⟩ 0 (-0.25) 8) b)
    1 0 1 0.17 (Or.inl ⟨rfl, rfl, rfl, rfl, rfl, rfl⟩) ⟨8, 8⟩
    (borderedGrid_border ⟨8, 8⟩ 1 0 (by norm_num) (by norm_num) (by norm_num) (by norm_num)
      (by norm_num))
  have hlh : lineHeight
      (gridScene (fun y x => Complex.arg ⟨x, y⟩) Real.pi Real.sqrt ⟨8, 8⟩ 0 (-0.25) 8)
      (0.5 / 0.25) = 4 := by
    norm_num [lineHeight, gridScene]
  have hy2 : sliceY2
      (gridScene (fun y x => Complex.arg ⟨x, y⟩) Real.pi Real.sqrt ⟨8, 8⟩ 0 (-0.25) 8) 4 = 7 := by
    unfold sliceY2
    rw [gridScene_cameraPitch]
    norm_num [gridScene, toInt]
  obtain ⟨c1, -⟩ := g7 (by rw [hlh]; norm_num)
  rw [hlh, hy2] at c1
  rw [castPass_width_one _ rfl, g1] at h1
  simp only [Option.map_some', Option.some.injEq] at h1
  subst h1
  have h3 := h2
  unfold castPass at h3
  obtain ⟨-, new, k1, k2⟩ := castColumns_sprite_pass _ 7 _ fr1b _ h3
  have hc : fr1b.calls = [DrawCall.wallSlice WALL_PASS 0 (0.5 / 0.25) ⟨8, 8⟩
      (texX (fr1b.pass_data 0) cs ⟨8, 8⟩ 0.17) (((0 : Nat) : Int) - 1)
      (sliceY1 (gridScene (fun y x => Complex.arg ⟨x, y⟩) Real.pi Real.sqrt ⟨8, 8⟩ 0 (-0.25) 8)
        4) ((0 : Nat) : Int) 7
      (colorScaled
        (gridScene (fun y x => Complex.arg ⟨x, y⟩) Real.pi Real.sqrt ⟨8, 8⟩ 0 (-0.25) 8) 4)
      (-100 - 0.5 / 0.25 * 0.05)] := c1
  constructor
  · have hm : DrawCall.wallSlice WALL_PASS 0 (0.5 / 0.25) ⟨8, 8⟩
        (texX (fr1b.pass_data 0) cs ⟨8, 8⟩ 0.17) (((0 : Nat) : Int) - 1)
        (sliceY1
          (gridScene (fun y x => Complex.arg ⟨x, y⟩) Real.pi Real.sqrt ⟨8, 8⟩ 0 (-0.25) 8) 4)
        ((0 : Nat) : Int) 7
        (colorScaled
          (gridScene (fun y x => Complex.arg ⟨x, y⟩) Real.pi Real.sqrt ⟨8, 8⟩ 0 (-0.25) 8) 4)
        (-100 - 0.5 / 0.25 * 0.05) ∈ fr.calls := by
      rw [k1, hc]
      exact List.mem_append_left _ (List.mem_singleton_self _)
    exact ⟨_, _, _, _, _, _, _, _, hm⟩
  · intro x wd tex tX x1 y1 x2 y2 col z hmem
    rw [k1, hc, List.mem_append, List.mem_singleton] at hmem
    rcases hmem with he | hn
    · injection he with e1 e2 e3 e4 e5 e6 e7 e8 e9
    · obtain ⟨_, _, _, _, _, _, _, _, _, _, he, -⟩ := k2 _ hn
      injection he with e1
      exact absurd e1 (by decide)

/-- Witness for C9 (amended): `gridScene` facing (0, -0.25) on a window 1 wide and
8 high has its wall at distance 2 and a slice of height 4, whose floor and
ceiling loop visits the rows 5 to 9 and writes the pixels of rows 5, 6, 7 (floor)
and 3, 2, 1, 0 (ceiling).  Drawn on the white and on the transparent buffer,
pixel (0, 5) is written and is the same in both runs, while pixel (0, 4) is not
written: it stays opaque white in the first run and transparent in the second. -/
theorem ceiling_floor_written_or_kept_witness :
    ∃ r1 r2,
      draw (gridScene (fun y x => Complex.arg ⟨x, y⟩) Real.pi Real.sqrt ⟨8, 8⟩ 0 (-0.25) 8) 7 []
        whiteColumn = some r1 ∧
      draw (gridScene (fun y x => Complex.arg ⟨x, y⟩) Real.pi Real.sqrt ⟨8, 8⟩ 0 (-0.25) 8) 7 []
        clearColumn = some r2 ∧
      (Sampled (gridScene (fun y x => Complex.arg ⟨x, y⟩) Real.pi Real.sqrt ⟨8, 8⟩ 0 (-0.25) 8)
          r1.2 0 5 ∧
        r1.1.pixels 0 5 = r2.1.pixels 0 5) ∧
      (¬ Sampled (gridScene (fun y x => Complex.arg ⟨x, y⟩) Real.pi Real.sqrt ⟨8, 8⟩ 0 (-0.25) 8)
          r1.2 0 4 ∧
        r1.1.pixels 0 4 = ⟨255, 255, 255, 255⟩ ∧ r2.1.pixels 0 4 = Color.NONE) := by
  obtain ⟨fr, hcp⟩ := castPasses_of_bounded
    (gridScene (fun y x => Complex.arg ⟨x, y⟩) Real.pi Real.sqrt ⟨8, 8⟩ 0 (-0.25) 8) 0 0 3 3
    (fun i j hij => borderedGrid_outside _ i j hij) 7 (by norm_num)
    (drawInit
      (gridScene (fun y x => Complex.arg ⟨x, y⟩) Real.pi Real.sqrt ⟨8, 8⟩ 0 (-0.25) 8)
      whiteColumn)
  have h1 := draw_eq_of_castPasses
    (gridScene (fun y x => Complex.arg ⟨x, y⟩) Real.pi Real.sqrt ⟨8, 8⟩ 0 (-0.25) 8) 7 []
    whiteColumn rfl rfl fr hcp
  obtain ⟨⟨r2, h2, hpx⟩, -⟩ := ceiling_floor_written_or_kept
    (gridScene (fun y x => Complex.arg ⟨x, y⟩) Real.pi Real.sqrt ⟨8, 8⟩ 0 (-0.25) 8) 7 []
    rfl rfl whiteColumn clearColumn _ h1
  obtain ⟨⟨wd, tex, tX, x1, y1, x2, col, z, hmem⟩, hall⟩ := gridScene_far_wall_slices _ _ hcp
  have hrows : floorRows
      (gridScene (fun y x => Complex.arg ⟨x, y⟩) Real.pi Real.sqrt ⟨8, 8⟩ 0 (-0.25) 8) 7 =
      [5, 6, 7, 8, 9] := by
    unfold floorRows
    rw [gridScene_cameraPitch]
    rfl
  have hs5 : Sampled
      (gridScene (fun y x => Complex.arg ⟨x, y⟩) Real.pi Real.sqrt ⟨8, 8⟩ 0 (-0.25) 8)
      (fr.calls ++ drawSprites
        (gridScene (fun y x => Complex.arg ⟨x, y⟩) Real.pi Real.sqrt ⟨8, 8⟩ 0 (-0.25) 8)
        fr.pass_data [] ++ [DrawCall.ceilingFloor fr._ceiling_floor (-100 - 50)]) 0 5 := by
    refine ⟨wd, tex, tX, x1, y1, x2, 7, col, z, 5,
      (wall_pass_slice_mem_frame _ fr [] _ _ _ _ _ _ _ _ _ _ _ _).mpr hmem, ?_, ?_⟩
    · rw [hrows]
      decide
    · unfold RowWrites
      rw [gridScene_cameraPitch]
      left
      refine ⟨by norm_num, ?_, by norm_num⟩
      show (5 : Int) + 0 < ((8 : Nat) : Int)
      norm_num
  have hs4 : ¬ Sampled
      (gridScene (fun y x => Complex.arg ⟨x, y⟩) Real.pi Real.sqrt ⟨8, 8⟩ 0 (-0.25) 8)
      (fr.calls ++ drawSprites
        (gridScene (fun y x => Complex.arg ⟨x, y⟩) Real.pi Real.sqrt ⟨8, 8⟩ 0 (-0.25) 8)
        fr.pass_data [] ++ [DrawCall.ceilingFloor fr._ceiling_floor (-100 - 50)]) 0 4 := by
    rintro ⟨wd', tex', tX', a1, b1, a2, b2, col', z', y, hm, hy, hw⟩
    have hm2 := (wall_pass_slice_mem_frame _ fr [] _ _ _ _ _ _ _ _ _ _ _ _).mp hm
    have e := hall _ _ _ _ _ _ _ _ _ _ hm2
    subst e
    rw [hrows] at hy
    unfold RowWrites at hw
    rw [gridScene_cameraPitch] at hw
    have h8 : (((gridScene (fun y x => Complex.arg ⟨x, y⟩) Real.pi Real.sqrt ⟨8, 8⟩ 0 (-0.25)
        8).screen_h : Nat) : Int) = 8 := rfl
    rw [h8] at hw
    simp only [List.mem_cons, List.mem_singleton, List.not_mem_nil, or_false] at hy
    rcases hy with e | e | e | e | e <;> subst e <;> omega
  have hne : (⟨255, 255, 255, 255⟩ : Color) ≠ Color.NONE := by decide
  refine ⟨_, r2, h1, h2, ⟨hs5, (hpx 0 5).1 hs5⟩, hs4, ?_, ?_⟩
  · exact ((hpx 0 4).2 hs4).1
  · exact ((hpx 0 4).2 hs4).2

end DrawTheorems

end RayCaster

end Gosu
